import Mathlib

/-!
# dm-multiplayer: the simulation core of `main.go`

A shallow embedding of the entity model, the entity container and `Level.tick`.

Modelling conventions.

* `float64` is embedded as `ℚ` (exact arithmetic: rounding, infinities and NaN are
  not represented); Go `int` is `Int`.
* The container holds pointers in Go; here it is a `List Entity` of values and an
  entity is identified by its index in the list.  The methods that mutate a
  receiver return the new value, and a method that mutates other entities of the
  level returns the new list.
* The mutex of `EntityList` is not represented: every operation runs atomically.
* `time.Now()` is an input, see `Clock`.
* `rand.Float64()` is an input: `SpawnEntity` consumes a list of sample pairs and
  returns `none` when the list is used up before a free position is found.
* `Level.tick` is split in `tickPass`, the two nested `Iterate` loops, and the call of
  `RemoveInactive`.  The entity stored at an index before the tick is the entity stored
  at that index after `tickPass`; `RemoveInactive` then shifts the indices behind the
  entity it removes.
* The messages of the sessions and the game loop interleave freely: `Op` and `run`.
-/

namespace DmMultiplayer

/-! ## Entity kinds -/

inductive EntityType where
  | WallType
  | CharacterType
  | BulletType
deriving DecidableEq, Repr

structure CollisionResult where
  Blocked : Bool
deriving DecidableEq, Repr

/-! ## Wall -/

structure Wall where
  x : ℚ
  y : ℚ
  width : Int
  height : Int
deriving DecidableEq, Repr

/-- The zero value `Wall{}` used as the sentinel for the world boundary. -/
def BoundaryWall : Wall := { x := 0, y := 0, width := 0, height := 0 }

@[simp] def Wall.Id (_w : Wall) : String := "wall"
@[simp] def Wall.Active (_w : Wall) : Bool := true
@[simp] def Wall.SetActive (w : Wall) (_b : Bool) : Wall := w
@[simp] def Wall.Type (_w : Wall) : EntityType := EntityType.WallType
@[simp] def Wall.Name (_w : Wall) : String := "wall"
@[simp] def Wall.X (w : Wall) : ℚ := w.x
@[simp] def Wall.Y (w : Wall) : ℚ := w.y
@[simp] def Wall.Width (w : Wall) : Int := w.width
@[simp] def Wall.Height (w : Wall) : Int := w.height
/-- Returns `(top, right, bottom, left)`. -/
@[simp] def Wall.BoundingBox (w : Wall) : ℚ × ℚ × ℚ × ℚ :=
  (w.y, w.x + (w.width : ℚ), w.y + (w.height : ℚ), w.x)
@[simp] def Wall.VelocityX (_w : Wall) : ℚ := 0
@[simp] def Wall.VelocityY (_w : Wall) : ℚ := 0
@[simp] def Wall.SetPosition (w : Wall) (_x _y : ℚ) : Wall := w
@[simp] def Wall.SetVelocity (w : Wall) (_velocityX _velocityY : ℚ) : Wall := w
@[simp] def Wall.Speed (_w : Wall) : ℚ := 0
@[simp] def Wall.Friction (_w : Wall) : ℚ := 0

/-! ## Character -/

structure Character where
  id : String
  active : Bool
  score : Int
  lastHit : ℚ
  name : String
  x : ℚ
  y : ℚ
  width : Int
  height : Int
  velocityX : ℚ
  velocityY : ℚ
  speed : ℚ
  friction : ℚ
deriving DecidableEq, Repr

@[simp] def Character.Id (c : Character) : String := c.id
@[simp] def Character.Active (c : Character) : Bool := c.active
@[simp] def Character.AdjScore (c : Character) (x : Int) : Character :=
  { c with score := c.score + x }
@[simp] def Character.AdjLastHit (c : Character) (x : ℚ) : Character :=
  { c with lastHit := x }
@[simp] def Character.SetActive (c : Character) (b : Bool) : Character :=
  { c with active := b }
@[simp] def Character.Type (_c : Character) : EntityType := EntityType.CharacterType
@[simp] def Character.Name (c : Character) : String := c.name
@[simp] def Character.X (c : Character) : ℚ := c.x
@[simp] def Character.Y (c : Character) : ℚ := c.y
@[simp] def Character.Width (c : Character) : Int := c.width
@[simp] def Character.Height (c : Character) : Int := c.height
/-- Returns `(top, right, bottom, left)`. -/
@[simp] def Character.BoundingBox (c : Character) : ℚ × ℚ × ℚ × ℚ :=
  (c.y, c.x + (c.width : ℚ), c.y + (c.height : ℚ), c.x)
@[simp] def Character.VelocityX (c : Character) : ℚ := c.velocityX
@[simp] def Character.VelocityY (c : Character) : ℚ := c.velocityY
@[simp] def Character.SetPosition (c : Character) (x y : ℚ) : Character :=
  { c with x := x, y := y }
@[simp] def Character.SetVelocity (c : Character) (velocityX velocityY : ℚ) : Character :=
  { c with velocityX := velocityX, velocityY := velocityY }
@[simp] def Character.Speed (c : Character) : ℚ := c.speed
@[simp] def Character.Friction (c : Character) : ℚ := c.friction

/-! ## Bullet -/

structure Bullet where
  id : String
  active : Bool
  name : String
  x : ℚ
  y : ℚ
  width : Int
  height : Int
  velocityX : ℚ
  velocityY : ℚ
  speed : ℚ
  friction : ℚ
deriving DecidableEq, Repr

@[simp] def Bullet.Id (b : Bullet) : String := b.id
@[simp] def Bullet.Active (b : Bullet) : Bool := b.active
@[simp] def Bullet.SetActive (b : Bullet) (_b : Bool) : Bullet := { b with active := _b }
@[simp] def Bullet.Type (_b : Bullet) : EntityType := EntityType.BulletType
@[simp] def Bullet.Name (b : Bullet) : String := b.name
@[simp] def Bullet.X (b : Bullet) : ℚ := b.x
@[simp] def Bullet.Y (b : Bullet) : ℚ := b.y
@[simp] def Bullet.Width (b : Bullet) : Int := b.width
@[simp] def Bullet.Height (b : Bullet) : Int := b.height
/-- Returns `(top, right, bottom, left)`. -/
@[simp] def Bullet.BoundingBox (b : Bullet) : ℚ × ℚ × ℚ × ℚ :=
  (b.y, b.x + (b.width : ℚ), b.y + (b.height : ℚ), b.x)
@[simp] def Bullet.VelocityX (b : Bullet) : ℚ := b.velocityX
@[simp] def Bullet.VelocityY (b : Bullet) : ℚ := b.velocityY
@[simp] def Bullet.Speed (b : Bullet) : ℚ := b.speed
@[simp] def Bullet.SetPosition (b : Bullet) (x y : ℚ) : Bullet := { b with x := x, y := y }
@[simp] def Bullet.SetVelocity (b : Bullet) (velocityX velocityY : ℚ) : Bullet :=
  { b with velocityX := velocityX, velocityY := velocityY }
@[simp] def Bullet.Friction (b : Bullet) : ℚ := b.friction

/-! ## The `Entity` interface

The three implementations of the interface, with dynamic dispatch written as a
match on the implementing type. -/

inductive Entity where
  | wall (w : Wall)
  | character (c : Character)
  | bullet (b : Bullet)
deriving DecidableEq, Repr

def Entity.Id : Entity → String
  | wall w => w.Id
  | character c => c.Id
  | bullet b => b.Id

def Entity.Active : Entity → Bool
  | wall w => w.Active
  | character c => c.Active
  | bullet b => b.Active

def Entity.SetActive : Entity → Bool → Entity
  | wall w, v => wall (w.SetActive v)
  | character c, v => character (c.SetActive v)
  | bullet b, v => bullet (b.SetActive v)

def Entity.Type : Entity → EntityType
  | wall w => w.Type
  | character c => c.Type
  | bullet b => b.Type

def Entity.Name : Entity → String
  | wall w => w.Name
  | character c => c.Name
  | bullet b => b.Name

def Entity.X : Entity → ℚ
  | wall w => w.X
  | character c => c.X
  | bullet b => b.X

def Entity.Y : Entity → ℚ
  | wall w => w.Y
  | character c => c.Y
  | bullet b => b.Y

def Entity.Width : Entity → Int
  | wall w => w.Width
  | character c => c.Width
  | bullet b => b.Width

def Entity.Height : Entity → Int
  | wall w => w.Height
  | character c => c.Height
  | bullet b => b.Height

def Entity.BoundingBox : Entity → ℚ × ℚ × ℚ × ℚ
  | wall w => w.BoundingBox
  | character c => c.BoundingBox
  | bullet b => b.BoundingBox

def Entity.VelocityX : Entity → ℚ
  | wall w => w.VelocityX
  | character c => c.VelocityX
  | bullet b => b.VelocityX

def Entity.VelocityY : Entity → ℚ
  | wall w => w.VelocityY
  | character c => c.VelocityY
  | bullet b => b.VelocityY

def Entity.SetPosition : Entity → ℚ → ℚ → Entity
  | wall w, x, y => wall (w.SetPosition x y)
  | character c, x, y => character (c.SetPosition x y)
  | bullet b, x, y => bullet (b.SetPosition x y)

def Entity.SetVelocity : Entity → ℚ → ℚ → Entity
  | wall w, vx, vy => wall (w.SetVelocity vx vy)
  | character c, vx, vy => character (c.SetVelocity vx vy)
  | bullet b, vx, vy => bullet (b.SetVelocity vx vy)

def Entity.Speed : Entity → ℚ
  | wall w => w.Speed
  | character c => c.Speed
  | bullet b => b.Speed

def Entity.Friction : Entity → ℚ
  | wall w => w.Friction
  | character c => c.Friction
  | bullet b => b.Friction

/-- The call `entity.(*Character).AdjScore(x)`; the source reaches it only after
checking `entity.Type() == CharacterType`. -/
def Entity.AdjScore : Entity → Int → Entity
  | character c, x => character (c.AdjScore x)
  | e, _ => e

/-- The call `entity.(*Character).AdjLastHit(x)`; the source reaches it only after
checking `entity.Type() == CharacterType`. -/
def Entity.AdjLastHit : Entity → ℚ → Entity
  | character c, x => character (c.AdjLastHit x)
  | e, _ => e

/-! ## Container and level -/

/-- The slice `EntityList.entities`. -/
abbrev EntityList := List Entity

structure Level where
  width : Int
  height : Int
  entities : EntityList
  tickTime : ℚ
deriving DecidableEq, Repr

/-- The argument `entity` of a call of `HandleCollision`: the pointer `&BoundaryWall`
or the pointer stored at an index of the container. -/
inductive Ref where
  | boundary
  | index (j : Nat)
deriving DecidableEq, Repr

/-- The readings of the wall clock taken during one tick: `hit i r` is the value of
`time.Now().UnixMilli()` in the call of `HandleCollision` made by the entity at index
`i` with argument `r`, and `elapsed` is `time.Since(t).Milliseconds()` at the end. -/
structure Clock where
  hit : Nat → Ref → Int
  elapsed : Int

/-- Replace the entity stored at index `i` by its image under `f` (a mutation through
the pointer `el.entities[i]`). -/
def updateAt : List Entity → Nat → (Entity → Entity) → List Entity
  | [], _, _ => []
  | e :: es, 0, f => f e :: es
  | e :: es, i + 1, f => e :: updateAt es i f

def EntityList.Append (el : EntityList) (entity : Entity) : EntityList :=
  el ++ [entity]

/-- The loop of `RemoveInactive`: the first entity that is not active is cut out of the
slice and the function returns. -/
def EntityList.RemoveInactive : EntityList → EntityList
  | [] => []
  | entity :: rest =>
    if !entity.Active then rest else entity :: EntityList.RemoveInactive rest

/-- The overlap test of `Level.tick`: the box of size `w × h` placed at `(newX, newY)`
against the bounding box of `other`. -/
def overlaps (newX newY : ℚ) (w h : Int) (other : Entity) : Bool :=
  match other.BoundingBox with
  | (top, right, bottom, left) =>
    decide (newX < right) && decide (newX + (w : ℚ) > left) &&
      decide (newY < bottom) && decide (newY + (h : ℚ) > top)

/-! ## Collision resolution -/

def Wall.HandleCollision (_w : Wall) (_entity : Entity) : CollisionResult :=
  { Blocked := false }

def Character.HandleCollision (_c : Character) (entity : Entity) : CollisionResult :=
  if entity.Type = EntityType.CharacterType ∨ entity.Type = EntityType.WallType then
    { Blocked := true }
  else
    { Blocked := false }

/-- The entity a `Ref` points to. -/
def Ref.deref (es : List Entity) : Ref → Option Entity
  | Ref.boundary => some (Entity.wall BoundaryWall)
  | Ref.index j => es[j]?

/-- A mutation through a `Ref`.  The methods called through it are methods of
`Character`; `BoundaryWall` is a `Wall`, so it is never their receiver. -/
def Ref.update (es : List Entity) (f : Entity → Entity) : Ref → List Entity
  | Ref.boundary => es
  | Ref.index j => updateAt es j f

/-- The method `Bullet.HandleCollision` of the bullet `b` stored at index `i`, called
with `entity = *r`; `now` is the reading of `time.Now().UnixMilli()`.  It returns the
entities of the level after the call and the result of the call. -/
def Bullet.HandleCollision (b : Bullet) (i : Nat) (es : List Entity) (r : Ref)
    (entity : Entity) (now : Int) : List Entity × CollisionResult :=
  if entity.Type = EntityType.CharacterType ∧ entity.Id ≠ b.id then
    let es1 := updateAt es i (fun e => e.SetActive false)
    let es2 := r.update es1 (fun e => e.AdjScore (-1))
    let es3 := r.update es2 (fun e => e.AdjLastHit (now : ℚ))
    let es4 := es3.map (fun e =>
      if e.Type = EntityType.CharacterType ∧ e.Id = b.id then e.AdjScore 1 else e)
    (es4, { Blocked := false })
  else if entity.Type = EntityType.WallType then
    (updateAt es i (fun e => e.SetActive false), { Blocked := true })
  else
    (es, { Blocked := false })

/-- The interface call `entity.HandleCollision(level, other)` where `entity` is the
entity stored at index `i` and `other` is `*r`. -/
def Entity.HandleCollision (es : List Entity) (i : Nat) (r : Ref) (now : Int) :
    List Entity × CollisionResult :=
  match es[i]?, r.deref es with
  | some (Entity.wall w), some other => (es, w.HandleCollision other)
  | some (Entity.character c), some other => (es, c.HandleCollision other)
  | some (Entity.bullet b), some other => b.HandleCollision i es r other now
  | _, _ => (es, { Blocked := false })

/-! ## `Level.tick` -/

/-- The first `n` iterations of the inner `Iterate` of `Level.tick` (the collision
checks of the entity at index `i`, whose id is `id`, whose size is `w × h` and whose
proposed position is `(newX, newY)`), started in the state `s`: the entities of the
level and the local variable `blocked`.  The operator `||` of Go evaluates its right
operand only when the left one is false. -/
def collisionChecks (clock : Clock) (i : Nat) (id : String) (newX newY : ℚ) (w h : Int) :
    Nat → List Entity × Bool → List Entity × Bool
  | 0, s => s
  | n + 1, s =>
    let s1 := collisionChecks clock i id newX newY w h n s
    match s1.1[n]? with
    | none => s1
    | some other =>
      if id ≠ other.Id ∧ overlaps newX newY w h other = true then
        if s1.2 then s1
        else
          let res := Entity.HandleCollision s1.1 i (Ref.index n) (clock.hit i (Ref.index n))
          (res.1, res.2.Blocked)
      else s1

/-- The value of `newX` after the boundary check of `Level.tick` on one axis: `p` is
the proposed coordinate, `size` the extent of the entity and `limit` that of the level. -/
def clampAxis (p : ℚ) (size limit : Int) : ℚ :=
  if p < 0 then 0
  else if p + (size : ℚ) > (limit : ℚ) then (limit : ℚ) - (size : ℚ)
  else p

/-- Whether the boundary check of `Level.tick` on one axis sets `hitWall`. -/
def hitsAxis (p : ℚ) (size limit : Int) : Bool :=
  decide (p < 0) || decide (p + (size : ℚ) > (limit : ℚ))

/-- The local variable `newX` of `Level.tick` after the boundary checks. -/
def newX (level : Level) (entity : Entity) : ℚ :=
  clampAxis (entity.X + entity.VelocityX) entity.Width level.width

/-- The local variable `newY` of `Level.tick` after the boundary checks. -/
def newY (level : Level) (entity : Entity) : ℚ :=
  clampAxis (entity.Y + entity.VelocityY) entity.Height level.height

/-- The local variable `hitWall` of `Level.tick` after the boundary checks. -/
def hitWall (level : Level) (entity : Entity) : Bool :=
  hitsAxis (entity.X + entity.VelocityX) entity.Width level.width ||
    hitsAxis (entity.Y + entity.VelocityY) entity.Height level.height

/-- The statement `if hitWall { blocked = entity.HandleCollision(level, &BoundaryWall).Blocked }`
for the entity at index `i`: the entities of the level and `blocked` after it. -/
def boundaryCheck (level : Level) (clock : Clock) (es : List Entity) (i : Nat)
    (entity : Entity) : List Entity × Bool :=
  if hitWall level entity then
    let res := Entity.HandleCollision es i Ref.boundary (clock.hit i Ref.boundary)
    (res.1, res.2.Blocked)
  else (es, false)

/-- The boundary check and the collision checks of the entity at index `i`: the
entities of the level and `blocked` when the inner `Iterate` has returned. -/
def tickChecks (level : Level) (clock : Clock) (es : List Entity) (i : Nat)
    (entity : Entity) : List Entity × Bool :=
  collisionChecks clock i entity.Id (newX level entity) (newY level entity)
    entity.Width entity.Height es.length (boundaryCheck level clock es i entity)

/-- The body of the outer `Iterate` of `Level.tick`, run for the entity at index `i`. -/
def tickEntity (level : Level) (clock : Clock) (es : List Entity) (i : Nat) : List Entity :=
  match es[i]? with
  | none => es
  | some entity =>
    let s := tickChecks level clock es i entity
    let es1 :=
      if !s.2 then updateAt s.1 i (fun e => e.SetPosition (newX level entity) (newY level entity))
      else s.1
    updateAt es1 i (fun e =>
      e.SetVelocity (e.VelocityX * e.Friction) (e.VelocityY * e.Friction))

/-- The entities of the level after the first `n` iterations of the outer `Iterate`
of `Level.tick`. -/
def tickUpTo (level : Level) (clock : Clock) : Nat → List Entity
  | 0 => level.entities
  | n + 1 => tickEntity level clock (tickUpTo level clock n) n

/-- The entities of the level after the outer `Iterate` of `Level.tick`, before
`RemoveInactive`. -/
def tickPass (level : Level) (clock : Clock) : List Entity :=
  tickUpTo level clock level.entities.length

def Level.tick (level : Level) (clock : Clock) : Level :=
  { level with
    entities := EntityList.RemoveInactive (tickPass level clock)
    tickTime := (clock.elapsed : ℚ) }

/-! ## `SpawnEntity`, `characterShoot` and the level of `main` -/

/-- The comparison of bounding boxes made by `SpawnEntity`. -/
def boxesIntersect (entity other : Entity) : Bool :=
  match other.BoundingBox, entity.BoundingBox with
  | (top, right, bottom, left), (entTop, entRight, entBottom, entLeft) =>
    decide (entLeft < right) && decide (entRight > left) &&
      decide (entTop < bottom) && decide (entBottom > top)

/-- The test of `SpawnEntity` for the entity against one `other` of the container. -/
def spawnIntersects (entity other : Entity) : Bool :=
  decide (entity.Id ≠ other.Id) && boxesIntersect entity other

/-- The loop of `SpawnEntity`.  Each iteration draws two values of `rand.Float64()`,
given here as the next pair of `samples`; when the samples run out before a free
position is found the result is `none`.  The pause of the source after 100ms without
success changes no data and is not represented. -/
def EntityList.SpawnEntity (el : EntityList) (level : Level) (entity : Entity) :
    List (ℚ × ℚ) → Option EntityList
  | [] => none
  | (rx, ry) :: samples =>
    let x := rx * ((level.width - entity.Width : Int) : ℚ)
    let y := ry * ((level.height - entity.Height : Int) : ℚ)
    let entity := entity.SetPosition x y
    let intersects := el.any (fun other => spawnIntersects entity other)
    if !intersects then some (el ++ [entity])
    else EntityList.SpawnEntity el level entity samples

def characterShoot (level : Level) (character : Entity) (dx dy : ℚ) : Level :=
  let bullet : Bullet :=
    { id := character.Id
      active := true
      name := "bullet"
      x := character.X + (character.Width : ℚ) / 4
      y := character.Y + (character.Height : ℚ) / 4
      width := 8
      height := 8
      velocityX := 0
      velocityY := 0
      speed := 4
      friction := 999 / 1000 }
  let bullet := bullet.SetVelocity (dx * bullet.Speed) (dy * bullet.Speed)
  { level with entities := EntityList.Append level.entities (Entity.bullet bullet) }

/-- The level built by `main`: 800 × 800 with the three static walls appended. -/
def mainLevel : Level :=
  let entities : EntityList := []
  let entities := EntityList.Append entities
    (Entity.wall { x := 600, y := 100, width := 2, height := 400 })
  let entities := EntityList.Append entities
    (Entity.wall { x := 100, y := 600, width := 400, height := 2 })
  let entities := EntityList.Append entities
    (Entity.wall { x := 200, y := 200, width := 350, height := 2 })
  { width := 800, height := 800, entities := entities, tickTime := 0 }

/-- The avatar allocated by `handleConnections` for a new session, with the given id
and name. -/
def newCharacter (id name : String) : Character :=
  { id := id, active := true, score := 0, lastHit := 0, name := name, x := 8, y := 8,
    width := 16, height := 16, velocityX := 0, velocityY := 0, friction := 9 / 10,
    speed := 2 }

/-! ## Sequences of operations -/

/-- Successive calls of `SpawnEntity` on the same level, one for each request: the entity
to spawn and the random samples drawn by its call. -/
def spawnAll (level : Level) : EntityList → List (Entity × List (ℚ × ℚ)) → Option EntityList
  | el, [] => some el
  | el, (entity, samples) :: rest =>
    match EntityList.SpawnEntity el level entity samples with
    | none => none
    | some el' => spawnAll level el' rest

/-- The operations of the program on a level: a new session spawns its avatar
(`handleConnections`, with the id and the name of the avatar and the random samples drawn
by `SpawnEntity`), a session fires a bullet for its avatar (`characterShoot`), the game
loop runs a tick, a session sets the velocity of its avatar (a `direction` message), and
the sender of a session deactivates its avatar after a failed write. -/
inductive Op where
  | spawn (id name : String) (samples : List (ℚ × ℚ))
  | shoot (character : Character) (dx dy : ℚ)
  | tick (clock : Clock)
  | direction (i : Nat) (velocityX velocityY : ℚ)
  | close (i : Nat)

/-- The level after one operation; `none` when `SpawnEntity` does not return. -/
def Op.apply (level : Level) : Op → Option Level
  | Op.spawn id name samples =>
    (EntityList.SpawnEntity level.entities level (Entity.character (newCharacter id name))
      samples).map (fun el => { level with entities := el })
  | Op.shoot character dx dy => some (characterShoot level (Entity.character character) dx dy)
  | Op.tick clock => some (Level.tick level clock)
  | Op.direction i velocityX velocityY =>
    some { level with entities := updateAt level.entities i (fun e =>
      match e with
      | Entity.character c => Entity.character (c.SetVelocity velocityX velocityY)
      | e => e) }
  | Op.close i =>
    some { level with entities := updateAt level.entities i (fun e =>
      match e with
      | Entity.character c => Entity.character (c.SetActive false)
      | e => e) }

/-- The level after a sequence of operations. -/
def run : Level → List Op → Option Level
  | level, [] => some level
  | level, op :: ops =>
    match op.apply level with
    | none => none
    | some level' => run level' ops

/-! ## Auxiliary definitions of the proofs -/

/-- The part of an entity that collision resolution never writes. -/
structure Motion where
  type : EntityType
  id : String
  x : ℚ
  y : ℚ
  width : Int
  height : Int
  velocityX : ℚ
  velocityY : ℚ
  friction : ℚ
deriving DecidableEq

def Entity.motion (e : Entity) : Motion :=
  { type := Entity.Type e, id := e.Id, x := e.X, y := e.Y, width := e.Width, height := e.Height,
    velocityX := e.VelocityX, velocityY := e.VelocityY, friction := e.Friction }

/-- The position of the entity lies in `[0, width - w] × [0, height - h]`. -/
def inBounds (level : Level) (e : Entity) : Prop :=
  0 ≤ e.X ∧ e.X ≤ (level.width : ℚ) - (e.Width : ℚ) ∧
    0 ≤ e.Y ∧ e.Y ≤ (level.height : ℚ) - (e.Height : ℚ)

instance (level : Level) (e : Entity) : Decidable (inBounds level e) := by
  unfold inBounds; infer_instance

/-- The list `es'` has the length of `es`, and each of its entities is related by `R`
to the entity of `es` stored at the same index. -/
def Pointwise (R : Entity → Entity → Prop) (es es' : List Entity) : Prop :=
  es'.length = es.length ∧
    ∀ (k : Nat) (e e' : Entity), es[k]? = some e → es'[k]? = some e' → R e e'

/-- A relation between an earlier and a later state of an entity that holds across every
write made during a tick. -/
structure Stable (R : Entity → Entity → Prop) : Prop where
  refl : ∀ e, R e e
  trans : ∀ e1 e2 e3, R e1 e2 → R e2 e3 → R e1 e3
  adjScore : ∀ e x, R e (e.AdjScore x)
  adjLastHit : ∀ e x, R e (e.AdjLastHit x)
  setPosition : ∀ e x y, R e (e.SetPosition x y)
  setVelocity : ∀ e x y, R e (e.SetVelocity x y)
  deactivate : ∀ b, R (Entity.bullet b) (Entity.bullet (b.SetActive false))

/-- The entity keeps its type, an inactive entity stays inactive, and only a bullet can
change its `active` flag. -/
def activeRel (e e' : Entity) : Prop :=
  Entity.Type e' = Entity.Type e ∧ (e.Active = false → e'.Active = false) ∧
    (Entity.Type e ≠ EntityType.BulletType → e'.Active = e.Active)

/-- A wall stays the same wall. -/
def wallRel (e e' : Entity) : Prop :=
  ∀ w, e = Entity.wall w → e' = Entity.wall w

/-- The later entity differs from the earlier one in position and velocity at most. -/
def keepRel (e e' : Entity) : Prop :=
  (e'.SetPosition 0 0).SetVelocity 0 0 = (e.SetPosition 0 0).SetVelocity 0 0

/-- The bullet stored at index `i` is inactive whenever `blocked` is set. -/
def bulletInv (i : Nat) (s : List Entity × Bool) : Prop :=
  ∃ b, s.1[i]? = some (Entity.bullet b) ∧ (s.2 = true → b.active = false)

/-- The entity with its `active` flag set: what is left of an entity when the flag is
disregarded. -/
def Entity.activated (e : Entity) : Entity := e.SetActive true

/-- The id of the entity when it is a character. -/
def characterId : Entity → Option String
  | Entity.character c => some c.id
  | _ => none

/-- The ids of the characters of the container, in container order. -/
def characterIds (el : EntityList) : List String := el.filterMap characterId

/-- The character id of an entity does not change. -/
def characterIdRel (e e' : Entity) : Prop := characterId e' = characterId e

/-- A `spawn` draws an id that no character of the container has. -/
def freshSpawn (level : Level) : Op → Prop
  | Op.spawn id _ _ => id ∉ characterIds level.entities
  | _ => True

/-- Every `spawn` of the sequence draws an id that no character of the container has at
that moment. -/
def freshSpawns : Level → List Op → Prop
  | _, [] => True
  | level, op :: ops =>
    freshSpawn level op ∧
    (match op.apply level with
      | none => True
      | some level' => freshSpawns level' ops)

/-! ## Example levels -/

/-- A clock that reads 1000 ms at every collision and measures a tick of 1 ms. -/
def clock0 : Clock := { hit := fun _ _ => 1000, elapsed := 1 }

/-- Avatar "a", moving right at its full speed. -/
def avatarA : Character :=
  { newCharacter "a" "A" with x := 100, y := 100, velocityX := 2 }

/-- Avatar "b", at rest just right of avatar "a". -/
def avatarB : Character :=
  { newCharacter "b" "B" with x := 117, y := 100 }

/-- A bullet of avatar "a" flying right, about to enter the box of avatar "b". -/
def bulletA : Bullet :=
  { id := "a", active := true, name := "bullet", x := 120, y := 104, width := 8, height := 8,
    velocityX := 4, velocityY := 0, speed := 4, friction := 999 / 1000 }

/-- An 800 × 800 level with one wall, two avatars and one bullet. -/
def arena : Level :=
  { width := 800, height := 800, tickTime := 0
    entities := [Entity.wall { x := 600, y := 100, width := 2, height := 400 },
      Entity.character avatarA, Entity.character avatarB, Entity.bullet bulletA] }

/-- An 800 × 800 level whose only entity is an avatar at rest left of the world. -/
def strayLevel : Level :=
  { width := 800, height := 800, tickTime := 0
    entities := [Entity.character { newCharacter "a" "A" with x := -5, y := 8 }] }

/-- An 800 × 800 level with avatar "a", avatar "b" at rest at the right edge of the world,
and a bullet of "a" that flies right inside the box of "b" and would leave the world. -/
def edgeShotLevel : Level :=
  { width := 800, height := 800, tickTime := 0
    entities := [Entity.character avatarA, Entity.character { avatarB with x := 784 },
      Entity.bullet { bulletA with x := 790 }] }

/-- A bullet of avatar "a" flying right, about to enter the wall at `x = 600`. -/
def wallShot : Bullet :=
  { id := "a", active := true, name := "bullet", x := 590, y := 200, width := 8, height := 8,
    velocityX := 4, velocityY := 0, speed := 4, friction := 999 / 1000 }

/-- An 800 × 800 level with a wall, an avatar and a bullet about to enter the wall. -/
def wallShotLevel : Level :=
  { width := 800, height := 800, tickTime := 0
    entities := [Entity.wall { x := 600, y := 100, width := 2, height := 400 },
      Entity.character avatarA, Entity.bullet wallShot] }

/-- The level `wallShotLevel` with the avatar of a closed session, already inactive,
stored before the bullet. -/
def lateBulletLevel : Level :=
  { width := 800, height := 800, tickTime := 0
    entities := [Entity.wall { x := 600, y := 100, width := 2, height := 400 },
      Entity.character { avatarA with active := false }, Entity.bullet wallShot] }

/-- A level whose bullet carries the id of the walls. -/
def wallIdLevel : Level :=
  { width := 800, height := 800, tickTime := 0
    entities := [Entity.wall { x := 600, y := 100, width := 2, height := 400 },
      Entity.bullet { wallShot with id := "wall" }] }

/-- A level holding the avatars of two closed sessions, both inactive. -/
def twoClosedLevel : Level :=
  { width := 800, height := 800, tickTime := 0
    entities := [Entity.character { avatarA with active := false, velocityX := 0 },
      Entity.character { avatarB with active := false }] }

/-- A level with avatar "a" moving right and, just right of it, the inactive avatar "g" of
a closed session, moving down. -/
def ghostLevel : Level :=
  { width := 800, height := 800, tickTime := 0
    entities := [Entity.character avatarA,
      Entity.character { avatarB with id := "g", active := false, velocityY := 3 }] }

/-- A container holding avatar "a" only. -/
def loneAvatar : EntityList := [Entity.character avatarA]

/-- The avatar "7" where the sample `(1/2, 1/2)` places it in the level of `main`. -/
def avatar7 : Character := { newCharacter "7" "A" with x := 392, y := 392 }

/-- The avatar "8" where the sample `(1/4, 1/2)` places it in the level of `main`. -/
def avatar8 : Character := { newCharacter "8" "B" with x := 196, y := 392 }

/-- The bullet that avatar "7" fires to the right. -/
def bullet7 : Bullet :=
  { id := "7", active := true, name := "bullet", x := 396, y := 396, width := 8, height := 8,
    velocityX := 4, velocityY := 0, speed := 4, friction := 999 / 1000 }

/-- A session joins the level of `main` with the id "7" and fires to the right. -/
def joinAndShoot : List Op :=
  [Op.spawn "7" "A" [(1 / 2, 1 / 2)], Op.shoot avatar7 1 0]

/-- Two sessions join the level of `main`, the first fires to the right, then the game
loop runs a tick. -/
def shortGame : List Op :=
  [Op.spawn "7" "A" [(1 / 2, 1 / 2)], Op.spawn "8" "B" [(1 / 4, 1 / 2)], Op.shoot avatar7 1 0,
    Op.tick clock0]

/-- The wall that the entity is, when it is a wall. -/
def wallOf : Entity → Option Wall
  | Entity.wall w => some w
  | _ => none

/-- The walls of the container, in container order. -/
def walls (el : EntityList) : List Wall := el.filterMap wallOf

/-- An entity that is a wall stays the same wall, an entity that is not does not become
one. -/
def wallOfRel (e e' : Entity) : Prop := wallOf e' = wallOf e

/-- The method `String` of `EntityType`. -/
def EntityType.String : EntityType → String
  | EntityType.WallType => "wall"
  | EntityType.CharacterType => "character"
  | EntityType.BulletType => "bullet"

/-- The struct `EntitySlim` of `toJSON`; the field `Type'` is the field `Type`. -/
structure EntitySlim where
  Type' : String
  You : Bool
  Id : String
  Score : Int
  LastHit : ℚ
  Name : String
  X : ℚ
  Y : ℚ
  Width : Int
  Height : Int
deriving DecidableEq, Repr

/-- The struct that `toJSON` passes to `json.Marshal`. -/
structure Snapshot where
  Time : Int
  TickTime : ℚ
  Width : Int
  Height : Int
  Entities : List EntitySlim
deriving DecidableEq, Repr

/-- The body of the `Iterate` of `toJSON`: the entry built for one entity. -/
def entitySlim (user entity : Entity) : EntitySlim :=
  let slim : EntitySlim :=
    { Type' := (Entity.Type entity).String
      You := decide (entity.Id = user.Id)
      Id := entity.Id
      Score := 0
      LastHit := 0
      Name := entity.Name
      X := entity.X
      Y := entity.Y
      Width := entity.Width
      Height := entity.Height }
  match entity with
  | Entity.character c => { slim with Score := c.score, LastHit := c.lastHit }
  | _ => slim

/-- The value that `toJSON` encodes; `now` is the reading of `time.Now().UnixMilli()`.
The encoding by `json.Marshal` is not represented. -/
def Level.toJSON (l : Level) (user : Entity) (now : Int) : Snapshot :=
  { Time := now
    TickTime := l.tickTime
    Width := l.width
    Height := l.height
    Entities := l.entities.map (entitySlim user) }

/-- The level of `main` after `joinAndShoot`. -/
def afterJoinAndShoot : Level :=
  { mainLevel with
    entities := mainLevel.entities ++ [Entity.character avatar7, Entity.bullet bullet7] }

/-- The score and `lastHit` of the entity, when it is a character. -/
def record : Entity → Option (Int × ℚ)
  | Entity.character c => some (c.score, c.lastHit)
  | _ => none

/-- The bullet that avatar "a" has just fired to the right, inside the box of the avatar. -/
def ownShot : Bullet :=
  { id := "a", active := true, name := "bullet", x := 104, y := 104, width := 8, height := 8,
    velocityX := 4, velocityY := 0, speed := 4, friction := 999 / 1000 }

/-- Avatar "a" and the bullet that it has just fired. -/
def ownShotLevel : Level :=
  { width := 800, height := 800, tickTime := 0
    entities := [Entity.character avatarA, Entity.bullet ownShot] }

/-- The `blocked` column of the table of collision resolution, by the type of the moving
entity and the type of the other entity: a moving character is blocked by a wall and by
a character and passes through a bullet, a moving bullet is blocked by a wall only.  A
wall never moves; its row holds what `Wall.HandleCollision` returns. -/
def blockedTable : EntityType → EntityType → Bool
  | EntityType.CharacterType, EntityType.WallType => true
  | EntityType.CharacterType, EntityType.CharacterType => true
  | EntityType.CharacterType, EntityType.BulletType => false
  | EntityType.BulletType, EntityType.WallType => true
  | EntityType.BulletType, EntityType.CharacterType => false
  | EntityType.BulletType, EntityType.BulletType => false
  | EntityType.WallType, _ => false

/-- The case `"direction"` of the loop of `handleConnections` for the avatar of the
session: the avatar after the message with the vector `(dirX, dirY)`.  `sqrt` stands for
`math.Sqrt`. -/
def directionIntent (sqrt : ℚ → ℚ) (character : Character) (dirX dirY : ℚ) : Character :=
  let length := sqrt (dirX * dirX + dirY * dirY)
  let dir : ℚ × ℚ := if length > 0 then (dirX / length, dirY / length) else (dirX, dirY)
  character.SetVelocity (dir.1 * character.Speed) (dir.2 * character.Speed)

/-- The case `"shoot"` of the loop of `handleConnections` for the avatar of the session:
the level after the message with the target `(shootX, shootY)`.  `sqrt` stands for
`math.Sqrt`. -/
def shootIntent (sqrt : ℚ → ℚ) (level : Level) (character : Character) (shootX shootY : ℚ) :
    Level :=
  let dx := shootX - character.X
  let dy := shootY - character.Y
  let length := sqrt (dx * dx + dy * dy)
  let d : ℚ × ℚ := if length > 0 then (dx / length, dy / length) else (dx, dy)
  characterShoot level (Entity.character character) d.1 d.2

/-- Avatar "c", at rest just below the place of avatar "b" in `doubleHitLevel`. -/
def avatarC : Character :=
  { newCharacter "c" "C" with x := 300, y := 316 }

/-- A level with avatar "a", the avatars "b" and "c" at rest one below the other, and a
bullet of "a" that flies right into the boxes of both. -/
def doubleHitLevel : Level :=
  { width := 800, height := 800, tickTime := 0
    entities := [Entity.character avatarA, Entity.character { avatarB with x := 300, y := 300 },
      Entity.character avatarC, Entity.bullet { bulletA with x := 302, y := 312 }] }

/-- The score of the entity when it is a character, 0 otherwise. -/
def scoreOf : Entity → Int
  | Entity.character c => c.score
  | _ => 0

/-- The sum of the scores of the characters of the container. -/
def scoreSum (el : EntityList) : Int := (el.map scoreOf).sum

/-! ## Dispatch of the interface methods -/

@[simp] theorem Entity.Id_wall (w : Wall) :
    (Entity.wall w).Id = w.Id := rfl
@[simp] theorem Entity.Id_character (c : Character) :
    (Entity.character c).Id = c.Id := rfl
@[simp] theorem Entity.Id_bullet (b : Bullet) :
    (Entity.bullet b).Id = b.Id := rfl
@[simp] theorem Entity.Active_wall (w : Wall) :
    (Entity.wall w).Active = w.Active := rfl
@[simp] theorem Entity.Active_character (c : Character) :
    (Entity.character c).Active = c.Active := rfl
@[simp] theorem Entity.Active_bullet (b : Bullet) :
    (Entity.bullet b).Active = b.Active := rfl
@[simp] theorem Entity.SetActive_wall (w : Wall) (v : Bool) :
    (Entity.wall w).SetActive v = Entity.wall (w.SetActive v) := rfl
@[simp] theorem Entity.SetActive_character (c : Character) (v : Bool) :
    (Entity.character c).SetActive v = Entity.character (c.SetActive v) := rfl
@[simp] theorem Entity.SetActive_bullet (b : Bullet) (v : Bool) :
    (Entity.bullet b).SetActive v = Entity.bullet (b.SetActive v) := rfl
@[simp] theorem Entity.Type_wall (w : Wall) :
    Entity.Type (Entity.wall w) = Wall.Type w := rfl
@[simp] theorem Entity.Type_character (c : Character) :
    Entity.Type (Entity.character c) = Character.Type c := rfl
@[simp] theorem Entity.Type_bullet (b : Bullet) :
    Entity.Type (Entity.bullet b) = Bullet.Type b := rfl
@[simp] theorem Entity.Name_wall (w : Wall) :
    (Entity.wall w).Name = w.Name := rfl
@[simp] theorem Entity.Name_character (c : Character) :
    (Entity.character c).Name = c.Name := rfl
@[simp] theorem Entity.Name_bullet (b : Bullet) :
    (Entity.bullet b).Name = b.Name := rfl
@[simp] theorem Entity.X_wall (w : Wall) :
    (Entity.wall w).X = w.X := rfl
@[simp] theorem Entity.X_character (c : Character) :
    (Entity.character c).X = c.X := rfl
@[simp] theorem Entity.X_bullet (b : Bullet) :
    (Entity.bullet b).X = b.X := rfl
@[simp] theorem Entity.Y_wall (w : Wall) :
    (Entity.wall w).Y = w.Y := rfl
@[simp] theorem Entity.Y_character (c : Character) :
    (Entity.character c).Y = c.Y := rfl
@[simp] theorem Entity.Y_bullet (b : Bullet) :
    (Entity.bullet b).Y = b.Y := rfl
@[simp] theorem Entity.Width_wall (w : Wall) :
    (Entity.wall w).Width = w.Width := rfl
@[simp] theorem Entity.Width_character (c : Character) :
    (Entity.character c).Width = c.Width := rfl
@[simp] theorem Entity.Width_bullet (b : Bullet) :
    (Entity.bullet b).Width = b.Width := rfl
@[simp] theorem Entity.Height_wall (w : Wall) :
    (Entity.wall w).Height = w.Height := rfl
@[simp] theorem Entity.Height_character (c : Character) :
    (Entity.character c).Height = c.Height := rfl
@[simp] theorem Entity.Height_bullet (b : Bullet) :
    (Entity.bullet b).Height = b.Height := rfl
@[simp] theorem Entity.BoundingBox_wall (w : Wall) :
    (Entity.wall w).BoundingBox = w.BoundingBox := rfl
@[simp] theorem Entity.BoundingBox_character (c : Character) :
    (Entity.character c).BoundingBox = c.BoundingBox := rfl
@[simp] theorem Entity.BoundingBox_bullet (b : Bullet) :
    (Entity.bullet b).BoundingBox = b.BoundingBox := rfl
@[simp] theorem Entity.VelocityX_wall (w : Wall) :
    (Entity.wall w).VelocityX = w.VelocityX := rfl
@[simp] theorem Entity.VelocityX_character (c : Character) :
    (Entity.character c).VelocityX = c.VelocityX := rfl
@[simp] theorem Entity.VelocityX_bullet (b : Bullet) :
    (Entity.bullet b).VelocityX = b.VelocityX := rfl
@[simp] theorem Entity.VelocityY_wall (w : Wall) :
    (Entity.wall w).VelocityY = w.VelocityY := rfl
@[simp] theorem Entity.VelocityY_character (c : Character) :
    (Entity.character c).VelocityY = c.VelocityY := rfl
@[simp] theorem Entity.VelocityY_bullet (b : Bullet) :
    (Entity.bullet b).VelocityY = b.VelocityY := rfl
@[simp] theorem Entity.SetPosition_wall (w : Wall) (x y : ℚ) :
    (Entity.wall w).SetPosition x y = Entity.wall (w.SetPosition x y) := rfl
@[simp] theorem Entity.SetPosition_character (c : Character) (x y : ℚ) :
    (Entity.character c).SetPosition x y = Entity.character (c.SetPosition x y) := rfl
@[simp] theorem Entity.SetPosition_bullet (b : Bullet) (x y : ℚ) :
    (Entity.bullet b).SetPosition x y = Entity.bullet (b.SetPosition x y) := rfl
@[simp] theorem Entity.SetVelocity_wall (w : Wall) (vx vy : ℚ) :
    (Entity.wall w).SetVelocity vx vy = Entity.wall (w.SetVelocity vx vy) := rfl
@[simp] theorem Entity.SetVelocity_character (c : Character) (vx vy : ℚ) :
    (Entity.character c).SetVelocity vx vy = Entity.character (c.SetVelocity vx vy) := rfl
@[simp] theorem Entity.SetVelocity_bullet (b : Bullet) (vx vy : ℚ) :
    (Entity.bullet b).SetVelocity vx vy = Entity.bullet (b.SetVelocity vx vy) := rfl
@[simp] theorem Entity.Speed_wall (w : Wall) :
    (Entity.wall w).Speed = w.Speed := rfl
@[simp] theorem Entity.Speed_character (c : Character) :
    (Entity.character c).Speed = c.Speed := rfl
@[simp] theorem Entity.Speed_bullet (b : Bullet) :
    (Entity.bullet b).Speed = b.Speed := rfl
@[simp] theorem Entity.Friction_wall (w : Wall) :
    (Entity.wall w).Friction = w.Friction := rfl
@[simp] theorem Entity.Friction_character (c : Character) :
    (Entity.character c).Friction = c.Friction := rfl
@[simp] theorem Entity.Friction_bullet (b : Bullet) :
    (Entity.bullet b).Friction = b.Friction := rfl
@[simp] theorem Entity.AdjScore_wall (w : Wall) (x : Int) :
    (Entity.wall w).AdjScore x = Entity.wall w := rfl
@[simp] theorem Entity.AdjScore_character (c : Character) (x : Int) :
    (Entity.character c).AdjScore x = Entity.character (c.AdjScore x) := rfl
@[simp] theorem Entity.AdjScore_bullet (b : Bullet) (x : Int) :
    (Entity.bullet b).AdjScore x = Entity.bullet b := rfl
@[simp] theorem Entity.AdjLastHit_wall (w : Wall) (x : ℚ) :
    (Entity.wall w).AdjLastHit x = Entity.wall w := rfl
@[simp] theorem Entity.AdjLastHit_character (c : Character) (x : ℚ) :
    (Entity.character c).AdjLastHit x = Entity.character (c.AdjLastHit x) := rfl
@[simp] theorem Entity.AdjLastHit_bullet (b : Bullet) (x : ℚ) :
    (Entity.bullet b).AdjLastHit x = Entity.bullet b := rfl

/-! ## Updates of the container -/

theorem length_updateAt (es : List Entity) (i : Nat) (f : Entity → Entity) :
    (updateAt es i f).length = es.length := by
  induction es generalizing i with
  | nil => simp [updateAt]
  | cons e es ih => cases i <;> simp [updateAt, ih]

theorem getElem?_updateAt (es : List Entity) (i j : Nat) (f : Entity → Entity) :
    (updateAt es i f)[j]? = if j = i then es[j]?.map f else es[j]? := by
  induction es generalizing i j with
  | nil => simp [updateAt]
  | cons e es ih =>
    cases i with
    | zero => cases j <;> simp [updateAt]
    | succ i => cases j <;> simp [updateAt, ih]

theorem getElem?_updateAt_self (es : List Entity) (i : Nat) (f : Entity → Entity) :
    (updateAt es i f)[i]? = es[i]?.map f := by
  simp [getElem?_updateAt]

theorem getElem?_updateAt_ne (es : List Entity) {i j : Nat} (f : Entity → Entity) (h : j ≠ i) :
    (updateAt es i f)[j]? = es[j]? := by
  simp [getElem?_updateAt, h]

theorem map_updateAt {β : Type} (g : Entity → β) (es : List Entity) (i : Nat) (f : Entity → Entity)
    (h : ∀ e, g (f e) = g e) : (updateAt es i f).map g = es.map g := by
  induction es generalizing i with
  | nil => simp [updateAt]
  | cons e es ih => cases i <;> simp [updateAt, ih, h]

theorem updateAt_id (es : List Entity) (i : Nat) (f : Entity → Entity)
    (h : ∀ e, es[i]? = some e → f e = e) : updateAt es i f = es := by
  induction es generalizing i with
  | nil => simp [updateAt]
  | cons e es ih =>
    cases i with
    | zero => simp [updateAt, h e (by simp)]
    | succ i => 
      simp only [updateAt]
      rw [ih i (fun e he => h e (by simpa using he))]

@[simp] theorem motion_SetActive (e : Entity) (v : Bool) : (e.SetActive v).motion = e.motion := by
  cases e <;> simp [Entity.motion]

@[simp] theorem motion_AdjScore (e : Entity) (x : Int) : (e.AdjScore x).motion = e.motion := by
  cases e <;> simp [Entity.motion]

@[simp] theorem motion_AdjLastHit (e : Entity) (x : ℚ) : (e.AdjLastHit x).motion = e.motion := by
  cases e <;> simp [Entity.motion]

theorem Ref.map_update {β : Type} (g : Entity → β) (es : List Entity) (r : Ref) (f : Entity → Entity)
    (h : ∀ e, g (f e) = g e) : (r.update es f).map g = es.map g := by
  cases r with
  | boundary => rfl
  | index j => exact map_updateAt g es j f h

theorem bulletHandleCollision_motion (b : Bullet) (i : Nat) (es : List Entity) (r : Ref)
    (entity : Entity) (now : Int) :
    (b.HandleCollision i es r entity now).1.map Entity.motion = es.map Entity.motion := by
  unfold Bullet.HandleCollision
  split
  · simp only [List.map_map]
    have : (Entity.motion ∘ fun e =>
        if Entity.Type e = EntityType.CharacterType ∧ e.Id = b.id then e.AdjScore 1 else e)
        = Entity.motion := by
      funext e; simp only [Function.comp]; split <;> simp
    rw [this, Ref.map_update _ _ _ _ (by simp), Ref.map_update _ _ _ _ (by simp),
      map_updateAt _ _ _ _ (by simp)]
  · split
    · exact map_updateAt _ _ _ _ (by simp)
    · rfl

theorem handleCollision_motion (es : List Entity) (i : Nat) (r : Ref) (now : Int) :
    (Entity.HandleCollision es i r now).1.map Entity.motion = es.map Entity.motion := by
  unfold Entity.HandleCollision
  split
  · rfl
  · rfl
  · exact bulletHandleCollision_motion _ _ _ _ _ _
  · rfl

theorem collisionChecks_motion (clock : Clock) (i : Nat) (id : String) (newX newY : ℚ) (w h : Int)
    (n : Nat) (s : List Entity × Bool) :
    (collisionChecks clock i id newX newY w h n s).1.map Entity.motion = s.1.map Entity.motion := by
  induction n with
  | zero => rfl
  | succ n ih =>
    simp only [collisionChecks]
    split
    · exact ih
    · split
      · split
        · exact ih
        · simp only []
          rw [handleCollision_motion, ih]
      · exact ih

/-! ## One turn of `Level.tick` -/

theorem getElem?_map_eq {β : Type} {g : Entity → β} {es es' : List Entity}
    (h : es'.map g = es.map g) (j : Nat) : es'[j]?.map g = es[j]?.map g := by
  have := congrArg (fun l => l[j]?) h
  simpa [List.getElem?_map] using this

theorem length_eq_of_map_eq {β : Type} {g : Entity → β} {es es' : List Entity}
    (h : es'.map g = es.map g) : es'.length = es.length := by
  have := congrArg List.length h
  simpa using this

theorem collisionChecks_of_blocked (clock : Clock) (i : Nat) (id : String) (nx ny : ℚ)
    (w h : Int) (n : Nat) (es : List Entity) :
    collisionChecks clock i id nx ny w h n (es, true) = (es, true) := by
  induction n with
  | zero => rfl
  | succ n ih =>
    simp only [collisionChecks, ih]
    split
    · rfl
    · split <;> simp

theorem boundaryCheck_motion (level : Level) (clock : Clock) (es : List Entity) (i : Nat)
    (entity : Entity) :
    (boundaryCheck level clock es i entity).1.map Entity.motion = es.map Entity.motion := by
  unfold boundaryCheck
  split
  · exact handleCollision_motion _ _ _ _
  · rfl

theorem tickChecks_motion (level : Level) (clock : Clock) (es : List Entity) (i : Nat)
    (entity : Entity) :
    (tickChecks level clock es i entity).1.map Entity.motion = es.map Entity.motion := by
  unfold tickChecks
  rw [collisionChecks_motion, boundaryCheck_motion]

theorem boundaryCheck_blocked (level : Level) (clock : Clock) (es : List Entity) (i : Nat)
    (entity : Entity) (hi : es[i]? = some entity) (hw : hitWall level entity = true)
    (ht : Entity.Type entity ≠ EntityType.WallType) :
    (boundaryCheck level clock es i entity).2 = true := by
  unfold boundaryCheck
  rw [if_pos hw]
  cases entity with
  | wall w => simp at ht
  | character c =>
    simp [Entity.HandleCollision, hi, Ref.deref, Character.HandleCollision]
  | bullet b =>
    simp [Entity.HandleCollision, hi, Ref.deref, Bullet.HandleCollision]

theorem tickChecks_blocked_of_hitWall (level : Level) (clock : Clock) (es : List Entity)
    (i : Nat) (entity : Entity) (hi : es[i]? = some entity) (hw : hitWall level entity = true)
    (ht : Entity.Type entity ≠ EntityType.WallType) :
    (tickChecks level clock es i entity).2 = true := by
  unfold tickChecks
  have hb := boundaryCheck_blocked level clock es i entity hi hw ht
  have : boundaryCheck level clock es i entity = ((boundaryCheck level clock es i entity).1, true) := by
    rw [← hb]
  rw [this, collisionChecks_of_blocked]

theorem length_tickEntity (level : Level) (clock : Clock) (es : List Entity) (i : Nat) :
    (tickEntity level clock es i).length = es.length := by
  unfold tickEntity
  split
  · rfl
  · rename_i entity _
    simp only []
    rw [length_updateAt]
    split
    · rw [length_updateAt]; exact length_eq_of_map_eq (tickChecks_motion _ _ _ _ _)
    · exact length_eq_of_map_eq (tickChecks_motion _ _ _ _ _)

theorem tickEntity_getElem?_ne (level : Level) (clock : Clock) (es : List Entity) {i j : Nat}
    (entity : Entity) (hi : es[i]? = some entity) (h : j ≠ i) :
    (tickEntity level clock es i)[j]? = (tickChecks level clock es i entity).1[j]? := by
  unfold tickEntity
  rw [hi]
  simp only []
  rw [getElem?_updateAt_ne _ _ h]
  split
  · rw [getElem?_updateAt_ne _ _ h]
  · rfl

theorem tickEntity_getElem?_self (level : Level) (clock : Clock) (es : List Entity) {i : Nat}
    (entity : Entity) (hi : es[i]? = some entity) :
    (tickEntity level clock es i)[i]? =
      (tickChecks level clock es i entity).1[i]?.map (fun e =>
        let e1 := if (tickChecks level clock es i entity).2 = true then e
          else e.SetPosition (newX level entity) (newY level entity)
        e1.SetVelocity (e1.VelocityX * e1.Friction) (e1.VelocityY * e1.Friction)) := by
  unfold tickEntity
  rw [hi]
  simp only []
  rw [getElem?_updateAt_self]
  cases hb : (tickChecks level clock es i entity).2
  · simp only [getElem?_updateAt_self, Option.map_map, Bool.not_false, if_true, Bool.false_eq_true, if_false]
    rfl
  · simp

theorem tickEntity_other (level : Level) (clock : Clock) (es : List Entity) {i j : Nat}
    (h : j ≠ i) :
    (tickEntity level clock es i)[j]?.map Entity.motion = es[j]?.map Entity.motion := by
  cases hi : es[i]? with
  | none => simp [tickEntity, hi]
  | some entity =>
    rw [tickEntity_getElem?_ne level clock es entity hi h]
    exact getElem?_map_eq (tickChecks_motion level clock es i entity) j

theorem tickChecks_getElem? (level : Level) (clock : Clock) (es : List Entity) (i : Nat)
    (entity : Entity) {j : Nat} {e : Entity} (hj : es[j]? = some e) :
    ∃ e0, (tickChecks level clock es i entity).1[j]? = some e0 ∧ e0.motion = e.motion := by
  have h := getElem?_map_eq (tickChecks_motion level clock es i entity) j
  rw [hj] at h
  cases h0 : (tickChecks level clock es i entity).1[j]? with
  | none => simp [h0] at h
  | some e0 =>
    refine ⟨e0, rfl, ?_⟩
    simpa [h0] using h

/-- The entity `e0` after the last two statements of the body of the outer `Iterate`:
the position is committed unless `blocked`, then friction is applied. -/
theorem tickEntity_self (level : Level) (clock : Clock) (es : List Entity) {i : Nat}
    {e : Entity} (hi : es[i]? = some e) :
    ∃ e0, (tickChecks level clock es i e).1[i]? = some e0 ∧ e0.motion = e.motion ∧
      (tickEntity level clock es i)[i]? = some
        ((if (tickChecks level clock es i e).2 = true then e0
          else e0.SetPosition (newX level e) (newY level e)).SetVelocity
        ((if (tickChecks level clock es i e).2 = true then e0
          else e0.SetPosition (newX level e) (newY level e)).VelocityX *
         (if (tickChecks level clock es i e).2 = true then e0
          else e0.SetPosition (newX level e) (newY level e)).Friction)
        ((if (tickChecks level clock es i e).2 = true then e0
          else e0.SetPosition (newX level e) (newY level e)).VelocityY *
         (if (tickChecks level clock es i e).2 = true then e0
          else e0.SetPosition (newX level e) (newY level e)).Friction)) := by
  obtain ⟨e0, h0, hm⟩ := tickChecks_getElem? level clock es i e hi
  refine ⟨e0, h0, hm, ?_⟩
  rw [tickEntity_getElem?_self level clock es e hi, h0]
  rfl

theorem motion_eq_iff (e e' : Entity) :
    e'.motion = e.motion ↔ Entity.Type e' = Entity.Type e ∧ e'.Id = e.Id ∧ e'.X = e.X ∧ e'.Y = e.Y ∧
      e'.Width = e.Width ∧ e'.Height = e.Height ∧ e'.VelocityX = e.VelocityX ∧
      e'.VelocityY = e.VelocityY ∧ e'.Friction = e.Friction := by
  simp [Entity.motion]

theorem inBounds_of_motion_eq (level : Level) {e e' : Entity} (h : e'.motion = e.motion)
    (hb : inBounds level e) : inBounds level e' := by
  rw [motion_eq_iff] at h
  obtain ⟨-, -, hx, hy, hw, hh, -⟩ := h
  unfold inBounds at *
  rw [hx, hy, hw, hh]
  exact hb

theorem clampAxis_of_not_hits {p : ℚ} {size limit : Int} (h : hitsAxis p size limit = false) :
    clampAxis p size limit = p ∧ 0 ≤ p ∧ p + (size : ℚ) ≤ (limit : ℚ) := by
  simp only [hitsAxis, Bool.or_eq_false_iff, decide_eq_false_iff_not, not_lt] at h
  refine ⟨?_, h.1, h.2⟩
  unfold clampAxis
  rw [if_neg (not_lt.mpr h.1), if_neg (not_lt.mpr h.2)]

theorem newX_of_not_hitWall {level : Level} {e : Entity} (h : hitWall level e = false) :
    newX level e = e.X + e.VelocityX ∧ 0 ≤ e.X + e.VelocityX ∧
      e.X + e.VelocityX + (e.Width : ℚ) ≤ (level.width : ℚ) := by
  simp only [hitWall, Bool.or_eq_false_iff] at h
  exact clampAxis_of_not_hits h.1

theorem newY_of_not_hitWall {level : Level} {e : Entity} (h : hitWall level e = false) :
    newY level e = e.Y + e.VelocityY ∧ 0 ≤ e.Y + e.VelocityY ∧
      e.Y + e.VelocityY + (e.Height : ℚ) ≤ (level.height : ℚ) := by
  simp only [hitWall, Bool.or_eq_false_iff] at h
  exact clampAxis_of_not_hits h.2

/-- What one turn does to the position of the entity whose turn it is: it stays, or
the turn did not hit the boundary and the position advanced by the velocity. -/
theorem tickEntity_self_position (level : Level) (clock : Clock) (es : List Entity) {i : Nat}
    {e : Entity} (hi : es[i]? = some e) :
    ∃ e', (tickEntity level clock es i)[i]? = some e' ∧
      Entity.Type e' = Entity.Type e ∧ e'.Id = e.Id ∧ e'.Width = e.Width ∧ e'.Height = e.Height ∧
      e'.Friction = e.Friction ∧
      e'.VelocityX = e.VelocityX * e.Friction ∧ e'.VelocityY = e.VelocityY * e.Friction ∧
      ((e'.X = e.X ∧ e'.Y = e.Y) ∨
        ((tickChecks level clock es i e).2 = false ∧ hitWall level e = false ∧
          e'.X = e.X + e.VelocityX ∧ e'.Y = e.Y + e.VelocityY)) := by
  obtain ⟨e0, -, hm, ht⟩ := tickEntity_self level clock es hi
  refine ⟨_, ht, ?_⟩
  rw [motion_eq_iff] at hm
  obtain ⟨hty, hid, hx, hy, hw, hh, hvx, hvy, hf⟩ := hm
  cases hb : (tickChecks level clock es i e).2
  · -- not blocked
    have hnw : Entity.Type e = EntityType.WallType ∨ hitWall level e = false := by
      by_cases hty' : Entity.Type e = EntityType.WallType
      · exact Or.inl hty'
      · right
        cases hw' : hitWall level e
        · rfl
        · rw [tickChecks_blocked_of_hitWall level clock es i e hi hw' hty'] at hb
          exact absurd hb (by simp)
    cases e0 with
    | wall w0 =>
      cases e <;> simp_all
    | character c0 =>
      cases e with
      | wall w => simp at hty
      | bullet b => simp at hty
      | character c =>
        rcases hnw with hnw | hnw
        · simp at hnw
        · have h1 := newX_of_not_hitWall hnw
          have h2 := newY_of_not_hitWall hnw
          simp_all
    | bullet b0 =>
      cases e with
      | wall w => simp at hty
      | character c => simp at hty
      | bullet b =>
        rcases hnw with hnw | hnw
        · simp at hnw
        · have h1 := newX_of_not_hitWall hnw
          have h2 := newY_of_not_hitWall hnw
          simp_all
  · cases e0 <;> cases e <;> simp_all

/-! ## The pass of `Level.tick` over the container -/

theorem newX_congr (level : Level) {e e' : Entity} (h : e'.motion = e.motion) :
    newX level e' = newX level e := by
  rw [motion_eq_iff] at h
  obtain ⟨-, -, hx, -, hw, -, hvx, -, -⟩ := h
  simp only [newX, hx, hw, hvx]

theorem newY_congr (level : Level) {e e' : Entity} (h : e'.motion = e.motion) :
    newY level e' = newY level e := by
  rw [motion_eq_iff] at h
  obtain ⟨-, -, -, hy, -, hh, -, hvy, -⟩ := h
  simp only [newY, hy, hh, hvy]

theorem hitWall_congr (level : Level) {e e' : Entity} (h : e'.motion = e.motion) :
    hitWall level e' = hitWall level e := by
  rw [motion_eq_iff] at h
  obtain ⟨-, -, hx, hy, hw, hh, hvx, hvy, -⟩ := h
  simp only [hitWall, hx, hy, hw, hh, hvx, hvy]

theorem tickChecks_congr (level : Level) (clock : Clock) (es : List Entity) (i : Nat)
    {e e' : Entity} (h : e'.motion = e.motion) :
    tickChecks level clock es i e' = tickChecks level clock es i e := by
  have hx := newX_congr level h
  have hy := newY_congr level h
  have hw := hitWall_congr level h
  rw [motion_eq_iff] at h
  obtain ⟨-, hid, -, -, hwd, hh, -, -, -⟩ := h
  simp only [tickChecks, boundaryCheck, hx, hy, hw, hid, hwd, hh]

/-- What one turn does to the entity stored at index `j`. -/
theorem tickEntity_at (level : Level) (clock : Clock) (es : List Entity) (i : Nat) {j : Nat}
    {e : Entity} (hj : es[j]? = some e) :
    ∃ e', (tickEntity level clock es i)[j]? = some e' ∧
      (j ≠ i → e'.motion = e.motion) ∧
      (j = i →
        Entity.Type e' = Entity.Type e ∧ e'.Id = e.Id ∧ e'.Width = e.Width ∧
        e'.Height = e.Height ∧ e'.Friction = e.Friction ∧
        e'.VelocityX = e.VelocityX * e.Friction ∧ e'.VelocityY = e.VelocityY * e.Friction ∧
        ((e'.X = e.X ∧ e'.Y = e.Y) ∨
          ((tickChecks level clock es i e).2 = false ∧ hitWall level e = false ∧
            e'.X = e.X + e.VelocityX ∧ e'.Y = e.Y + e.VelocityY))) := by
  by_cases hji : j = i
  · subst hji
    obtain ⟨e', h1, h2⟩ := tickEntity_self_position level clock es hj
    exact ⟨e', h1, fun h => absurd rfl h, fun _ => h2⟩
  · have h := tickEntity_other level clock es (i := i) hji
    rw [hj] at h
    cases h' : (tickEntity level clock es i)[j]? with
    | none => simp [h'] at h
    | some e' =>
      refine ⟨e', rfl, fun _ => ?_, fun h => absurd h hji⟩
      simpa [h'] using h

theorem length_tickUpTo (level : Level) (clock : Clock) (n : Nat) :
    (tickUpTo level clock n).length = level.entities.length := by
  induction n with
  | zero => rfl
  | succ n ih => rw [tickUpTo, length_tickEntity, ih]

/-- The entity at index `j` keeps everything that collision resolution does not write
until its own turn. -/
theorem tickUpTo_before (level : Level) (clock : Clock) {j : Nat} {e : Entity}
    (hj : level.entities[j]? = some e) (n : Nat) (hn : n ≤ j) :
    ∃ e', (tickUpTo level clock n)[j]? = some e' ∧ e'.motion = e.motion := by
  induction n with
  | zero => exact ⟨e, hj, rfl⟩
  | succ n ih =>
    obtain ⟨e1, h1, hm1⟩ := ih (by omega)
    obtain ⟨e', h2, hne, -⟩ := tickEntity_at level clock (tickUpTo level clock n) n h1
    exact ⟨e', h2, (hne (by omega)).trans hm1⟩

/-- The entity at index `j` once its turn is over: velocity is scaled by friction; the
position is the old one, or the turn was neither blocked nor at the boundary and the
position advanced by the velocity. -/
theorem tickUpTo_after (level : Level) (clock : Clock) {j : Nat} {e : Entity}
    (hj : level.entities[j]? = some e) (n : Nat) (hn : j < n) :
    ∃ e', (tickUpTo level clock n)[j]? = some e' ∧
      Entity.Type e' = Entity.Type e ∧ e'.Id = e.Id ∧ e'.Width = e.Width ∧
      e'.Height = e.Height ∧ e'.Friction = e.Friction ∧
      e'.VelocityX = e.VelocityX * e.Friction ∧ e'.VelocityY = e.VelocityY * e.Friction ∧
      ((e'.X = e.X ∧ e'.Y = e.Y) ∨
        ((tickChecks level clock (tickUpTo level clock j) j e).2 = false ∧
          hitWall level e = false ∧
          e'.X = e.X + e.VelocityX ∧ e'.Y = e.Y + e.VelocityY)) := by
  induction n with
  | zero => omega
  | succ n ih =>
    by_cases hjn : j = n
    · subst hjn
      obtain ⟨e1, h1, hm1⟩ := tickUpTo_before level clock hj j (le_refl j)
      obtain ⟨e', h2, -, hself⟩ := tickEntity_at level clock (tickUpTo level clock j) j h1
      refine ⟨e', h2, ?_⟩
      have hs := hself rfl
      rw [tickChecks_congr level clock _ j hm1, hitWall_congr level hm1] at hs
      rw [motion_eq_iff] at hm1
      obtain ⟨a1, a2, a3, a4, a5, a6, a7, a8, a9⟩ := hm1
      rw [a1, a2, a3, a4, a5, a6, a7, a8, a9] at hs
      exact hs
    · obtain ⟨e1, h1, hs⟩ := ih (by omega)
      obtain ⟨e', h2, hne, -⟩ := tickEntity_at level clock (tickUpTo level clock n) n h1
      refine ⟨e', h2, ?_⟩
      have hm := hne hjn
      rw [motion_eq_iff] at hm
      obtain ⟨a1, a2, a3, a4, a5, a6, a7, a8, a9⟩ := hm
      rw [a1, a2, a3, a4, a5, a6, a7, a8, a9]
      exact hs

theorem tickPass_at (level : Level) (clock : Clock) {j : Nat} {e : Entity}
    (hj : level.entities[j]? = some e) :
    ∃ e', (tickPass level clock)[j]? = some e' ∧
      Entity.Type e' = Entity.Type e ∧ e'.Id = e.Id ∧ e'.Width = e.Width ∧
      e'.Height = e.Height ∧ e'.Friction = e.Friction ∧
      e'.VelocityX = e.VelocityX * e.Friction ∧ e'.VelocityY = e.VelocityY * e.Friction ∧
      ((e'.X = e.X ∧ e'.Y = e.Y) ∨
        ((tickChecks level clock (tickUpTo level clock j) j e).2 = false ∧
          hitWall level e = false ∧
          e'.X = e.X + e.VelocityX ∧ e'.Y = e.Y + e.VelocityY)) := by
  have hlt : j < level.entities.length := by
    by_contra h
    rw [List.getElem?_eq_none (by omega)] at hj
    exact absurd hj (by simp)
  exact tickUpTo_after level clock hj _ hlt

theorem length_tickPass (level : Level) (clock : Clock) :
    (tickPass level clock).length = level.entities.length :=
  length_tickUpTo level clock _

/-! ## The collision checks of a character -/

theorem collisionChecks_succ_of_blocked (clock : Clock) (i : Nat) (id : String) (nx ny : ℚ)
    (w h : Int) (n : Nat) (s : List Entity × Bool)
    (hb : (collisionChecks clock i id nx ny w h n s).2 = true) :
    collisionChecks clock i id nx ny w h (n + 1) s = collisionChecks clock i id nx ny w h n s := by
  simp only [collisionChecks]
  split
  · rfl
  · split
    · rfl
    · rfl

theorem collisionChecks_blocked_mono (clock : Clock) (i : Nat) (id : String) (nx ny : ℚ)
    (w h : Int) (s : List Entity × Bool) {n m : Nat} (hnm : n ≤ m)
    (hb : (collisionChecks clock i id nx ny w h n s).2 = true) :
    collisionChecks clock i id nx ny w h m s = collisionChecks clock i id nx ny w h n s := by
  induction m with
  | zero =>
    have : n = 0 := by omega
    subst this; rfl
  | succ m ih =>
    by_cases h' : n = m + 1
    · subst h'; rfl
    · have ih' := ih (by omega)
      rw [collisionChecks_succ_of_blocked _ _ _ _ _ _ _ _ _ (by rw [ih']; exact hb), ih']

theorem HandleCollision_character (es : List Entity) (i : Nat) (r : Ref) (now : Int)
    {c : Character} (hi : es[i]? = some (Entity.character c)) :
    (Entity.HandleCollision es i r now).1 = es ∧
      ∀ other, r.deref es = some other →
        (Entity.Type other = EntityType.WallType ∨
          Entity.Type other = EntityType.CharacterType) →
        (Entity.HandleCollision es i r now).2.Blocked = true := by
  unfold Entity.HandleCollision
  rw [hi]
  cases hr : r.deref es with
  | none => simp
  | some other =>
    refine ⟨rfl, fun o ho hk => ?_⟩
    cases ho
    simp only [Character.HandleCollision]
    rcases hk with hk | hk <;> simp [hk]

theorem collisionChecks_character_fst (clock : Clock) (i : Nat) (id : String) (nx ny : ℚ)
    (w h : Int) (es : List Entity) {c : Character} (hi : es[i]? = some (Entity.character c))
    (n : Nat) (b : Bool) :
    (collisionChecks clock i id nx ny w h n (es, b)).1 = es := by
  induction n with
  | zero => rfl
  | succ n ih =>
    simp only [collisionChecks]
    split
    · exact ih
    · split
      · split
        · exact ih
        · simp only [ih]
          exact (HandleCollision_character es i _ _ hi).1
      · exact ih

/-- A character that overlaps a wall or a character with another id ends its collision
checks with `blocked = true`. -/
theorem collisionChecks_character_blocked (clock : Clock) (i : Nat) (id : String) (nx ny : ℚ)
    (w h : Int) (es : List Entity) {c : Character} (hi : es[i]? = some (Entity.character c))
    (b : Bool) {j : Nat} {other : Entity} (hj : es[j]? = some other) (hid : id ≠ other.Id)
    (ho : overlaps nx ny w h other = true)
    (hk : Entity.Type other = EntityType.WallType ∨
      Entity.Type other = EntityType.CharacterType) :
    (collisionChecks clock i id nx ny w h es.length (es, b)).2 = true := by
  have hlt : j < es.length := by
    by_contra hge
    rw [List.getElem?_eq_none (by omega)] at hj
    exact absurd hj (by simp)
  have hstep : (collisionChecks clock i id nx ny w h (j + 1) (es, b)).2 = true := by
    simp only [collisionChecks]
    rw [collisionChecks_character_fst clock i id nx ny w h es hi j b, hj]
    simp only []
    rw [if_pos ⟨hid, ho⟩]
    split
    · assumption
    · simp only []
      exact (HandleCollision_character es i _ _ hi).2 other (by simpa [Ref.deref] using hj) hk
  rw [collisionChecks_blocked_mono clock i id nx ny w h (es, b) (Nat.succ_le_of_lt hlt) hstep]
  exact hstep

theorem boundaryCheck_character_fst (level : Level) (clock : Clock) (es : List Entity) (i : Nat)
    (entity : Entity) {c : Character} (hi : es[i]? = some (Entity.character c)) :
    (boundaryCheck level clock es i entity).1 = es := by
  unfold boundaryCheck
  split
  · exact (HandleCollision_character es i _ _ hi).1
  · rfl

theorem tickChecks_character_blocked (level : Level) (clock : Clock) (es : List Entity) (i : Nat)
    (entity : Entity) {c : Character} (hi : es[i]? = some (Entity.character c))
    {j : Nat} {other : Entity} (hj : es[j]? = some other) (hid : entity.Id ≠ other.Id)
    (ho : overlaps (newX level entity) (newY level entity) entity.Width entity.Height other = true)
    (hk : Entity.Type other = EntityType.WallType ∨
      Entity.Type other = EntityType.CharacterType) :
    (tickChecks level clock es i entity).2 = true := by
  unfold tickChecks
  have h1 := boundaryCheck_character_fst level clock es i entity hi
  have : boundaryCheck level clock es i entity = (es, (boundaryCheck level clock es i entity).2) :=
    Prod.ext h1 rfl
  rw [this]
  exact collisionChecks_character_blocked clock i _ _ _ _ _ es hi _ hj hid ho hk

/-! ## `RemoveInactive` -/

theorem mem_of_mem_RemoveInactive {es : List Entity} {e : Entity}
    (h : e ∈ EntityList.RemoveInactive es) : e ∈ es := by
  induction es with
  | nil => simp [EntityList.RemoveInactive] at h
  | cons a es ih =>
    simp only [EntityList.RemoveInactive] at h
    split at h
    · exact List.mem_cons_of_mem _ h
    · rcases List.mem_cons.mp h with h | h
      · exact h ▸ List.mem_cons_self _ _
      · exact List.mem_cons_of_mem _ (ih h)

theorem mem_RemoveInactive_of_active {es : List Entity} {e : Entity}
    (h : e ∈ es) (ha : e.Active = true) : e ∈ EntityList.RemoveInactive es := by
  induction es with
  | nil => simp at h
  | cons a es ih =>
    simp only [EntityList.RemoveInactive]
    split
    · rename_i hna
      rcases List.mem_cons.mp h with h | h
      · subst h; simp [ha] at hna
      · exact h
    · rcases List.mem_cons.mp h with h | h
      · exact h ▸ List.mem_cons_self _ _
      · exact List.mem_cons_of_mem _ (ih h)

theorem RemoveInactive_of_all_active {es : List Entity} (h : ∀ x ∈ es, x.Active = true) :
    EntityList.RemoveInactive es = es := by
  induction es with
  | nil => rfl
  | cons a es ih =>
    simp only [EntityList.RemoveInactive]
    rw [if_neg (by simp [h a (List.mem_cons_self _ _)]),
      ih (fun x hx => h x (List.mem_cons_of_mem _ hx))]

theorem RemoveInactive_append {pre post : List Entity} {e : Entity}
    (hpre : ∀ x ∈ pre, x.Active = true) (he : e.Active = false) :
    EntityList.RemoveInactive (pre ++ e :: post) = pre ++ post := by
  induction pre with
  | nil => simp [EntityList.RemoveInactive, he]
  | cons a pre ih =>
    have iha := ih (fun x hx => hpre x (List.mem_cons_of_mem _ hx))
    rw [List.cons_append, EntityList.RemoveInactive,
      if_neg (by simp [hpre a (List.mem_cons_self _ _)]), iha, List.cons_append]

theorem exists_first_inactive (es : List Entity) :
    (∀ x ∈ es, x.Active = true) ∨
      ∃ pre e post, es = pre ++ e :: post ∧ (∀ x ∈ pre, x.Active = true) ∧ e.Active = false := by
  induction es with
  | nil => left; simp
  | cons a es ih =>
    cases ha : a.Active with
    | false => exact Or.inr ⟨[], a, es, rfl, by simp, ha⟩
    | true =>
      rcases ih with h | ⟨pre, e, post, h1, h2, h3⟩
      · left
        intro x hx
        rcases List.mem_cons.mp hx with hx | hx
        · exact hx ▸ ha
        · exact h x hx
      · right
        refine ⟨a :: pre, e, post, by simp [h1], ?_, h3⟩
        intro x hx
        rcases List.mem_cons.mp hx with hx | hx
        · exact hx ▸ ha
        · exact h2 x hx

/-! ## Bounds -/

theorem tickPass_inBounds_at (level : Level) (clock : Clock) {j : Nat} {e : Entity}
    (hj : level.entities[j]? = some e) (hb : inBounds level e) :
    ∃ e', (tickPass level clock)[j]? = some e' ∧ inBounds level e' := by
  obtain ⟨e', h1, -, -, hw, hh, -, -, -, hpos⟩ := tickPass_at level clock hj
  refine ⟨e', h1, ?_⟩
  unfold inBounds at *
  rw [hw, hh]
  rcases hpos with ⟨hx, hy⟩ | ⟨-, hnw, hx, hy⟩
  · rw [hx, hy]; exact hb
  · have h1 := (newX_of_not_hitWall hnw).2
    have h2 := (newY_of_not_hitWall hnw).2
    rw [hx, hy]
    refine ⟨h1.1, by linarith [h1.2], h2.1, by linarith [h2.2]⟩

theorem tickPass_inBounds (level : Level) (clock : Clock)
    (h : ∀ e ∈ level.entities, inBounds level e) :
    ∀ e ∈ tickPass level clock, inBounds level e := by
  intro e' he'
  obtain ⟨j, hj⟩ := List.mem_iff_getElem?.mp he'
  have hlt : j < level.entities.length := by
    by_contra hge
    rw [List.getElem?_eq_none (by rw [length_tickPass]; omega)] at hj
    exact absurd hj (by simp)
  have hje : level.entities[j]? = some (level.entities[j]) := List.getElem?_eq_getElem hlt
  obtain ⟨e'', h1, h2⟩ := tickPass_inBounds_at level clock hje
    (h _ (List.getElem_mem hlt))
  rw [hj] at h1
  cases h1
  exact h2

theorem mem_tick_of_tickPass (level : Level) (clock : Clock) {j : Nat} {e : Entity}
    (hj : (tickPass level clock)[j]? = some e) (ha : e.Active = true) :
    e ∈ (Level.tick level clock).entities :=
  mem_RemoveInactive_of_active (List.mem_iff_getElem?.mpr ⟨j, hj⟩) ha

/-! ## Relations kept by every write of a tick -/

theorem Pointwise.rfl' {R : Entity → Entity → Prop} (hR : ∀ e, R e e) (es : List Entity) :
    Pointwise R es es :=
  ⟨rfl, fun k e e' h h' => by rw [h] at h'; cases h'; exact hR e⟩

theorem Pointwise.trans' {R : Entity → Entity → Prop}
    (hR : ∀ e1 e2 e3, R e1 e2 → R e2 e3 → R e1 e3) {es1 es2 es3 : List Entity}
    (h12 : Pointwise R es1 es2) (h23 : Pointwise R es2 es3) : Pointwise R es1 es3 := by
  refine ⟨h23.1.trans h12.1, fun k e e' h h' => ?_⟩
  have hk : k < es1.length := by
    by_contra hge
    rw [List.getElem?_eq_none (by omega)] at h
    exact absurd h (by simp)
  have hk2 : k < es2.length := by rw [h12.1]; exact hk
  have h2 : es2[k]? = some es2[k] := List.getElem?_eq_getElem hk2
  exact hR _ _ _ (h12.2 k e es2[k] h h2) (h23.2 k es2[k] e' h2 h')

theorem pointwise_updateAt {R : Entity → Entity → Prop} (hR : ∀ e, R e e) (es : List Entity)
    (i : Nat) (f : Entity → Entity) (hf : ∀ e, es[i]? = some e → R e (f e)) :
    Pointwise R es (updateAt es i f) := by
  refine ⟨length_updateAt es i f, fun k e e' h h' => ?_⟩
  by_cases hki : k = i
  · subst hki
    rw [getElem?_updateAt_self, h] at h'
    simp only [Option.map_some', Option.some.injEq] at h'
    exact h' ▸ hf e h
  · rw [getElem?_updateAt_ne _ _ hki, h] at h'
    cases h'
    exact hR e

theorem pointwise_map {R : Entity → Entity → Prop} (es : List Entity) (f : Entity → Entity)
    (hf : ∀ e, R e (f e)) : Pointwise R es (es.map f) := by
  refine ⟨List.length_map _ _, fun k e e' h h' => ?_⟩
  rw [List.getElem?_map, h] at h'
  simp only [Option.map_some', Option.some.injEq] at h'
  exact h' ▸ hf e

theorem pointwise_refUpdate {R : Entity → Entity → Prop} (hR : ∀ e, R e e) (es : List Entity)
    (r : Ref) (f : Entity → Entity) (hf : ∀ e, R e (f e)) :
    Pointwise R es (r.update es f) := by
  cases r with
  | boundary => exact Pointwise.rfl' hR es
  | index j => exact pointwise_updateAt hR es j f (fun e _ => hf e)

theorem bulletHandleCollision_stable {R : Entity → Entity → Prop} (hR : Stable R) (b : Bullet)
    (i : Nat) (es : List Entity) (r : Ref) (entity : Entity) (now : Int)
    (hi : es[i]? = some (Entity.bullet b)) :
    Pointwise R es (b.HandleCollision i es r entity now).1 := by
  have hdeact : Pointwise R es (updateAt es i (fun e => e.SetActive false)) :=
    pointwise_updateAt hR.refl es i _ (fun e he => by
      rw [hi] at he; cases he; exact hR.deactivate b)
  unfold Bullet.HandleCollision
  split
  · dsimp only
    refine Pointwise.trans' hR.trans hdeact ?_
    refine Pointwise.trans' hR.trans
      (pointwise_refUpdate hR.refl _ r (fun e => e.AdjScore (-1)) (fun e => hR.adjScore e _)) ?_
    refine Pointwise.trans' hR.trans
      (pointwise_refUpdate hR.refl _ r (fun e => e.AdjLastHit (now : ℚ))
        (fun e => hR.adjLastHit e _)) ?_
    refine pointwise_map _ _ (fun e => ?_)
    split
    · exact hR.adjScore e 1
    · exact hR.refl e
  · split
    · exact hdeact
    · exact Pointwise.rfl' hR.refl es

theorem handleCollision_stable {R : Entity → Entity → Prop} (hR : Stable R) (es : List Entity)
    (i : Nat) (r : Ref) (now : Int) :
    Pointwise R es (Entity.HandleCollision es i r now).1 := by
  unfold Entity.HandleCollision
  split
  · exact Pointwise.rfl' hR.refl es
  · exact Pointwise.rfl' hR.refl es
  · rename_i b other hb _
    exact bulletHandleCollision_stable hR b i es r other now hb
  · exact Pointwise.rfl' hR.refl es

theorem collisionChecks_stable {R : Entity → Entity → Prop} (hR : Stable R) (clock : Clock)
    (i : Nat) (id : String) (nx ny : ℚ) (w h : Int) (n : Nat) (s : List Entity × Bool) :
    Pointwise R s.1 (collisionChecks clock i id nx ny w h n s).1 := by
  induction n with
  | zero => exact Pointwise.rfl' hR.refl _
  | succ n ih =>
    simp only [collisionChecks]
    split
    · exact ih
    · split
      · split
        · exact ih
        · exact Pointwise.trans' hR.trans ih (handleCollision_stable hR _ _ _ _)
      · exact ih

theorem tickChecks_stable {R : Entity → Entity → Prop} (hR : Stable R) (level : Level)
    (clock : Clock) (es : List Entity) (i : Nat) (entity : Entity) :
    Pointwise R es (tickChecks level clock es i entity).1 := by
  unfold tickChecks
  refine Pointwise.trans' hR.trans ?_ (collisionChecks_stable hR _ _ _ _ _ _ _ _ _)
  unfold boundaryCheck
  split
  · exact handleCollision_stable hR _ _ _ _
  · exact Pointwise.rfl' hR.refl es

theorem tickEntity_stable {R : Entity → Entity → Prop} (hR : Stable R) (level : Level)
    (clock : Clock) (es : List Entity) (i : Nat) :
    Pointwise R es (tickEntity level clock es i) := by
  unfold tickEntity
  split
  · exact Pointwise.rfl' hR.refl es
  · rename_i entity _
    simp only []
    refine Pointwise.trans' hR.trans ?_
      (pointwise_updateAt hR.refl _ i _ (fun e _ => hR.setVelocity e _ _))
    split
    · exact Pointwise.trans' hR.trans (tickChecks_stable hR level clock es i entity)
        (pointwise_updateAt hR.refl _ i _ (fun e _ => hR.setPosition e _ _))
    · exact tickChecks_stable hR level clock es i entity

theorem tickUpTo_stable_from {R : Entity → Entity → Prop} (hR : Stable R) (level : Level)
    (clock : Clock) {m n : Nat} (hmn : m ≤ n) :
    Pointwise R (tickUpTo level clock m) (tickUpTo level clock n) := by
  induction n with
  | zero =>
    have : m = 0 := by omega
    subst this
    exact Pointwise.rfl' hR.refl _
  | succ n ih =>
    by_cases h : m = n + 1
    · subst h; exact Pointwise.rfl' hR.refl _
    · exact Pointwise.trans' hR.trans (ih (by omega)) (tickEntity_stable hR level clock _ n)

theorem tickPass_stable {R : Entity → Entity → Prop} (hR : Stable R) (level : Level)
    (clock : Clock) : Pointwise R level.entities (tickPass level clock) :=
  tickUpTo_stable_from hR level clock (Nat.zero_le _)

theorem activeRel_stable : Stable activeRel where
  refl := fun e => ⟨rfl, fun h => h, fun _ => rfl⟩
  trans := fun e1 e2 e3 h12 h23 => by
    refine ⟨h23.1.trans h12.1, fun h => h23.2.1 (h12.2.1 h), fun ht => ?_⟩
    rw [h23.2.2 (by rw [h12.1]; exact ht), h12.2.2 ht]
  adjScore := fun e x => by cases e <;> simp [activeRel]
  adjLastHit := fun e x => by cases e <;> simp [activeRel]
  setPosition := fun e x y => by cases e <;> simp [activeRel]
  setVelocity := fun e x y => by cases e <;> simp [activeRel]
  deactivate := fun b => by simp [activeRel]

theorem wallRel_stable : Stable wallRel where
  refl := fun e w h => h
  trans := fun e1 e2 e3 h12 h23 w h => h23 w (h12 w h)
  adjScore := fun e x w h => by subst h; rfl
  adjLastHit := fun e x w h => by subst h; rfl
  setPosition := fun e x y w h => by subst h; rfl
  setVelocity := fun e x y w h => by subst h; rfl
  deactivate := fun b w h => by cases h

theorem getElem?_of_pointwise {R : Entity → Entity → Prop} {es es' : List Entity}
    (h : Pointwise R es es') {k : Nat} {e : Entity} (hk : es[k]? = some e) :
    ∃ e', es'[k]? = some e' ∧ R e e' := by
  have hlt : k < es.length := by
    by_contra hge
    rw [List.getElem?_eq_none (by omega)] at hk
    exact absurd hk (by simp)
  have hlt' : k < es'.length := by rw [h.1]; exact hlt
  exact ⟨es'[k], List.getElem?_eq_getElem hlt', h.2 k e _ hk (List.getElem?_eq_getElem hlt')⟩

theorem collisionChecks_stable_from {R : Entity → Entity → Prop} (hR : Stable R) (clock : Clock)
    (i : Nat) (id : String) (nx ny : ℚ) (w h : Int) (s : List Entity × Bool) {m n : Nat}
    (hmn : m ≤ n) :
    Pointwise R (collisionChecks clock i id nx ny w h m s).1
      (collisionChecks clock i id nx ny w h n s).1 := by
  induction n with
  | zero =>
    have : m = 0 := by omega
    subst this
    exact Pointwise.rfl' hR.refl _
  | succ n ih =>
    by_cases hm : m = n + 1
    · subst hm; exact Pointwise.rfl' hR.refl _
    · have ih' := ih (by omega)
      refine Pointwise.trans' hR.trans ih' ?_
      simp only [collisionChecks]
      split
      · exact Pointwise.rfl' hR.refl _
      · split
        · split
          · exact Pointwise.rfl' hR.refl _
          · exact handleCollision_stable hR _ _ _ _
        · exact Pointwise.rfl' hR.refl _

theorem handleCollision_bullet (es : List Entity) (i : Nat) (r : Ref) (now : Int) {b : Bullet}
    {other : Entity} (hi : es[i]? = some (Entity.bullet b)) (hr : r.deref es = some other) :
    Entity.HandleCollision es i r now = b.HandleCollision i es r other now := by
  unfold Entity.HandleCollision
  rw [hi, hr]

theorem getElem?_refUpdate_bullet (es : List Entity) (r : Ref) (f : Entity → Entity)
    (hf : ∀ b, f (Entity.bullet b) = Entity.bullet b) {i : Nat} {b : Bullet}
    (hi : es[i]? = some (Entity.bullet b)) : (r.update es f)[i]? = some (Entity.bullet b) := by
  cases r with
  | boundary => exact hi
  | index j =>
    simp only [Ref.update, getElem?_updateAt]
    split
    · rw [hi]; simp [hf]
    · exact hi

/-- The bullet at index `i` after a call of its `HandleCollision`: it is inactive when
the call reports `Blocked`, and when `entity` is a wall. -/
theorem bulletHandleCollision_inv (b : Bullet) (i : Nat) (es : List Entity) (r : Ref)
    (entity : Entity) (now : Int) (hi : es[i]? = some (Entity.bullet b)) :
    ∃ b', (b.HandleCollision i es r entity now).1[i]? = some (Entity.bullet b') ∧
      ((b.HandleCollision i es r entity now).2.Blocked = true → b'.active = false) ∧
      (Entity.Type entity = EntityType.WallType → b'.active = false) := by
  unfold Bullet.HandleCollision
  split
  · rename_i hc
    refine ⟨b.SetActive false, ?_, fun _ => rfl, fun _ => rfl⟩
    dsimp only
    rw [List.getElem?_map]
    have h1 : (updateAt es i (fun e => e.SetActive false))[i]? =
        some (Entity.bullet (b.SetActive false)) := by
      rw [getElem?_updateAt_self, hi]; rfl
    have h2 := getElem?_refUpdate_bullet _ r (fun e => e.AdjScore (-1)) (fun _ => rfl) h1
    have h3 := getElem?_refUpdate_bullet _ r (fun e => e.AdjLastHit (now : ℚ)) (fun _ => rfl) h2
    rw [h3]
    simp
  · split
    · refine ⟨b.SetActive false, ?_, fun _ => rfl, fun _ => rfl⟩
      dsimp only
      rw [getElem?_updateAt_self, hi]; rfl
    · rename_i h1 h2
      exact ⟨b, hi, fun h => by simp at h, fun h => absurd h h2⟩

theorem collisionChecks_bulletInv (clock : Clock) (i : Nat) (id : String) (nx ny : ℚ)
    (w h : Int) (n : Nat) (s : List Entity × Bool) (hs : bulletInv i s) :
    bulletInv i (collisionChecks clock i id nx ny w h n s) := by
  induction n with
  | zero => exact hs
  | succ n ih =>
    simp only [collisionChecks]
    split
    · exact ih
    · rename_i other hother
      split
      · split
        · exact ih
        · obtain ⟨b1, hb1, -⟩ := ih
          rw [handleCollision_bullet _ i (Ref.index n) _ hb1 (by simpa [Ref.deref] using hother)]
          obtain ⟨b', h1, h2, -⟩ := bulletHandleCollision_inv b1 i _ (Ref.index n) other
            (clock.hit i (Ref.index n)) hb1
          exact ⟨b', h1, h2⟩
      · exact ih

/-- The step of the collision checks at a wall that the bullet overlaps leaves the
bullet inactive. -/
theorem collisionChecks_bullet_wall (clock : Clock) (i : Nat) (id : String) (nx ny : ℚ)
    (w h : Int) (s : List Entity × Bool) (hs : bulletInv i s) {j : Nat} {wl : Wall}
    (hj : s.1[j]? = some (Entity.wall wl)) (hid : id ≠ "wall")
    (ho : overlaps nx ny w h (Entity.wall wl) = true) :
    ∃ b', (collisionChecks clock i id nx ny w h (j + 1) s).1[i]? = some (Entity.bullet b') ∧
      b'.active = false := by
  obtain ⟨e', hj', hw⟩ := getElem?_of_pointwise
    (collisionChecks_stable wallRel_stable clock i id nx ny w h j s) hj
  have hj'' := hw wl rfl
  subst hj''
  obtain ⟨b1, hb1, hinv⟩ := collisionChecks_bulletInv clock i id nx ny w h j s hs
  simp only [collisionChecks]
  rw [hj']
  simp only []
  rw [if_pos ⟨by simpa using hid, ho⟩]
  split
  · rename_i hblk
    exact ⟨b1, hb1, hinv hblk⟩
  · simp only []
    rw [handleCollision_bullet _ i (Ref.index j) _ hb1 (by simpa [Ref.deref] using hj')]
    obtain ⟨b', h1, -, h3⟩ := bulletHandleCollision_inv b1 i _ (Ref.index j) (Entity.wall wl)
      (clock.hit i (Ref.index j)) hb1
    exact ⟨b', h1, h3 rfl⟩

theorem inactive_bullet_of_activeRel {b : Bullet} {e : Entity} (hb : b.active = false)
    (h : activeRel (Entity.bullet b) e) : ∃ b', e = Entity.bullet b' ∧ b'.active = false := by
  obtain ⟨hty, hact, -⟩ := h
  cases e with
  | wall w => simp at hty
  | character c => simp at hty
  | bullet b' => exact ⟨b', rfl, by simpa using hact (by simpa using hb)⟩

theorem boundaryCheck_bulletInv (level : Level) (clock : Clock) (es : List Entity) (i : Nat)
    (entity : Entity) {b : Bullet} (hi : es[i]? = some (Entity.bullet b)) :
    bulletInv i (boundaryCheck level clock es i entity) := by
  unfold boundaryCheck
  split
  · simp only []
    rw [handleCollision_bullet es i Ref.boundary _ hi rfl]
    obtain ⟨b', h1, h2, -⟩ := bulletHandleCollision_inv b i es Ref.boundary
      (Entity.wall BoundaryWall) (clock.hit i Ref.boundary) hi
    exact ⟨b', h1, h2⟩
  · exact ⟨b, hi, fun h => by simp at h⟩

/-- A bullet whose proposed position overlaps a wall is inactive when its collision
checks are over. -/
theorem tickChecks_bullet_wall (level : Level) (clock : Clock) (es : List Entity) (i : Nat)
    (entity : Entity) {b : Bullet} (hi : es[i]? = some (Entity.bullet b)) {j : Nat} {wl : Wall}
    (hj : es[j]? = some (Entity.wall wl)) (hid : entity.Id ≠ "wall")
    (ho : overlaps (newX level entity) (newY level entity) entity.Width entity.Height
      (Entity.wall wl) = true) :
    ∃ b', (tickChecks level clock es i entity).1[i]? = some (Entity.bullet b') ∧
      b'.active = false := by
  have hlt : j < es.length := by
    by_contra hge
    rw [List.getElem?_eq_none (by omega)] at hj
    exact absurd hj (by simp)
  have hinv := boundaryCheck_bulletInv level clock es i entity hi
  obtain ⟨e0, hj0, hw0⟩ := getElem?_of_pointwise
    (show Pointwise wallRel es (boundaryCheck level clock es i entity).1 by
      unfold boundaryCheck
      split
      · exact handleCollision_stable wallRel_stable _ _ _ _
      · exact Pointwise.rfl' wallRel_stable.refl es) hj
  have := hw0 wl rfl
  subst this
  obtain ⟨b1, hb1, hact1⟩ := collisionChecks_bullet_wall clock i entity.Id (newX level entity)
    (newY level entity) entity.Width entity.Height _ hinv hj0 hid ho
  unfold tickChecks
  obtain ⟨e2, he2, hrel⟩ := getElem?_of_pointwise
    (collisionChecks_stable_from activeRel_stable clock i entity.Id (newX level entity)
      (newY level entity) entity.Width entity.Height
      (boundaryCheck level clock es i entity) (Nat.succ_le_of_lt hlt)) hb1
  obtain ⟨b2, rfl, hb2⟩ := inactive_bullet_of_activeRel hact1 hrel
  exact ⟨b2, he2, hb2⟩

theorem RemoveInactive_eq_eraseIdx (es : List Entity) (i : Nat) {e : Entity}
    (hi : es[i]? = some e) (he : e.Active = false)
    (hpre : ∀ (k : Nat) (x : Entity), k < i → es[k]? = some x → x.Active = true) :
    EntityList.RemoveInactive es = es.eraseIdx i := by
  induction es generalizing i with
  | nil => simp at hi
  | cons a es ih =>
    cases i with
    | zero =>
      simp only [List.getElem?_cons_zero, Option.some.injEq] at hi
      subst hi
      simp [EntityList.RemoveInactive, he]
    | succ i =>
      have ha : a.Active = true := hpre 0 a (Nat.succ_pos i) (by simp)
      simp only [List.getElem?_cons_succ] at hi
      rw [EntityList.RemoveInactive, if_neg (by simp [ha]), List.eraseIdx_cons_succ,
        ih i hi (fun k x hk hx => hpre (k + 1) x (by omega) (by simpa using hx))]

/-- The bullet at index `i` is inactive at the end of the pass when its proposed
position overlaps a wall of the container and its id is not the id of the walls. -/
theorem tickPass_bullet_wall (level : Level) (clock : Clock) {i j : Nat} {b : Bullet} {w : Wall}
    (hi : level.entities[i]? = some (Entity.bullet b))
    (hj : level.entities[j]? = some (Entity.wall w))
    (hid : b.id ≠ "wall")
    (ho : overlaps (newX level (Entity.bullet b)) (newY level (Entity.bullet b))
      b.width b.height (Entity.wall w) = true) :
    ∃ b', (tickPass level clock)[i]? = some (Entity.bullet b') ∧ b'.active = false := by
  have hlt : i < level.entities.length := by
    by_contra hge
    rw [List.getElem?_eq_none (by omega)] at hi
    exact absurd hi (by simp)
  obtain ⟨e1, h1, hm1⟩ := tickUpTo_before level clock hi i (le_refl i)
  cases e1 with
  | wall w1 => simp [Entity.motion] at hm1
  | character c1 => simp [Entity.motion] at hm1
  | bullet b1 =>
    obtain ⟨ew, hjw, hrel⟩ := getElem?_of_pointwise
      (tickUpTo_stable_from wallRel_stable level clock (Nat.zero_le i)) hj
    have := hrel w rfl
    subst this
    have hx := newX_congr level hm1
    have hy := newY_congr level hm1
    rw [motion_eq_iff] at hm1
    obtain ⟨-, hid1, -, -, hw1, hh1, -⟩ := hm1
    simp only [Entity.Id_bullet, Bullet.Id, Entity.Width_bullet, Bullet.Width,
      Entity.Height_bullet, Bullet.Height] at hid1 hw1 hh1
    obtain ⟨b2, h2, hb2⟩ := tickChecks_bullet_wall level clock (tickUpTo level clock i) i
      (Entity.bullet b1) h1 hjw (by simpa [hid1] using hid)
      (by simpa [hx, hy, hw1, hh1] using ho)
    have h3 := tickEntity_getElem?_self level clock (tickUpTo level clock i) (Entity.bullet b1) h1
    rw [h2] at h3
    have h4 : ∃ b3, (tickUpTo level clock (i + 1))[i]? = some (Entity.bullet b3) ∧
        b3.active = false := by
      simp only [tickUpTo]
      rw [h3]
      simp only [Option.map_some']
      split
      · exact ⟨_, rfl, by simpa using hb2⟩
      · exact ⟨_, rfl, by simpa using hb2⟩
    obtain ⟨b3, h5, hb3⟩ := h4
    obtain ⟨e4, h6, hrel4⟩ := getElem?_of_pointwise
      (tickUpTo_stable_from activeRel_stable level clock (Nat.succ_le_of_lt hlt)) h5
    obtain ⟨b4, rfl, hb4⟩ := inactive_bullet_of_activeRel hb3 hrel4
    exact ⟨b4, h6, hb4⟩

theorem countP_RemoveInactive (es : List Entity) :
    (EntityList.RemoveInactive es).countP (fun e => !e.Active) =
      es.countP (fun e => !e.Active) - 1 := by
  induction es with
  | nil => rfl
  | cons a es ih =>
    simp only [EntityList.RemoveInactive]
    cases ha : a.Active with
    | false => simp [List.countP_cons, ha]
    | true => simp [List.countP_cons, ha, ih]

theorem pointwise_cons {R : Entity → Entity → Prop} {a a' : Entity} {es es' : List Entity}
    (h : Pointwise R (a :: es) (a' :: es')) : R a a' ∧ Pointwise R es es' := by
  refine ⟨h.2 0 a a' (by simp) (by simp), by simpa using h.1, fun k e e' hk hk' => ?_⟩
  exact h.2 (k + 1) e e' (by simpa using hk) (by simpa using hk')

theorem countP_le_of_pointwise {R : Entity → Entity → Prop} (p : Entity → Bool)
    (hp : ∀ e e', R e e' → p e = true → p e' = true) {es es' : List Entity}
    (h : Pointwise R es es') : es.countP p ≤ es'.countP p := by
  induction es generalizing es' with
  | nil => simp
  | cons a es ih =>
    cases es' with
    | nil => exact absurd h.1 (by simp)
    | cons a' es' =>
      obtain ⟨h1, h2⟩ := pointwise_cons h
      have := ih h2
      rw [List.countP_cons, List.countP_cons]
      by_cases hpa : p a = true
      · simp [hpa, hp a a' h1 hpa, this]
      · rw [if_neg hpa]
        split <;> omega

/-! ## The pass does not read the `active` flag -/

theorem eq_SetActive_of_activated_eq {e e' : Entity} (h : e.activated = e'.activated) :
    e' = e.SetActive e'.Active := by
  cases e <;> cases e' <;> simp_all [Entity.activated]

theorem activated_SetActive (e : Entity) (v : Bool) : (e.SetActive v).activated = e.activated := by
  cases e <;> simp [Entity.activated]

theorem getElem?_activated {es es' : List Entity}
    (h : es.map Entity.activated = es'.map Entity.activated) (k : Nat) :
    (es[k]? = none ∧ es'[k]? = none) ∨
      ∃ e v, es[k]? = some e ∧ es'[k]? = some (e.SetActive v) := by
  have hk := congrArg (fun l => l[k]?) h
  simp only [List.getElem?_map] at hk
  cases h1 : es[k]? with
  | none =>
    cases h2 : es'[k]? with
    | none => exact Or.inl ⟨rfl, rfl⟩
    | some e' => simp [h1, h2] at hk
  | some e =>
    cases h2 : es'[k]? with
    | none => simp [h1, h2] at hk
    | some e' =>
      right
      rw [h1, h2] at hk
      simp only [Option.map_some', Option.some.injEq] at hk
      exact ⟨e, e'.Active, rfl, by rw [← eq_SetActive_of_activated_eq hk]⟩

theorem activated_updateAt {es es' : List Entity}
    (h : es.map Entity.activated = es'.map Entity.activated) (i : Nat) (f : Entity → Entity)
    (hf : ∀ e v, (f (e.SetActive v)).activated = (f e).activated) :
    (updateAt es i f).map Entity.activated = (updateAt es' i f).map Entity.activated := by
  induction es generalizing es' i with
  | nil =>
    cases es' with
    | nil => rfl
    | cons a' es' => simp at h
  | cons a es ih =>
    cases es' with
    | nil => simp at h
    | cons a' es' =>
      simp only [List.map_cons, List.cons.injEq] at h
      cases i with
      | zero =>
        simp only [updateAt, List.map_cons, List.cons.injEq]
        refine ⟨?_, h.2⟩
        rw [eq_SetActive_of_activated_eq h.1, hf]
      | succ i =>
        simp only [updateAt, List.map_cons, List.cons.injEq]
        exact ⟨h.1, ih h.2 i⟩

theorem activated_refUpdate {es es' : List Entity}
    (h : es.map Entity.activated = es'.map Entity.activated) (r : Ref) (f : Entity → Entity)
    (hf : ∀ e v, (f (e.SetActive v)).activated = (f e).activated) :
    (r.update es f).map Entity.activated = (r.update es' f).map Entity.activated := by
  cases r with
  | boundary => exact h
  | index j => exact activated_updateAt h j f hf

theorem activated_map {es es' : List Entity}
    (h : es.map Entity.activated = es'.map Entity.activated) (f : Entity → Entity)
    (hf : ∀ e v, (f (e.SetActive v)).activated = (f e).activated) :
    (es.map f).map Entity.activated = (es'.map f).map Entity.activated := by
  induction es generalizing es' with
  | nil =>
    cases es' with
    | nil => rfl
    | cons a' es' => simp at h
  | cons a es ih =>
    cases es' with
    | nil => simp at h
    | cons a' es' =>
      simp only [List.map_cons, List.cons.injEq] at h
      simp only [List.map_cons, List.cons.injEq]
      refine ⟨?_, ih h.2⟩
      rw [eq_SetActive_of_activated_eq h.1, hf]

theorem deref_activated {es es' : List Entity}
    (h : es.map Entity.activated = es'.map Entity.activated) (r : Ref) :
    (r.deref es = none ∧ r.deref es' = none) ∨
      ∃ e v, r.deref es = some e ∧ r.deref es' = some (e.SetActive v) := by
  cases r with
  | boundary => exact Or.inr ⟨Entity.wall BoundaryWall, true, rfl, rfl⟩
  | index j => exact getElem?_activated h j

theorem bulletHandleCollision_activated {es es' : List Entity}
    (h : es.map Entity.activated = es'.map Entity.activated) (b : Bullet) (i : Nat) (r : Ref)
    (entity : Entity) (now : Int) (v v' : Bool) :
    ((b.SetActive v).HandleCollision i es' r (entity.SetActive v') now).2 =
        (b.HandleCollision i es r entity now).2 ∧
      ((b.SetActive v).HandleCollision i es' r (entity.SetActive v') now).1.map Entity.activated =
        (b.HandleCollision i es r entity now).1.map Entity.activated := by
  have hty : Entity.Type (entity.SetActive v') = Entity.Type entity := by cases entity <;> rfl
  have hid : (entity.SetActive v').Id = entity.Id := by cases entity <;> rfl
  have hdeact := (activated_updateAt h i (fun e => e.SetActive false)
    (fun e v => by cases e <;> rfl)).symm
  unfold Bullet.HandleCollision
  rw [hty, hid]
  simp only [Bullet.SetActive]
  split
  · refine ⟨rfl, ?_⟩
    dsimp only
    refine (activated_map ?_ _ ?_).symm
    · refine activated_refUpdate ?_ r _ (fun e v => by cases e <;> rfl)
      exact activated_refUpdate hdeact.symm r _ (fun e v => by cases e <;> rfl)
    · intro e v
      cases e <;> simp [Entity.activated]
      split <;> rfl
  · split
    · exact ⟨rfl, hdeact⟩
    · exact ⟨rfl, h.symm⟩
theorem handleCollision_activated {es es' : List Entity}
    (h : es.map Entity.activated = es'.map Entity.activated) (i : Nat) (r : Ref) (now : Int) :
    (Entity.HandleCollision es' i r now).2 = (Entity.HandleCollision es i r now).2 ∧
      (Entity.HandleCollision es' i r now).1.map Entity.activated =
        (Entity.HandleCollision es i r now).1.map Entity.activated := by
  unfold Entity.HandleCollision
  rcases getElem?_activated h i with ⟨h1, h2⟩ | ⟨e, v, h1, h2⟩
  · rw [h1, h2]; exact ⟨rfl, h.symm⟩
  · rcases deref_activated h r with ⟨h3, h4⟩ | ⟨o, v', h3, h4⟩
    · rw [h1, h2, h3, h4]
      cases e <;> exact ⟨rfl, h.symm⟩
    · rw [h1, h2, h3, h4]
      cases e with
      | wall w => exact ⟨rfl, h.symm⟩
      | character c =>
        refine ⟨?_, h.symm⟩
        simp only [Entity.SetActive, Character.HandleCollision]
        cases o <;> rfl
      | bullet b => exact bulletHandleCollision_activated h b i r o now v v'

theorem overlaps_SetActive (nx ny : ℚ) (w h : Int) (e : Entity) (v : Bool) :
    overlaps nx ny w h (e.SetActive v) = overlaps nx ny w h e := by
  cases e <;> rfl

theorem collisionChecks_activated (clock : Clock) (i : Nat) (id : String) (nx ny : ℚ)
    (w h : Int) (n : Nat) {s s' : List Entity × Bool}
    (hs : s.1.map Entity.activated = s'.1.map Entity.activated) (hb : s'.2 = s.2) :
    (collisionChecks clock i id nx ny w h n s').2 = (collisionChecks clock i id nx ny w h n s).2 ∧
      (collisionChecks clock i id nx ny w h n s).1.map Entity.activated =
        (collisionChecks clock i id nx ny w h n s').1.map Entity.activated := by
  induction n with
  | zero => exact ⟨hb, hs⟩
  | succ n ih =>
    obtain ⟨ih1, ih2⟩ := ih
    simp only [collisionChecks]
    rcases getElem?_activated ih2 n with ⟨h1, h2⟩ | ⟨o, v, h1, h2⟩
    · rw [h1, h2]; exact ⟨ih1, ih2⟩
    · rw [h1, h2]
      simp only []
      have hid : (o.SetActive v).Id = o.Id := by cases o <;> rfl
      rw [overlaps_SetActive, hid, ih1]
      split
      · split
        · exact ⟨ih1, ih2⟩
        · obtain ⟨k1, k2⟩ := handleCollision_activated ih2 i (Ref.index n)
            (clock.hit i (Ref.index n))
          exact ⟨by simp only [k1], k2.symm⟩
      · exact ⟨ih1, ih2⟩

theorem tickChecks_activated (level : Level) (clock : Clock) {es es' : List Entity}
    (h : es.map Entity.activated = es'.map Entity.activated) (i : Nat) (e : Entity) (v : Bool) :
    (tickChecks level clock es' i (e.SetActive v)).2 = (tickChecks level clock es i e).2 ∧
      (tickChecks level clock es i e).1.map Entity.activated =
        (tickChecks level clock es' i (e.SetActive v)).1.map Entity.activated := by
  have hm : (e.SetActive v).motion = e.motion := motion_SetActive e v
  have hx := newX_congr level hm
  have hy := newY_congr level hm
  have hw := hitWall_congr level hm
  rw [motion_eq_iff] at hm
  obtain ⟨-, hid, -, -, hwd, hh, -, -, -⟩ := hm
  unfold tickChecks
  rw [hx, hy, hid, hwd, hh]
  have hlen : es'.length = es.length := by
    have := congrArg List.length h
    simpa using this.symm
  rw [hlen]
  apply collisionChecks_activated
  · unfold boundaryCheck
    rw [hw]
    split
    · exact (handleCollision_activated h i Ref.boundary _).2.symm
    · exact h
  · unfold boundaryCheck
    rw [hw]
    split
    · simp only [(handleCollision_activated h i Ref.boundary (clock.hit i Ref.boundary)).1]
    · rfl

theorem tickEntity_activated (level : Level) (clock : Clock) {es es' : List Entity}
    (h : es.map Entity.activated = es'.map Entity.activated) (i : Nat) :
    (tickEntity level clock es i).map Entity.activated =
      (tickEntity level clock es' i).map Entity.activated := by
  unfold tickEntity
  rcases getElem?_activated h i with ⟨h1, h2⟩ | ⟨e, v, h1, h2⟩
  · rw [h1, h2]; exact h
  · rw [h1, h2]
    simp only []
    obtain ⟨k1, k2⟩ := tickChecks_activated level clock h i e v
    have hm : (e.SetActive v).motion = e.motion := motion_SetActive e v
    rw [newX_congr level hm, newY_congr level hm, k1]
    apply activated_updateAt
    · split
      · exact activated_updateAt k2 i _ (fun e v => by cases e <;> rfl)
      · exact k2
    · intro e v
      cases e <;> rfl

theorem tickUpTo_activated (l1 l2 : Level) (clock : Clock) (hw : l1.width = l2.width)
    (hh : l1.height = l2.height)
    (h : l1.entities.map Entity.activated = l2.entities.map Entity.activated) (n : Nat) :
    (tickUpTo l1 clock n).map Entity.activated = (tickUpTo l2 clock n).map Entity.activated := by
  induction n with
  | zero => exact h
  | succ n ih =>
    simp only [tickUpTo]
    have : ∀ es, tickEntity l1 clock es n = tickEntity l2 clock es n := by
      intro es
      simp only [tickEntity, tickChecks, boundaryCheck, newX, newY, hitWall, hw, hh]
    rw [this]
    exact tickEntity_activated l2 clock ih n

theorem tickPass_activated (l1 l2 : Level) (clock : Clock) (hw : l1.width = l2.width)
    (hh : l1.height = l2.height)
    (h : l1.entities.map Entity.activated = l2.entities.map Entity.activated) :
    (tickPass l1 clock).map Entity.activated = (tickPass l2 clock).map Entity.activated := by
  unfold tickPass
  have hlen : l1.entities.length = l2.entities.length := by
    have := congrArg List.length h
    simpa using this
  rw [hlen]
  exact tickUpTo_activated l1 l2 clock hw hh h _
/-! ## `SpawnEntity` -/

theorem SetPosition_SetPosition (e : Entity) (a b x y : ℚ) :
    (e.SetPosition a b).SetPosition x y = e.SetPosition x y := by
  cases e <;> rfl

theorem Width_SetPosition (e : Entity) (x y : ℚ) : (e.SetPosition x y).Width = e.Width := by
  cases e <;> rfl

theorem Height_SetPosition (e : Entity) (x y : ℚ) : (e.SetPosition x y).Height = e.Height := by
  cases e <;> rfl

theorem Id_SetPosition (e : Entity) (x y : ℚ) : (e.SetPosition x y).Id = e.Id := by
  cases e <;> rfl

/-- The result of a call of `SpawnEntity` that returns: the entity is placed at the
position drawn from one of the samples, passes the intersection test against the whole
container and is appended. -/
theorem SpawnEntity_eq_some {el : EntityList} {level : Level} {entity : Entity}
    {samples : List (ℚ × ℚ)} {el' : EntityList}
    (h : EntityList.SpawnEntity el level entity samples = some el') :
    ∃ s ∈ samples,
      el' = el ++ [entity.SetPosition (s.1 * ((level.width - entity.Width : Int) : ℚ))
        (s.2 * ((level.height - entity.Height : Int) : ℚ))] ∧
      ∀ other ∈ el, spawnIntersects
        (entity.SetPosition (s.1 * ((level.width - entity.Width : Int) : ℚ))
          (s.2 * ((level.height - entity.Height : Int) : ℚ))) other = false := by
  induction samples generalizing entity with
  | nil => simp [EntityList.SpawnEntity] at h
  | cons s samples ih =>
    obtain ⟨rx, ry⟩ := s
    simp only [EntityList.SpawnEntity] at h
    split at h
    · rename_i hfree
      refine ⟨(rx, ry), List.mem_cons_self _ _, ?_, ?_⟩
      · simpa using h.symm
      · intro other ho
        simp only [Bool.not_eq_true', List.any_eq_false] at hfree
        simpa using hfree other ho
    · obtain ⟨s, hs, h1, h2⟩ := ih h
      rw [SetPosition_SetPosition, Width_SetPosition, Height_SetPosition] at h1 h2
      exact ⟨s, List.mem_cons_of_mem _ hs, h1, h2⟩

theorem boxesIntersect_of_spawnIntersects {e o : Entity} (h : spawnIntersects e o = false)
    (hid : e.Id ≠ o.Id) : boxesIntersect e o = false := by
  simpa [spawnIntersects, hid] using h

theorem inBounds_SetPosition (level : Level) (e : Entity) (rx ry : ℚ)
    (ht : Entity.Type e ≠ EntityType.WallType)
    (hw : e.Width ≤ level.width) (hh : e.Height ≤ level.height)
    (hx : 0 ≤ rx ∧ rx < 1) (hy : 0 ≤ ry ∧ ry < 1) :
    inBounds level (e.SetPosition (rx * ((level.width - e.Width : Int) : ℚ))
      (ry * ((level.height - e.Height : Int) : ℚ))) := by
  have hw' : (0 : ℚ) ≤ ((level.width - e.Width : Int) : ℚ) := by
    exact_mod_cast sub_nonneg.mpr hw
  have hh' : (0 : ℚ) ≤ ((level.height - e.Height : Int) : ℚ) := by
    exact_mod_cast sub_nonneg.mpr hh
  have e1 : ((level.width - e.Width : Int) : ℚ) = (level.width : ℚ) - (e.Width : ℚ) := by
    push_cast; rfl
  have e2 : ((level.height - e.Height : Int) : ℚ) = (level.height : ℚ) - (e.Height : ℚ) := by
    push_cast; rfl
  have bx : rx * ((level.width - e.Width : Int) : ℚ) ≤ ((level.width - e.Width : Int) : ℚ) :=
    mul_le_of_le_one_left hw' hx.2.le
  have by' : ry * ((level.height - e.Height : Int) : ℚ) ≤ ((level.height - e.Height : Int) : ℚ) :=
    mul_le_of_le_one_left hh' hy.2.le
  have px := mul_nonneg hx.1 hw'
  have py := mul_nonneg hy.1 hh'
  cases e with
  | wall w => simp at ht
  | character c =>
    simp only [inBounds, Entity.SetPosition_character, Character.SetPosition, Entity.X_character,
      Character.X, Entity.Y_character, Character.Y, Entity.Width_character, Character.Width,
      Entity.Height_character, Character.Height] at *
    exact ⟨px, e1 ▸ bx, py, e2 ▸ by'⟩
  | bullet b =>
    simp only [inBounds, Entity.SetPosition_bullet, Bullet.SetPosition, Entity.X_bullet,
      Bullet.X, Entity.Y_bullet, Bullet.Y, Entity.Width_bullet, Bullet.Width,
      Entity.Height_bullet, Bullet.Height] at *
    exact ⟨px, e1 ▸ bx, py, e2 ▸ by'⟩

/-! ## Ids -/

theorem characterIdRel_stable : Stable characterIdRel where
  refl := fun e => rfl
  trans := fun e1 e2 e3 h12 h23 => h23.trans h12
  adjScore := fun e x => by cases e <;> rfl
  adjLastHit := fun e x => by cases e <;> rfl
  setPosition := fun e x y => by cases e <;> rfl
  setVelocity := fun e x y => by cases e <;> rfl
  deactivate := fun b => rfl

theorem characterIds_of_pointwise {es es' : List Entity}
    (h : Pointwise characterIdRel es es') : characterIds es' = characterIds es := by
  induction es generalizing es' with
  | nil =>
    cases es' with
    | nil => rfl
    | cons a' es' => exact absurd h.1 (by simp)
  | cons a es ih =>
    cases es' with
    | nil => exact absurd h.1 (by simp)
    | cons a' es' =>
      obtain ⟨h1, h2⟩ := pointwise_cons h
      have := ih h2
      unfold characterIdRel at h1
      unfold characterIds at this ⊢
      simp only [List.filterMap_cons, h1, this]

theorem RemoveInactive_sublist (es : List Entity) :
    List.Sublist (EntityList.RemoveInactive es) es := by
  induction es with
  | nil => exact List.Sublist.slnil
  | cons a es ih =>
    simp only [EntityList.RemoveInactive]
    split
    · exact List.sublist_cons_self a es
    · exact List.Sublist.cons₂ a ih

theorem characterIds_tick_sublist (level : Level) (clock : Clock) :
    List.Sublist (characterIds (Level.tick level clock).entities) (characterIds level.entities) := by
  rw [← characterIds_of_pointwise (tickPass_stable characterIdRel_stable level clock)]
  exact List.Sublist.filterMap _ (RemoveInactive_sublist _)

theorem characterIds_apply {level level' : Level} {op : Op} (h : op.apply level = some level')
    (hn : (characterIds level.entities).Nodup)
    (hf : freshSpawn level op) :
    (characterIds level'.entities).Nodup := by
  cases op with
  | spawn id name samples =>
    simp only [Op.apply, Option.map_eq_some'] at h
    obtain ⟨el, h1, rfl⟩ := h
    obtain ⟨s, -, hel, -⟩ := SpawnEntity_eq_some h1
    simp only [hel, characterIds, List.filterMap_append]
    simp only [Entity.SetPosition_character, List.filterMap_cons, characterId,
      List.filterMap_nil]
    rw [List.nodup_append]
    refine ⟨hn, by simp [Character.SetPosition], ?_⟩
    intro a ha hb
    simp only [Character.SetPosition, newCharacter, List.mem_singleton] at hb
    subst hb
    exact hf ha
  | shoot c dx dy =>
    simp only [Op.apply, Option.some.injEq] at h
    subst h
    simpa [characterShoot, EntityList.Append, characterIds, characterId] using hn
  | tick clock =>
    simp only [Op.apply, Option.some.injEq] at h
    subst h
    exact List.Nodup.sublist (characterIds_tick_sublist level clock) hn
  | direction i vx vy =>
    simp only [Op.apply, Option.some.injEq] at h
    subst h
    have hp : Pointwise characterIdRel level.entities (updateAt level.entities i (fun e =>
        match e with
        | Entity.character c => Entity.character (c.SetVelocity vx vy)
        | e => e)) :=
      @pointwise_updateAt characterIdRel (fun e => rfl) _ _ _ (fun e _ => by cases e <;> rfl)
    rw [characterIds_of_pointwise hp]
    exact hn
  | close i =>
    simp only [Op.apply, Option.some.injEq] at h
    subst h
    have hp : Pointwise characterIdRel level.entities (updateAt level.entities i (fun e =>
        match e with
        | Entity.character c => Entity.character (c.SetActive false)
        | e => e)) :=
      @pointwise_updateAt characterIdRel (fun e => rfl) _ _ _ (fun e _ => by cases e <;> rfl)
    rw [characterIds_of_pointwise hp]
    exact hn

theorem characterIds_run {level level' : Level} {ops : List Op} (h : run level ops = some level')
    (hn : (characterIds level.entities).Nodup) (hf : freshSpawns level ops) :
    (characterIds level'.entities).Nodup := by
  induction ops generalizing level with
  | nil =>
    simp only [run, Option.some.injEq] at h
    subst h; exact hn
  | cons op ops ih =>
    simp only [run] at h
    simp only [freshSpawns] at hf
    cases h1 : op.apply level with
    | none => simp [h1] at h
    | some l1 =>
      rw [h1] at h hf
      exact ih h (characterIds_apply h1 hn hf.1) hf.2

/-! ## Turns of walls and characters -/

theorem handleCollision_nonbullet (es : List Entity) (i : Nat) (r : Ref) (now : Int)
    {e : Entity} (hi : es[i]? = some e) (ht : Entity.Type e ≠ EntityType.BulletType) :
    (Entity.HandleCollision es i r now).1 = es := by
  unfold Entity.HandleCollision
  rw [hi]
  cases e with
  | wall w => cases r.deref es <;> rfl
  | character c => cases r.deref es <;> rfl
  | bullet b => simp at ht

theorem collisionChecks_nonbullet_fst (clock : Clock) (i : Nat) (id : String) (nx ny : ℚ)
    (w h : Int) (es : List Entity) {e : Entity} (hi : es[i]? = some e)
    (ht : Entity.Type e ≠ EntityType.BulletType) (n : Nat) (b : Bool) :
    (collisionChecks clock i id nx ny w h n (es, b)).1 = es := by
  induction n with
  | zero => rfl
  | succ n ih =>
    simp only [collisionChecks]
    split
    · exact ih
    · split
      · split
        · exact ih
        · simp only [ih]
          exact handleCollision_nonbullet es i _ _ hi ht
      · exact ih

theorem tickChecks_nonbullet_fst (level : Level) (clock : Clock) (es : List Entity) (i : Nat)
    (entity : Entity) {e : Entity} (hi : es[i]? = some e)
    (ht : Entity.Type e ≠ EntityType.BulletType) :
    (tickChecks level clock es i entity).1 = es := by
  unfold tickChecks
  have h1 : (boundaryCheck level clock es i entity).1 = es := by
    unfold boundaryCheck
    split
    · exact handleCollision_nonbullet es i _ _ hi ht
    · rfl
  have : boundaryCheck level clock es i entity = (es, (boundaryCheck level clock es i entity).2) :=
    Prod.ext h1 rfl
  rw [this]
  exact collisionChecks_nonbullet_fst clock i _ _ _ _ _ es hi ht _ _

theorem keepRel_refl (e : Entity) : keepRel e e := rfl

theorem keepRel_trans (e1 e2 e3 : Entity) (h12 : keepRel e1 e2) (h23 : keepRel e2 e3) :
    keepRel e1 e3 := h23.trans h12

theorem keepRel_SetPosition (e : Entity) (x y : ℚ) : keepRel e (e.SetPosition x y) := by
  cases e <;> rfl

theorem keepRel_SetVelocity (e : Entity) (x y : ℚ) : keepRel e (e.SetVelocity x y) := by
  cases e <;> rfl

/-- The turn of a wall or of a character writes positions and velocities only. -/
theorem tickEntity_keep (level : Level) (clock : Clock) (es : List Entity) (i : Nat)
    (ht : ∀ e, es[i]? = some e → Entity.Type e ≠ EntityType.BulletType) :
    Pointwise keepRel es (tickEntity level clock es i) := by
  unfold tickEntity
  cases hi : es[i]? with
  | none => exact Pointwise.rfl' keepRel_refl es
  | some entity =>
    simp only []
    rw [tickChecks_nonbullet_fst level clock es i entity hi (ht entity hi)]
    refine Pointwise.trans' keepRel_trans ?_
      (pointwise_updateAt keepRel_refl _ i _ (fun e _ => keepRel_SetVelocity e _ _))
    split
    · exact pointwise_updateAt keepRel_refl _ i _ (fun e _ => keepRel_SetPosition e _ _)
    · exact Pointwise.rfl' keepRel_refl es

theorem type_eq_of_tickUpTo (level : Level) (clock : Clock) (n : Nat) {i : Nat} {e : Entity}
    (hi : (tickUpTo level clock n)[i]? = some e) :
    ∃ e0, level.entities[i]? = some e0 ∧ Entity.Type e = Entity.Type e0 := by
  have hp := tickUpTo_stable_from activeRel_stable level clock (Nat.zero_le n)
  have hlt : i < level.entities.length := by
    by_contra hge
    rw [List.getElem?_eq_none (by rw [length_tickUpTo]; omega)] at hi
    exact absurd hi (by simp)
  exact ⟨_, List.getElem?_eq_getElem hlt, (hp.2 i _ e (List.getElem?_eq_getElem hlt) hi).1⟩

/-- A run of turns none of which is the turn of a bullet writes positions and velocities
only. -/
theorem tickUpTo_keep (level : Level) (clock : Clock) {m n : Nat} (hmn : m ≤ n)
    (ht : ∀ i e, m ≤ i → i < n → level.entities[i]? = some e →
      Entity.Type e ≠ EntityType.BulletType) :
    Pointwise keepRel (tickUpTo level clock m) (tickUpTo level clock n) := by
  induction n with
  | zero =>
    have : m = 0 := by omega
    subst this
    exact Pointwise.rfl' keepRel_refl _
  | succ n ih =>
    by_cases h : m = n + 1
    · subst h; exact Pointwise.rfl' keepRel_refl _
    · refine Pointwise.trans' keepRel_trans
        (ih (by omega) (fun i e h1 h2 => ht i e h1 (by omega))) ?_
      apply tickEntity_keep
      intro e he
      obtain ⟨e0, h0, hty⟩ := type_eq_of_tickUpTo level clock n he
      rw [hty]
      exact ht n e0 (by omega) (by omega) h0

/-! ## The turn of a bullet that hits one character -/

theorem overlaps_congr (nx ny : ℚ) (w h : Int) {o o' : Entity} (hm : o'.motion = o.motion) :
    overlaps nx ny w h o' = overlaps nx ny w h o := by
  rw [motion_eq_iff] at hm
  obtain ⟨-, -, hx, hy, hw, hh, -⟩ := hm
  cases o <;> cases o' <;> simp_all [overlaps, Entity.BoundingBox]

theorem bulletHandleCollision_hit_blocked (b : Bullet) (i : Nat) (es : List Entity) (r : Ref)
    (c : Character) (now : Int) (hid : c.id ≠ b.id) :
    (b.HandleCollision i es r (Entity.character c) now).2.Blocked = false := by
  simp [Bullet.HandleCollision, hid]

/-- The entities that a hit writes: the struck character, the scorer and the bullet. -/
theorem bulletHandleCollision_hit (b : Bullet) (ik ib ia : Nat) (es : List Entity)
    (cB cA : Character) (now : Int)
    (hK : es[ik]? = some (Entity.bullet b))
    (hB : es[ib]? = some (Entity.character cB))
    (hA : es[ia]? = some (Entity.character cA))
    (hBid : cB.id ≠ b.id) (hAid : cA.id = b.id) :
    (b.HandleCollision ik es (Ref.index ib) (Entity.character cB) now).1[ib]? =
        some (Entity.character { cB with score := cB.score + -1, lastHit := (now : ℚ) }) ∧
      (b.HandleCollision ik es (Ref.index ib) (Entity.character cB) now).1[ia]? =
        some (Entity.character { cA with score := cA.score + 1 }) ∧
      (b.HandleCollision ik es (Ref.index ib) (Entity.character cB) now).1[ik]? =
        some (Entity.bullet { b with active := false }) := by
  have hbk : ib ≠ ik := by
    intro h; rw [h, hK] at hB; cases hB
  have hak : ia ≠ ik := by
    intro h; rw [h, hK] at hA; cases hA
  have hab : ia ≠ ib := by
    intro h; rw [h, hB] at hA; cases hA; exact hBid hAid
  simp only [Bullet.HandleCollision, Entity.Type_character, Character.Type, Entity.Id_character,
    Character.Id, true_and, hBid, ne_eq, not_false_eq_true, if_true, Ref.update,
    List.getElem?_map, getElem?_updateAt, hbk, hak, hab, hbk.symm, hak.symm, hab.symm,
    if_false, hK, hB, hA, Option.map_some']
  simp [hBid, hAid]

/-- The collision checks of a bullet that is not blocked at the boundary, overlaps the
character stored at `ib`, whose id is not its own, and for every other entity either has
the id of that entity or does not overlap it: the only call of `HandleCollision` is the
one for the character at `ib`. -/
theorem collisionChecks_single_hit (clock : Clock) (ik ib : Nat) (nx ny : ℚ) (w h : Int)
    (es : List Entity) (b : Bullet) (cB : Character)
    (hK : es[ik]? = some (Entity.bullet b))
    (hB : es[ib]? = some (Entity.character cB))
    (hBid : cB.id ≠ b.id)
    (hov : overlaps nx ny w h (Entity.character cB) = true)
    (hskip : ∀ (j : Nat) (o : Entity), es[j]? = some o → j ≠ ib →
      b.id = o.Id ∨ overlaps nx ny w h o = false)
    (n : Nat) :
    collisionChecks clock ik b.id nx ny w h n (es, false) =
      if ib < n then
        ((b.HandleCollision ik es (Ref.index ib) (Entity.character cB)
          (clock.hit ik (Ref.index ib))).1, false)
      else (es, false) := by
  induction n with
  | zero => simp [collisionChecks]
  | succ n ih =>
    simp only [collisionChecks, ih]
    by_cases hlt : ib < n
    · have hlt' : ib < n + 1 := by omega
      simp only [if_pos hlt, if_pos hlt']
      cases hn : (b.HandleCollision ik es (Ref.index ib) (Entity.character cB)
          (clock.hit ik (Ref.index ib))).1[n]? with
      | none => rfl
      | some other =>
        simp only []
        have hm := getElem?_map_eq (bulletHandleCollision_motion b ik es (Ref.index ib)
          (Entity.character cB) (clock.hit ik (Ref.index ib))) n
        rw [hn] at hm
        cases h0 : es[n]? with
        | none => simp [h0] at hm
        | some o0 =>
          rw [h0] at hm
          simp only [Option.map_some', Option.some.injEq] at hm
          have hid : other.Id = o0.Id := ((motion_eq_iff o0 other).mp hm).2.1
          have hcond : ¬ (b.id ≠ other.Id ∧ overlaps nx ny w h other = true) := by
            rintro ⟨h1, h2⟩
            rcases hskip n o0 h0 (by omega) with h3 | h3
            · exact h1 (by rw [hid]; exact h3)
            · rw [overlaps_congr nx ny w h hm, h3] at h2
              exact absurd h2 (by simp)
          rw [if_neg hcond]
    · simp only [if_neg hlt]
      by_cases hnb : n = ib
      · subst hnb
        have hlt' : n < n + 1 := by omega
        have hc : b.id ≠ (Entity.character cB).Id ∧
            overlaps nx ny w h (Entity.character cB) = true :=
          ⟨by simpa using fun h => hBid h.symm, hov⟩
        simp only [if_pos hlt', hB, if_pos hc, Bool.false_eq_true, if_false]
        rw [handleCollision_bullet es ik (Ref.index n) _ hK (by simpa [Ref.deref] using hB),
          bulletHandleCollision_hit_blocked b ik es (Ref.index n) cB _ hBid]
      · have hlt' : ¬ ib < n + 1 := by omega
        simp only [if_neg hlt']
        cases h0 : es[n]? with
        | none => rfl
        | some o0 =>
          simp only []
          have hcond : ¬ (b.id ≠ o0.Id ∧ overlaps nx ny w h o0 = true) := by
            rintro ⟨h1, h2⟩
            rcases hskip n o0 h0 hnb with h3 | h3
            · exact h1 h3
            · rw [h3] at h2
              exact absurd h2 (by simp)
          rw [if_neg hcond]

theorem keepRel_character {c : Character} {e : Entity} (h : keepRel (Entity.character c) e) :
    ∃ c', e = Entity.character c' ∧ c'.id = c.id ∧ c'.score = c.score ∧
      c'.lastHit = c.lastHit ∧ c'.active = c.active := by
  unfold keepRel at h
  cases e with
  | wall w => simp at h
  | bullet b => simp at h
  | character c' =>
    refine ⟨c', rfl, ?_⟩
    simp only [Entity.SetPosition_character, Entity.SetVelocity_character,
      Character.SetPosition, Character.SetVelocity, Entity.character.injEq,
      Character.mk.injEq] at h
    exact ⟨h.1, h.2.2.1, h.2.2.2.1, h.2.1⟩

theorem keepRel_bullet {b : Bullet} {e : Entity} (h : keepRel (Entity.bullet b) e) :
    ∃ b', e = Entity.bullet b' ∧ b'.id = b.id ∧ b'.active = b.active := by
  unfold keepRel at h
  cases e with
  | wall w => simp at h
  | character c => simp at h
  | bullet b' =>
    refine ⟨b', rfl, ?_⟩
    simp only [Entity.SetPosition_bullet, Entity.SetVelocity_bullet,
      Bullet.SetPosition, Bullet.SetVelocity, Entity.bullet.injEq,
      Bullet.mk.injEq] at h
    exact ⟨h.1, h.2.1⟩

theorem tickChecks_single_hit (level : Level) (clock : Clock) (ik ib : Nat)
    (es : List Entity) (b : Bullet) (cB : Character)
    (hK : es[ik]? = some (Entity.bullet b))
    (hB : es[ib]? = some (Entity.character cB))
    (hBid : cB.id ≠ b.id)
    (hin : hitWall level (Entity.bullet b) = false)
    (hov : overlaps (newX level (Entity.bullet b)) (newY level (Entity.bullet b))
      b.width b.height (Entity.character cB) = true)
    (hskip : ∀ (j : Nat) (o : Entity), es[j]? = some o → j ≠ ib →
      b.id = o.Id ∨ overlaps (newX level (Entity.bullet b)) (newY level (Entity.bullet b))
        b.width b.height o = false) :
    tickChecks level clock es ik (Entity.bullet b) =
      ((b.HandleCollision ik es (Ref.index ib) (Entity.character cB)
        (clock.hit ik (Ref.index ib))).1, false) := by
  have hlt : ib < es.length := by
    by_contra hge
    rw [List.getElem?_eq_none (by omega)] at hB
    exact absurd hB (by simp)
  unfold tickChecks boundaryCheck
  rw [hin]
  simp only [Bool.false_eq_true, if_false, Entity.Id_bullet, Bullet.Id, Entity.Width_bullet,
    Bullet.Width, Entity.Height_bullet, Bullet.Height]
  rw [collisionChecks_single_hit clock ik ib _ _ _ _ es b cB hK hB hBid hov hskip, if_pos hlt]

theorem wall_of_type {e : Entity} (h : Entity.Type e = EntityType.WallType) :
    ∃ w, e = Entity.wall w := by
  cases e with
  | wall w => exact ⟨w, rfl⟩
  | character c => simp at h
  | bullet b => simp at h

/-- The tick of a level that holds walls, the avatars `A` and `B` and one bullet `K` of
`A`, where `B` is at rest and the proposed position of `K` is inside the world, overlaps
the box of `B` and overlaps no wall. -/
theorem tickPass_single_hit (level : Level) (clock : Clock) (ia ib ik : Nat)
    (A B : Character) (K : Bullet)
    (hA : level.entities[ia]? = some (Entity.character A))
    (hB : level.entities[ib]? = some (Entity.character B))
    (hK : level.entities[ik]? = some (Entity.bullet K))
    (hAK : A.id = K.id) (hBK : B.id ≠ K.id)
    (hBv : B.velocityX = 0 ∧ B.velocityY = 0)
    (hrest : ∀ (j : Nat) (e : Entity), level.entities[j]? = some e → j ≠ ia → j ≠ ib → j ≠ ik →
      Entity.Type e = EntityType.WallType)
    (hin : hitWall level (Entity.bullet K) = false)
    (hov : overlaps (newX level (Entity.bullet K)) (newY level (Entity.bullet K))
      K.width K.height (Entity.character B) = true)
    (hwalls : ∀ (j : Nat) (w : Wall), level.entities[j]? = some (Entity.wall w) →
      overlaps (newX level (Entity.bullet K)) (newY level (Entity.bullet K))
        K.width K.height (Entity.wall w) = false) :
    ∃ A' B' K', (tickPass level clock)[ia]? = some (Entity.character A') ∧
      (tickPass level clock)[ib]? = some (Entity.character B') ∧
      (tickPass level clock)[ik]? = some (Entity.bullet K') ∧
      B'.score = B.score - 1 ∧ B'.lastHit = (clock.hit ik (Ref.index ib) : ℚ) ∧
      A'.score = A.score + 1 ∧ K'.active = false := by
  have hlen : ik < level.entities.length := by
    by_contra hge
    rw [List.getElem?_eq_none (by omega)] at hK
    exact absurd hK (by simp)
  have hbk : ib ≠ ik := by
    intro h; rw [h, hK] at hB; cases hB
  have hak : ia ≠ ik := by
    intro h; rw [h, hK] at hA; cases hA
  have hnb : ∀ (i : Nat) (e : Entity), i ≠ ik → level.entities[i]? = some e →
      Entity.Type e ≠ EntityType.BulletType := by
    intro i e hik he
    by_cases h1 : i = ia
    · rw [h1, hA] at he; cases he; simp
    · by_cases h2 : i = ib
      · rw [h2, hB] at he; cases he; simp
      · rw [hrest i e he h1 h2 hik]; simp
  -- the state at the turn of the bullet
  have P1 : Pointwise keepRel level.entities (tickUpTo level clock ik) :=
    tickUpTo_keep level clock (Nat.zero_le ik) (fun i e _ h2 he => hnb i e (by omega) he)
  obtain ⟨eA, hA1, rA⟩ := getElem?_of_pointwise P1 hA
  obtain ⟨A1, rfl, hA1id, hA1s, -, -⟩ := keepRel_character rA
  obtain ⟨eB, hB1, rB⟩ := getElem?_of_pointwise P1 hB
  obtain ⟨B1, rfl, hB1id, hB1s, -, -⟩ := keepRel_character rB
  obtain ⟨eK, hK1, hKm⟩ := tickUpTo_before level clock hK ik (le_refl ik)
  obtain ⟨eK', hK1', rK⟩ := getElem?_of_pointwise P1 hK
  rw [hK1] at hK1'
  cases hK1'
  obtain ⟨K1, rfl, hK1id, -⟩ := keepRel_bullet rK
  -- the box of `B` has not moved
  have hBbox : (Entity.character B1).motion = (Entity.character B).motion := by
    by_cases hlt : ib < ik
    · obtain ⟨e', h1, h2, h3, h4, h5, h6, h7, h8, hpos⟩ := tickUpTo_after level clock hB ik hlt
      rw [hB1] at h1
      cases h1
      rw [motion_eq_iff]
      simp only [Entity.X_character, Entity.Y_character, Entity.VelocityX_character,
        Entity.VelocityY_character, Character.X, Character.Y, Character.VelocityX,
        Character.VelocityY, hBv.1, hBv.2, zero_mul, add_zero] at h7 h8 hpos
      refine ⟨h2, h3, ?_, ?_, h4, h5, by simpa [hBv.1] using h7, by simpa [hBv.2] using h8, h6⟩
      · rcases hpos with h | h
        · simpa using h.1
        · simpa using h.2.2.1
      · rcases hpos with h | h
        · simpa using h.2
        · simpa using h.2.2.2
    · obtain ⟨e', h1, h2⟩ := tickUpTo_before level clock hB ik (by omega)
      rw [hB1] at h1
      cases h1
      exact h2
  have hx := newX_congr level hKm
  have hy := newY_congr level hKm
  have hw := hitWall_congr level hKm
  have hKw : K1.width = K.width := by
    have := ((motion_eq_iff _ _).mp hKm).2.2.2.2.1
    simpa using this
  have hKh : K1.height = K.height := by
    have := ((motion_eq_iff _ _).mp hKm).2.2.2.2.2.1
    simpa using this
  have hskip : ∀ (j : Nat) (o : Entity), (tickUpTo level clock ik)[j]? = some o → j ≠ ib →
      K1.id = o.Id ∨ overlaps (newX level (Entity.bullet K1)) (newY level (Entity.bullet K1))
        K1.width K1.height o = false := by
    intro j o ho hjb
    by_cases hja : j = ia
    · left
      rw [hja, hA1] at ho
      cases ho
      simp [hK1id, hA1id, hAK]
    · by_cases hjk : j = ik
      · left
        rw [hjk, hK1] at ho
        cases ho
        rfl
      · right
        obtain ⟨e0, h0, -⟩ := type_eq_of_tickUpTo level clock ik ho
        obtain ⟨w, rfl⟩ := wall_of_type (hrest j e0 h0 hja hjb hjk)
        obtain ⟨o', ho', rw'⟩ := getElem?_of_pointwise
          (tickUpTo_stable_from wallRel_stable level clock (Nat.zero_le ik)) h0
        rw [ho] at ho'
        cases ho'
        rw [rw' w rfl, hx, hy, hKw, hKh]
        exact hwalls j w h0
  have hchecks := tickChecks_single_hit level clock ik ib (tickUpTo level clock ik) K1 B1
    hK1 hB1 (by rw [hB1id, hK1id]; exact hBK) (by rw [hw]; exact hin)
    (by rw [hx, hy, hKw, hKh, overlaps_congr _ _ _ _ hBbox]; exact hov) hskip
  obtain ⟨hitB, hitA, hitK⟩ := bulletHandleCollision_hit K1 ik ib ia (tickUpTo level clock ik)
    B1 A1 (clock.hit ik (Ref.index ib)) hK1 hB1 hA1 (by rw [hB1id, hK1id]; exact hBK)
    (by rw [hA1id, hK1id]; exact hAK)
  -- the state after the turn of the bullet
  have hB2 : (tickUpTo level clock (ik + 1))[ib]? = some (Entity.character
      { B1 with score := B1.score + -1, lastHit := (clock.hit ik (Ref.index ib) : ℚ) }) := by
    simp only [tickUpTo]
    rw [tickEntity_getElem?_ne level clock _ (Entity.bullet K1) hK1 hbk, hchecks]
    exact hitB
  have hA2 : (tickUpTo level clock (ik + 1))[ia]? = some (Entity.character
      { A1 with score := A1.score + 1 }) := by
    simp only [tickUpTo]
    rw [tickEntity_getElem?_ne level clock _ (Entity.bullet K1) hK1 hak, hchecks]
    exact hitA
  have hK2 : ∃ K2, (tickUpTo level clock (ik + 1))[ik]? = some (Entity.bullet K2) ∧
      K2.active = false := by
    simp only [tickUpTo]
    rw [tickEntity_getElem?_self level clock _ (Entity.bullet K1) hK1, hchecks]
    simp only []
    rw [hitK]
    exact ⟨_, rfl, rfl⟩
  obtain ⟨K2, hK2, hK2a⟩ := hK2
  -- the turns after the turn of the bullet
  have P3 : Pointwise keepRel (tickUpTo level clock (ik + 1)) (tickPass level clock) :=
    tickUpTo_keep level clock (Nat.succ_le_of_lt hlen) (fun i e h1 _ he => hnb i e (by omega) he)
  obtain ⟨eA3, hA3, rA3⟩ := getElem?_of_pointwise P3 hA2
  obtain ⟨A3, rfl, -, hA3s, -, -⟩ := keepRel_character rA3
  obtain ⟨eB3, hB3, rB3⟩ := getElem?_of_pointwise P3 hB2
  obtain ⟨B3, rfl, -, hB3s, hB3l, -⟩ := keepRel_character rB3
  obtain ⟨eK3, hK3, rK3⟩ := getElem?_of_pointwise P3 hK2
  obtain ⟨K3, rfl, -, hK3a⟩ := keepRel_bullet rK3
  refine ⟨A3, B3, K3, hA3, hB3, hK3, ?_, ?_, ?_, ?_⟩
  · rw [hB3s]; simp only []; rw [hB1s]; ring
  · rw [hB3l]
  · rw [hA3s]; simp only []; rw [hA1s]
  · rw [hK3a]; exact hK2a

/-! ## Walls -/

/-- The turn of a wall changes nothing. -/
theorem tickEntity_wall (level : Level) (clock : Clock) (es : List Entity) (i : Nat) {w : Wall}
    (hi : es[i]? = some (Entity.wall w)) : tickEntity level clock es i = es := by
  unfold tickEntity
  rw [hi]
  simp only []
  rw [tickChecks_nonbullet_fst level clock es i (Entity.wall w) hi (by simp)]
  have h1 : updateAt es i (fun e => e.SetPosition (newX level (Entity.wall w))
      (newY level (Entity.wall w))) = es :=
    updateAt_id es i _ (fun e he => by rw [hi] at he; cases he; rfl)
  have h2 : updateAt es i (fun e =>
      e.SetVelocity (e.VelocityX * e.Friction) (e.VelocityY * e.Friction)) = es :=
    updateAt_id es i _ (fun e he => by rw [hi] at he; cases he; rfl)
  split
  · rw [h1, h2]
  · rw [h2]

theorem wallOfRel_stable : Stable wallOfRel where
  refl := fun e => rfl
  trans := fun e1 e2 e3 h12 h23 => h23.trans h12
  adjScore := fun e x => by cases e <;> rfl
  adjLastHit := fun e x => by cases e <;> rfl
  setPosition := fun e x y => by cases e <;> rfl
  setVelocity := fun e x y => by cases e <;> rfl
  deactivate := fun b => rfl

theorem filterMap_of_pointwise {β : Type} (g : Entity → Option β) {es es' : List Entity}
    (h : Pointwise (fun e e' => g e' = g e) es es') : es'.filterMap g = es.filterMap g := by
  induction es generalizing es' with
  | nil =>
    cases es' with
    | nil => rfl
    | cons a' es' => exact absurd h.1 (by simp)
  | cons a es ih =>
    cases es' with
    | nil => exact absurd h.1 (by simp)
    | cons a' es' =>
      obtain ⟨h1, h2⟩ := pointwise_cons h
      have := ih h2
      simp only [List.filterMap_cons, h1, this]

theorem walls_RemoveInactive (es : List Entity) :
    walls (EntityList.RemoveInactive es) = walls es := by
  induction es with
  | nil => rfl
  | cons a es ih =>
    simp only [EntityList.RemoveInactive]
    split
    · rename_i ha
      cases a with
      | wall w => simp at ha
      | character c => simp [walls, wallOf]
      | bullet b => simp [walls, wallOf]
    · unfold walls at ih ⊢
      simp only [List.filterMap_cons, ih]

theorem walls_tick (level : Level) (clock : Clock) :
    walls (Level.tick level clock).entities = walls level.entities := by
  show walls (EntityList.RemoveInactive (tickPass level clock)) = walls level.entities
  rw [walls_RemoveInactive]
  exact filterMap_of_pointwise wallOf (tickPass_stable wallOfRel_stable level clock)

theorem getElem?_tickUpTo_wall (level : Level) (clock : Clock) (n : Nat) {j : Nat} {w : Wall}
    (hj : level.entities[j]? = some (Entity.wall w)) :
    (tickUpTo level clock n)[j]? = some (Entity.wall w) := by
  obtain ⟨e', h1, h2⟩ := getElem?_of_pointwise
    (tickUpTo_stable_from wallRel_stable level clock (Nat.zero_le n)) hj
  rw [h1, h2 w rfl]

/-! ## Snapshots -/

theorem joinAndShoot_eq : run mainLevel joinAndShoot = some afterJoinAndShoot := by
  norm_num +decide [run, Op.apply, joinAndShoot, afterJoinAndShoot, EntityList.SpawnEntity,
    spawnIntersects, boxesIntersect, characterShoot, EntityList.Append, mainLevel, newCharacter,
    avatar7, bullet7]

theorem entitySlim_fields (user entity : Entity) :
    (entitySlim user entity).Id = entity.Id ∧
      (entitySlim user entity).Type' = (Entity.Type entity).String ∧
      (entitySlim user entity).You = decide (entity.Id = user.Id) := by
  cases entity <;> exact ⟨rfl, rfl, rfl⟩

/-! ## Calls of `HandleCollision` that are not made, or that write no score -/

theorem record_SetActive (e : Entity) (v : Bool) : record (e.SetActive v) = record e := by
  cases e <;> rfl

theorem record_SetPosition (e : Entity) (x y : ℚ) : record (e.SetPosition x y) = record e := by
  cases e <;> rfl

theorem record_SetVelocity (e : Entity) (x y : ℚ) : record (e.SetVelocity x y) = record e := by
  cases e <;> rfl

/-- A call of `Bullet.HandleCollision` whose `entity` is not a character with another id
leaves every score and every `lastHit`. -/
theorem bulletHandleCollision_record (b : Bullet) (i : Nat) (es : List Entity) (r : Ref)
    (entity : Entity) (now : Int)
    (h : ¬ (Entity.Type entity = EntityType.CharacterType ∧ entity.Id ≠ b.id)) :
    (b.HandleCollision i es r entity now).1.map record = es.map record := by
  unfold Bullet.HandleCollision
  rw [if_neg h]
  split
  · exact map_updateAt record es i _ (fun e => record_SetActive e false)
  · rfl

theorem bulletHandleCollision_same_id (b : Bullet) (i : Nat) (es : List Entity) (r : Ref)
    (c : Character) (now : Int) (hid : c.id = b.id) :
    b.HandleCollision i es r (Entity.character c) now = (es, { Blocked := false }) := by
  simp [Bullet.HandleCollision, hid]

/-- The step of the collision checks at an entity with the id of the moving entity
changes nothing. -/
theorem collisionChecks_succ_same_id (clock : Clock) (i : Nat) (id : String) (nx ny : ℚ)
    (w h : Int) (n : Nat) (s : List Entity × Bool) {o : Entity}
    (hn : s.1[n]? = some o) (hid : o.Id = id) :
    collisionChecks clock i id nx ny w h (n + 1) s = collisionChecks clock i id nx ny w h n s := by
  simp only [collisionChecks]
  have hm := getElem?_map_eq (collisionChecks_motion clock i id nx ny w h n s) n
  rw [hn] at hm
  cases h1 : (collisionChecks clock i id nx ny w h n s).1[n]? with
  | none => rfl
  | some o1 =>
    rw [h1] at hm
    simp only [Option.map_some', Option.some.injEq] at hm
    have hid1 : o1.Id = o.Id := ((motion_eq_iff o o1).mp hm).2.1
    simp only []
    rw [if_neg (by rw [hid1, hid]; simp)]

/-- The collision checks of an entity that, for every entity of the container, has its id
or does not overlap it call no `HandleCollision`. -/
theorem collisionChecks_no_call (clock : Clock) (i : Nat) (id : String) (nx ny : ℚ)
    (w h : Int) (es : List Entity) (bl : Bool)
    (hskip : ∀ (k : Nat) (o : Entity), es[k]? = some o →
      id = o.Id ∨ overlaps nx ny w h o = false) (n : Nat) :
    collisionChecks clock i id nx ny w h n (es, bl) = (es, bl) := by
  induction n with
  | zero => rfl
  | succ n ih =>
    simp only [collisionChecks, ih]
    cases h0 : es[n]? with
    | none => rfl
    | some o =>
      simp only []
      have hcond : ¬ (id ≠ o.Id ∧ overlaps nx ny w h o = true) := by
        rintro ⟨h1, h2⟩
        rcases hskip n o h0 with h3 | h3
        · exact h1 h3
        · rw [h3] at h2; exact absurd h2 (by simp)
      rw [if_neg hcond]

theorem tickChecks_no_call (level : Level) (clock : Clock) (es : List Entity) (i : Nat)
    (entity : Entity) (hin : hitWall level entity = false)
    (hskip : ∀ (k : Nat) (o : Entity), es[k]? = some o →
      entity.Id = o.Id ∨
        overlaps (newX level entity) (newY level entity) entity.Width entity.Height o = false) :
    tickChecks level clock es i entity = (es, false) := by
  unfold tickChecks boundaryCheck
  rw [hin]
  simp only [Bool.false_eq_true, if_false]
  exact collisionChecks_no_call clock i _ _ _ _ _ es false hskip _

/-! ## Two hits of one bullet -/

/-- A hit leaves an entity that is neither the bullet, nor the struck character, nor a
character with the id of the bullet. -/
theorem bulletHandleCollision_hit_other (b : Bullet) (ik ib k : Nat) (es : List Entity)
    (cB : Character) (now : Int) (o : Entity) (hBid : cB.id ≠ b.id)
    (hk : es[k]? = some o) (hkk : k ≠ ik) (hkb : k ≠ ib)
    (ho : ¬ (Entity.Type o = EntityType.CharacterType ∧ o.Id = b.id)) :
    (b.HandleCollision ik es (Ref.index ib) (Entity.character cB) now).1[k]? = some o := by
  simp only [Bullet.HandleCollision, Entity.Type_character, Character.Type, Entity.Id_character,
    Character.Id, true_and, hBid, ne_eq, not_false_eq_true, if_true, Ref.update,
    List.getElem?_map, getElem?_updateAt, hkk, hkb, if_false, hk, Option.map_some']
  rw [if_neg ho]

/-- Two calls of `HandleCollision` of the bullet stored at `i`, one after the other, for
two characters with ids other than the id of the bullet: each call reports
`Blocked = false`, each struck character loses 1 and gets its own `lastHit`, the character
with the id of the bullet gains 2, and the bullet is inactive. -/
theorem handleCollision_two_hits (es : List Entity) (i ja jb jc : Nat) (b : Bullet)
    (cA cB cC : Character) (now1 now2 : Int)
    (hi : es[i]? = some (Entity.bullet b))
    (hA : es[ja]? = some (Entity.character cA))
    (hB : es[jb]? = some (Entity.character cB))
    (hC : es[jc]? = some (Entity.character cC))
    (hAid : cA.id = b.id) (hBid : cB.id ≠ b.id) (hCid : cC.id ≠ b.id) (hbc : jb ≠ jc) :
    (Entity.HandleCollision es i (Ref.index jb) now1).2.Blocked = false ∧
      (Entity.HandleCollision (Entity.HandleCollision es i (Ref.index jb) now1).1 i
        (Ref.index jc) now2).2.Blocked = false ∧
      (Entity.HandleCollision (Entity.HandleCollision es i (Ref.index jb) now1).1 i
        (Ref.index jc) now2).1[jb]? =
          some (Entity.character { cB with score := cB.score + -1, lastHit := (now1 : ℚ) }) ∧
      (Entity.HandleCollision (Entity.HandleCollision es i (Ref.index jb) now1).1 i
        (Ref.index jc) now2).1[jc]? =
          some (Entity.character { cC with score := cC.score + -1, lastHit := (now2 : ℚ) }) ∧
      (Entity.HandleCollision (Entity.HandleCollision es i (Ref.index jb) now1).1 i
        (Ref.index jc) now2).1[ja]? =
          some (Entity.character { cA with score := cA.score + 1 + 1 }) ∧
      (Entity.HandleCollision (Entity.HandleCollision es i (Ref.index jb) now1).1 i
        (Ref.index jc) now2).1[i]? = some (Entity.bullet { b with active := false }) := by
  have hci : jc ≠ i := by
    intro h; rw [h, hi] at hC; cases hC
  have hbi : jb ≠ i := by
    intro h; rw [h, hi] at hB; cases hB
  -- the first call
  have e1 := handleCollision_bullet es i (Ref.index jb) now1 hi (by simpa [Ref.deref] using hB)
  obtain ⟨hB1, hA1, hK1⟩ := bulletHandleCollision_hit b i jb ja es cB cA now1 hi hB hA hBid hAid
  have hC1 := bulletHandleCollision_hit_other b i jb jc es cB now1 (Entity.character cC) hBid hC
    hci hbc.symm (by simp [hCid])
  rw [← e1] at hB1 hA1 hK1 hC1
  have hblk1 : (Entity.HandleCollision es i (Ref.index jb) now1).2.Blocked = false := by
    rw [e1]; exact bulletHandleCollision_hit_blocked b i es (Ref.index jb) cB now1 hBid
  -- the second call
  have e2 := handleCollision_bullet (Entity.HandleCollision es i (Ref.index jb) now1).1 i
    (Ref.index jc) now2 hK1 (by simpa [Ref.deref] using hC1)
  obtain ⟨hC2, hA2, hK2⟩ := bulletHandleCollision_hit { b with active := false } i jc ja
    (Entity.HandleCollision es i (Ref.index jb) now1).1 cC { cA with score := cA.score + 1 } now2
    hK1 hC1 hA1 hCid hAid
  have hB2 := bulletHandleCollision_hit_other { b with active := false } i jc jb
    (Entity.HandleCollision es i (Ref.index jb) now1).1 cC now2 _ hCid hB1 hbi hbc
    (by simp [hBid])
  rw [← e2] at hC2 hA2 hK2 hB2
  refine ⟨hblk1, ?_, hB2, hC2, hA2, hK2⟩
  rw [e2]
  exact bulletHandleCollision_hit_blocked _ i _ (Ref.index jc) cC now2 hCid

/-! ## Repeated `RemoveInactive` -/

theorem filter_RemoveInactive (es : List Entity) :
    (EntityList.RemoveInactive es).filter (fun e => e.Active) = es.filter (fun e => e.Active) := by
  induction es with
  | nil => rfl
  | cons a es ih =>
    simp only [EntityList.RemoveInactive]
    cases ha : a.Active with
    | false => simp [ha]
    | true => simp [ha, ih]

theorem countP_iterate_RemoveInactive (es : List Entity) (j : Nat) :
    (EntityList.RemoveInactive^[j] es).countP (fun e => !e.Active) =
      es.countP (fun e => !e.Active) - j := by
  induction j with
  | zero => rfl
  | succ j ih =>
    rw [Function.iterate_succ_apply', countP_RemoveInactive, ih]
    omega

theorem filter_iterate_RemoveInactive (es : List Entity) (j : Nat) :
    (EntityList.RemoveInactive^[j] es).filter (fun e => e.Active) =
      es.filter (fun e => e.Active) := by
  induction j with
  | zero => rfl
  | succ j ih => rw [Function.iterate_succ_apply', filter_RemoveInactive, ih]

theorem filter_active_of_countP_eq_zero {es : List Entity}
    (h : es.countP (fun e => !e.Active) = 0) : es.filter (fun e => e.Active) = es := by
  rw [List.countP_eq_zero] at h
  rw [List.filter_eq_self]
  intro e he
  simpa using h e he

/-! ## Turns that hit the boundary -/

theorem hitWall_of_crossing {level : Level} {e : Entity}
    (h : e.X + e.VelocityX < 0 ∨ (level.width : ℚ) < e.X + e.VelocityX + (e.Width : ℚ) ∨
      e.Y + e.VelocityY < 0 ∨ (level.height : ℚ) < e.Y + e.VelocityY + (e.Height : ℚ)) :
    hitWall level e = true := by
  simp only [hitWall, hitsAxis, Bool.or_eq_true, decide_eq_true_eq, gt_iff_lt]
  tauto

/-- A bullet that is inactive when its collision checks are over is inactive at the end
of the pass. -/
theorem tickPass_bullet_inactive (level : Level) (clock : Clock) {i : Nat} {b : Bullet}
    (hi : level.entities[i]? = some (Entity.bullet b))
    (hchecks : ∀ b1, (tickUpTo level clock i)[i]? = some (Entity.bullet b1) →
      (Entity.bullet b1).motion = (Entity.bullet b).motion →
      ∃ b2, (tickChecks level clock (tickUpTo level clock i) i (Entity.bullet b1)).1[i]? =
        some (Entity.bullet b2) ∧ b2.active = false) :
    ∃ b', (tickPass level clock)[i]? = some (Entity.bullet b') ∧ b'.active = false := by
  have hlt : i < level.entities.length := by
    by_contra hge
    rw [List.getElem?_eq_none (by omega)] at hi
    exact absurd hi (by simp)
  obtain ⟨e1, h1, hm1⟩ := tickUpTo_before level clock hi i (le_refl i)
  cases e1 with
  | wall w1 => simp [Entity.motion] at hm1
  | character c1 => simp [Entity.motion] at hm1
  | bullet b1 =>
    obtain ⟨b2, h2, hb2⟩ := hchecks b1 h1 hm1
    have h3 := tickEntity_getElem?_self level clock (tickUpTo level clock i) (Entity.bullet b1) h1
    rw [h2] at h3
    have h4 : ∃ b3, (tickUpTo level clock (i + 1))[i]? = some (Entity.bullet b3) ∧
        b3.active = false := by
      simp only [tickUpTo]
      rw [h3]
      simp only [Option.map_some']
      split
      · exact ⟨_, rfl, by simpa using hb2⟩
      · exact ⟨_, rfl, by simpa using hb2⟩
    obtain ⟨b3, h5, hb3⟩ := h4
    obtain ⟨e4, h6, hrel4⟩ := getElem?_of_pointwise
      (tickUpTo_stable_from activeRel_stable level clock (Nat.succ_le_of_lt hlt)) h5
    obtain ⟨b4, rfl, hb4⟩ := inactive_bullet_of_activeRel hb3 hrel4
    exact ⟨b4, h6, hb4⟩

/-- A bullet whose proposed position crosses the boundary is inactive when its collision
checks are over, and `blocked` is set. -/
theorem tickChecks_bullet_boundary (level : Level) (clock : Clock) (es : List Entity) (i : Nat)
    {b : Bullet} (hi : es[i]? = some (Entity.bullet b))
    (hw : hitWall level (Entity.bullet b) = true) :
    (tickChecks level clock es i (Entity.bullet b)).2 = true ∧
      ∃ b', (tickChecks level clock es i (Entity.bullet b)).1[i]? = some (Entity.bullet b') ∧
        b'.active = false := by
  have hblk := boundaryCheck_blocked level clock es i (Entity.bullet b) hi hw (by simp)
  obtain ⟨b', h1, h2⟩ := boundaryCheck_bulletInv level clock es i (Entity.bullet b) hi
  have heq : boundaryCheck level clock es i (Entity.bullet b) =
      ((boundaryCheck level clock es i (Entity.bullet b)).1, true) := Prod.ext rfl hblk
  unfold tickChecks
  rw [heq, collisionChecks_of_blocked]
  exact ⟨rfl, b', h1, h2 hblk⟩

theorem tickPass_bullet_boundary (level : Level) (clock : Clock) {i : Nat} {b : Bullet}
    (hi : level.entities[i]? = some (Entity.bullet b))
    (hw : hitWall level (Entity.bullet b) = true) :
    ∃ b', (tickPass level clock)[i]? = some (Entity.bullet b') ∧ b'.active = false := by
  apply tickPass_bullet_inactive level clock hi
  intro b1 h1 hm1
  exact (tickChecks_bullet_boundary level clock _ i h1
    (by rw [hitWall_congr level hm1]; exact hw)).2

/-! ## The sum of the scores -/

theorem scoreSum_cons (a : Entity) (es : List Entity) :
    scoreSum (a :: es) = scoreOf a + scoreSum es := by
  simp [scoreSum]

theorem scoreSum_updateAt (es : List Entity) (j : Nat) (f : Entity → Entity) {e : Entity}
    (hj : es[j]? = some e) :
    scoreSum (updateAt es j f) = scoreSum es - scoreOf e + scoreOf (f e) := by
  induction es generalizing j with
  | nil => simp at hj
  | cons a es ih =>
    cases j with
    | zero =>
      simp only [List.getElem?_cons_zero, Option.some.injEq] at hj
      subst hj
      simp only [updateAt, scoreSum_cons]
      ring
    | succ j =>
      simp only [List.getElem?_cons_succ] at hj
      simp only [updateAt, scoreSum_cons, ih j hj]
      ring

theorem scoreSum_updateAt_of_scoreOf (es : List Entity) (j : Nat) (f : Entity → Entity)
    (hf : ∀ e, scoreOf (f e) = scoreOf e) : scoreSum (updateAt es j f) = scoreSum es := by
  unfold scoreSum
  rw [map_updateAt scoreOf es j f hf]

/-- The loop of `Bullet.HandleCollision` over the container adds 1 to the sum of the scores
for each character that has the id of the bullet. -/
theorem scoreSum_map_scorer (es : List Entity) (id : String) :
    scoreSum (es.map (fun e =>
        if Entity.Type e = EntityType.CharacterType ∧ e.Id = id then e.AdjScore 1 else e)) =
      scoreSum es + ((characterIds es).count id : Int) := by
  induction es with
  | nil => simp [scoreSum, characterIds]
  | cons a es ih =>
    simp only [List.map_cons, scoreSum_cons, ih]
    cases a with
    | wall w => simp [characterIds, characterId, scoreOf]
    | bullet b => simp [characterIds, characterId, scoreOf]
    | character c =>
      by_cases hid : c.id = id
      · simp [characterIds, characterId, scoreOf, hid, List.count_cons]
        ring
      · simp [characterIds, characterId, scoreOf, hid, List.count_cons]
        ring

theorem characterIds_updateAt (es : List Entity) (j : Nat) (f : Entity → Entity)
    (hf : ∀ e, characterId (f e) = characterId e) :
    characterIds (updateAt es j f) = characterIds es :=
  characterIds_of_pointwise
    (@pointwise_updateAt characterIdRel (fun _ => rfl) es j f (fun e _ => hf e))

/-- The sum of the scores after a hit: the struck character loses 1 and every character
with the id of the bullet gains 1. -/
theorem scoreSum_hit (b : Bullet) (i j : Nat) (es : List Entity) (c : Character) (now : Int)
    (hj : es[j]? = some (Entity.character c)) (hi : es[i]? = some (Entity.bullet b))
    (hid : c.id ≠ b.id) :
    scoreSum (b.HandleCollision i es (Ref.index j) (Entity.character c) now).1 =
      scoreSum es - 1 + ((characterIds es).count b.id : Int) := by
  have hji : j ≠ i := by
    intro h; rw [h, hi] at hj; cases hj
  simp only [Bullet.HandleCollision, Entity.Type_character, Character.Type, Entity.Id_character,
    Character.Id, true_and, hid, ne_eq, not_false_eq_true, if_true, Ref.update]
  rw [scoreSum_map_scorer]
  have h1 : (updateAt es i (fun e => e.SetActive false))[j]? = some (Entity.character c) := by
    rw [getElem?_updateAt_ne _ _ hji, hj]
  have h2 : (updateAt (updateAt es i (fun e => e.SetActive false)) j
      (fun e => e.AdjScore (-1)))[j]? = some (Entity.character (c.AdjScore (-1))) := by
    rw [getElem?_updateAt_self, h1]; rfl
  rw [scoreSum_updateAt _ j _ h2, scoreSum_updateAt _ j _ h1,
    scoreSum_updateAt_of_scoreOf es i _ (fun e => by cases e <;> rfl),
    characterIds_updateAt _ j _ (fun e => by cases e <;> rfl),
    characterIds_updateAt _ j _ (fun e => by cases e <;> rfl),
    characterIds_updateAt _ i _ (fun e => by cases e <;> rfl)]
  simp [scoreOf]
  ring
theorem scoreOf_eq_of_record {e e' : Entity} (h : record e' = record e) :
    scoreOf e' = scoreOf e := by
  cases e <;> cases e' <;> simp_all [record, scoreOf]

theorem scoreSum_eq_of_record {es es' : List Entity} (h : es'.map record = es.map record) :
    scoreSum es' = scoreSum es := by
  induction es generalizing es' with
  | nil =>
    cases es' with
    | nil => rfl
    | cons a' es' => simp at h
  | cons a es ih =>
    cases es' with
    | nil => simp at h
    | cons a' es' =>
      simp only [List.map_cons, List.cons.injEq] at h
      rw [scoreSum_cons, scoreSum_cons, ih h.2, scoreOf_eq_of_record h.1]

/-- A call of `HandleCollision` does not increase the sum of the scores when the ids of
the characters are pairwise distinct. -/
theorem handleCollision_scoreSum (es : List Entity) (i : Nat) (r : Ref) (now : Int)
    (hn : (characterIds es).Nodup) :
    scoreSum (Entity.HandleCollision es i r now).1 ≤ scoreSum es := by
  unfold Entity.HandleCollision
  split
  · exact le_refl _
  · exact le_refl _
  · rename_i b other hi hr
    by_cases hit : Entity.Type other = EntityType.CharacterType ∧ other.Id ≠ b.id
    · cases other with
      | wall w => simp at hit
      | bullet b' => simp at hit
      | character c =>
        cases r with
        | boundary => simp [Ref.deref] at hr
        | index j =>
          rw [scoreSum_hit b i j es c now (by simpa [Ref.deref] using hr) hi
            (by simpa using hit.2)]
          have hc : (characterIds es).count b.id ≤ 1 := List.nodup_iff_count_le_one.mp hn b.id
          have : ((characterIds es).count b.id : Int) ≤ 1 := by exact_mod_cast hc
          linarith
    · rw [scoreSum_eq_of_record (bulletHandleCollision_record b i es r other now hit)]
  · exact le_refl _

theorem characterIds_handleCollision (es : List Entity) (i : Nat) (r : Ref) (now : Int) :
    characterIds (Entity.HandleCollision es i r now).1 = characterIds es :=
  characterIds_of_pointwise (handleCollision_stable characterIdRel_stable es i r now)

theorem collisionChecks_scoreSum (clock : Clock) (i : Nat) (id : String) (nx ny : ℚ) (w h : Int)
    (n : Nat) (s : List Entity × Bool) (hn : (characterIds s.1).Nodup) :
    scoreSum (collisionChecks clock i id nx ny w h n s).1 ≤ scoreSum s.1 := by
  induction n with
  | zero => exact le_refl _
  | succ n ih =>
    have hids : characterIds (collisionChecks clock i id nx ny w h n s).1 = characterIds s.1 :=
      characterIds_of_pointwise (collisionChecks_stable characterIdRel_stable clock i id nx ny w h n s)
    simp only [collisionChecks]
    split
    · exact ih
    · split
      · split
        · exact ih
        · exact le_trans (handleCollision_scoreSum _ i _ _ (by rw [hids]; exact hn)) ih
      · exact ih

theorem tickChecks_scoreSum (level : Level) (clock : Clock) (es : List Entity) (i : Nat)
    (entity : Entity) (hn : (characterIds es).Nodup) :
    scoreSum (tickChecks level clock es i entity).1 ≤ scoreSum es := by
  unfold tickChecks
  have hb : scoreSum (boundaryCheck level clock es i entity).1 ≤ scoreSum es ∧
      characterIds (boundaryCheck level clock es i entity).1 = characterIds es := by
    unfold boundaryCheck
    split
    · exact ⟨handleCollision_scoreSum es i _ _ hn, characterIds_handleCollision es i _ _⟩
    · exact ⟨le_refl _, rfl⟩
  exact le_trans (collisionChecks_scoreSum clock i _ _ _ _ _ _ _ (by rw [hb.2]; exact hn)) hb.1

theorem tickEntity_scoreSum (level : Level) (clock : Clock) (es : List Entity) (i : Nat)
    (hn : (characterIds es).Nodup) :
    scoreSum (tickEntity level clock es i) ≤ scoreSum es := by
  unfold tickEntity
  split
  · exact le_refl _
  · rename_i entity _
    simp only []
    rw [scoreSum_updateAt_of_scoreOf _ i _ (fun e => by cases e <;> rfl)]
    split
    · rw [scoreSum_updateAt_of_scoreOf _ i _ (fun e => by cases e <;> rfl)]
      exact tickChecks_scoreSum level clock es i entity hn
    · exact tickChecks_scoreSum level clock es i entity hn

theorem characterIds_tickUpTo (level : Level) (clock : Clock) (n : Nat) :
    characterIds (tickUpTo level clock n) = characterIds level.entities :=
  characterIds_of_pointwise
    (tickUpTo_stable_from characterIdRel_stable level clock (Nat.zero_le n))

/-- The pass does not increase the sum of the scores when the ids of the characters are
pairwise distinct. -/
theorem tickUpTo_scoreSum (level : Level) (clock : Clock)
    (hn : (characterIds level.entities).Nodup) (n : Nat) :
    scoreSum (tickUpTo level clock n) ≤ scoreSum level.entities := by
  induction n with
  | zero => exact le_refl _
  | succ n ih =>
    simp only [tickUpTo]
    exact le_trans (tickEntity_scoreSum level clock _ n
      (by rw [characterIds_tickUpTo]; exact hn)) ih
/-! ## Ticks without a hit -/

theorem handleCollision_record (es : List Entity) (i : Nat) (r : Ref) (now : Int)
    (h : ∀ b other, es[i]? = some (Entity.bullet b) → r.deref es = some other →
      ¬ (Entity.Type other = EntityType.CharacterType ∧ other.Id ≠ b.id)) :
    (Entity.HandleCollision es i r now).1.map record = es.map record := by
  unfold Entity.HandleCollision
  split
  · rfl
  · rfl
  · rename_i b other hi hr
    exact bulletHandleCollision_record b i es r other now (h b other hi hr)
  · rfl

theorem collisionChecks_record (clock : Clock) (i : Nat) (id : String) (nx ny : ℚ) (w h : Int)
    (es0 : List Entity) (hmover : ∀ e0, es0[i]? = some e0 → e0.Id = id)
    (hno : ∀ (j : Nat) (o : Entity), es0[j]? = some o →
      Entity.Type o = EntityType.CharacterType → o.Id ≠ id → overlaps nx ny w h o = false)
    (s : List Entity × Bool) (hs : s.1.map Entity.motion = es0.map Entity.motion) (n : Nat) :
    (collisionChecks clock i id nx ny w h n s).1.map record = s.1.map record := by
  induction n with
  | zero => rfl
  | succ n ih =>
    have hm : (collisionChecks clock i id nx ny w h n s).1.map Entity.motion =
        es0.map Entity.motion := by
      rw [collisionChecks_motion, hs]
    simp only [collisionChecks]
    split
    · exact ih
    · rename_i other hother
      split
      · rename_i hcond
        split
        · exact ih
        · simp only []
          rw [handleCollision_record _ i (Ref.index n) _ ?_, ih]
          intro b other' hb hr hforeign
          simp only [Ref.deref] at hr
          rw [hother] at hr
          cases hr
          -- the id of the bullet is the id of the moving entity
          have hbm := getElem?_map_eq hm i
          rw [hb] at hbm
          have hom := getElem?_map_eq hm n
          rw [hother] at hom
          cases h0 : es0[i]? with
          | none => simp [h0] at hbm
          | some e0 =>
            cases h1 : es0[n]? with
            | none => simp [h1] at hom
            | some o0 =>
              rw [h0] at hbm
              rw [h1] at hom
              simp only [Option.map_some', Option.some.injEq] at hbm hom
              have hbid : b.id = id := by
                have := ((motion_eq_iff e0 (Entity.bullet b)).mp hbm).2.1
                rw [← hmover e0 h0, ← this]; rfl
              have ho := (motion_eq_iff o0 other).mp hom
              have hov := hno n o0 h1 (by rw [← ho.1]; exact hforeign.1)
                (by rw [← ho.2.1, ← hbid]; exact hforeign.2)
              rw [← overlaps_congr nx ny w h hom, hcond.2] at hov
              exact absurd hov (by simp)
      · exact ih

theorem tickChecks_record (level : Level) (clock : Clock) (es : List Entity) (i : Nat)
    (entity : Entity) (hi : es[i]? = some entity)
    (hno : ∀ (j : Nat) (o : Entity), es[j]? = some o →
      Entity.Type o = EntityType.CharacterType → o.Id ≠ entity.Id →
      overlaps (newX level entity) (newY level entity) entity.Width entity.Height o = false) :
    (tickChecks level clock es i entity).1.map record = es.map record := by
  unfold tickChecks
  have hb : (boundaryCheck level clock es i entity).1.map record = es.map record := by
    unfold boundaryCheck
    split
    · apply handleCollision_record
      intro b other _ hr
      simp only [Ref.deref, Option.some.injEq] at hr
      subst hr
      simp
    · rfl
  rw [collisionChecks_record clock i entity.Id _ _ _ _ es
    (fun e0 h0 => by rw [hi] at h0; cases h0; rfl) hno _
    (boundaryCheck_motion level clock es i entity), hb]

/-- A turn in which the moving entity, if it is a bullet, overlaps no character with
another id leaves every score and every `lastHit`. -/
theorem tickEntity_record (level : Level) (clock : Clock) (es : List Entity) (i : Nat)
    (hno : ∀ b, es[i]? = some (Entity.bullet b) → ∀ (j : Nat) (o : Entity), es[j]? = some o →
      Entity.Type o = EntityType.CharacterType → o.Id ≠ b.id →
      overlaps (newX level (Entity.bullet b)) (newY level (Entity.bullet b)) b.width b.height
        o = false) :
    (tickEntity level clock es i).map record = es.map record := by
  unfold tickEntity
  cases hi : es[i]? with
  | none => rfl
  | some entity =>
    simp only []
    have hchecks : (tickChecks level clock es i entity).1.map record = es.map record := by
      cases entity with
      | wall w => rw [tickChecks_nonbullet_fst level clock es i _ hi (by simp)]
      | character c => rw [tickChecks_nonbullet_fst level clock es i _ hi (by simp)]
      | bullet b => exact tickChecks_record level clock es i _ hi (hno b hi)
    rw [map_updateAt record _ i _ (fun e => record_SetVelocity e _ _)]
    split
    · rw [map_updateAt record _ i _ (fun e => record_SetPosition e _ _), hchecks]
    · exact hchecks

/-- A pass in which no bullet overlaps, at its turn, a character with another id leaves
every score and every `lastHit`. -/
theorem tickUpTo_record (level : Level) (clock : Clock)
    (hno : ∀ (i : Nat) (b : Bullet), level.entities[i]? = some (Entity.bullet b) →
      ∀ (j : Nat) (o : Entity), (tickUpTo level clock i)[j]? = some o →
      Entity.Type o = EntityType.CharacterType → o.Id ≠ b.id →
      overlaps (newX level (Entity.bullet b)) (newY level (Entity.bullet b)) b.width b.height
        o = false) (n : Nat) :
    (tickUpTo level clock n).map record = level.entities.map record := by
  induction n with
  | zero => rfl
  | succ n ih =>
    simp only [tickUpTo]
    rw [tickEntity_record level clock _ n ?_, ih]
    intro b1 hb1 j o hj hty hid
    obtain ⟨e0, h0, hty0⟩ := type_eq_of_tickUpTo level clock n hb1
    cases e0 with
    | wall w => simp at hty0
    | character c => simp at hty0
    | bullet b0 =>
      obtain ⟨e1, h1, hm⟩ := tickUpTo_before level clock h0 n (le_refl n)
      rw [hb1] at h1
      cases h1
      have hx := newX_congr level hm
      have hy := newY_congr level hm
      have hf := (motion_eq_iff _ _).mp hm
      have hid1 : b1.id = b0.id := by simpa using hf.2.1
      have hw1 : b1.width = b0.width := by simpa using hf.2.2.2.2.1
      have hh1 : b1.height = b0.height := by simpa using hf.2.2.2.2.2.1
      rw [hx, hy, hw1, hh1]
      exact hno n b0 h0 j o hj hty (by rw [← hid1]; exact hid)

/-! ## Claims -/

/-- C4, as stated, fails in two ways.  In `lateBulletLevel` the bullet overlaps the wall
and becomes inactive, but `RemoveInactive` removes the inactive avatar stored before it,
and the bullet is still in the container after `Level.tick`.  In `wallIdLevel` the bullet
has the id of the walls, is not tested against them and is still active after the pass. -/
theorem bullet_wall_counterexample :
    (overlaps (newX lateBulletLevel (Entity.bullet wallShot))
        (newY lateBulletLevel (Entity.bullet wallShot)) wallShot.width wallShot.height
        (Entity.wall { x := 600, y := 100, width := 2, height := 400 }) = true ∧
      (Level.tick lateBulletLevel clock0).entities =
        [Entity.wall { x := 600, y := 100, width := 2, height := 400 },
         Entity.bullet { wallShot with active := false, velocityX := 999 / 250 }]) ∧
    (overlaps (newX wallIdLevel (Entity.bullet { wallShot with id := "wall" }))
        (newY wallIdLevel (Entity.bullet { wallShot with id := "wall" }))
        wallShot.width wallShot.height
        (Entity.wall { x := 600, y := 100, width := 2, height := 400 }) = true ∧
      tickPass wallIdLevel clock0 =
        [Entity.wall { x := 600, y := 100, width := 2, height := 400 },
         Entity.bullet { wallShot with id := "wall", x := 594, velocityX := 999 / 250 }]) := by
  refine ⟨⟨?_, ?_⟩, ?_, ?_⟩
  · norm_num [overlaps, newX, newY, clampAxis, lateBulletLevel, wallShot]
  · norm_num +decide [Level.tick, EntityList.RemoveInactive, tickPass, tickUpTo, tickEntity,
      tickChecks, boundaryCheck, newX, newY, hitWall, lateBulletLevel, wallShot, avatarA,
      newCharacter, clock0, collisionChecks, Entity.HandleCollision, clampAxis, hitsAxis,
      overlaps, Wall.HandleCollision, Character.HandleCollision, Bullet.HandleCollision,
      Ref.deref, Ref.update, updateAt]
  · norm_num [overlaps, newX, newY, clampAxis, wallIdLevel, wallShot]
  · norm_num +decide [tickPass, tickUpTo, tickEntity,
      tickChecks, boundaryCheck, newX, newY, hitWall, wallIdLevel, wallShot,
      clock0, collisionChecks, Entity.HandleCollision, clampAxis, hitsAxis,
      overlaps, Wall.HandleCollision, Bullet.HandleCollision,
      Ref.deref, Ref.update, updateAt]

/-- C4 (amended): a bullet whose id is not "wall" and whose proposed position in a tick
overlaps the bounding box of a wall of the container has `active = false` after the
processing of that tick; when every entity stored before it is active at that moment,
the `RemoveInactive` call of the tick removes exactly this bullet. -/
theorem bullet_wall_deactivates (level : Level) (clock : Clock) (i j : Nat) (b : Bullet)
    (w : Wall)
    (hi : level.entities[i]? = some (Entity.bullet b))
    (hj : level.entities[j]? = some (Entity.wall w))
    (hid : b.id ≠ "wall")
    (ho : overlaps (newX level (Entity.bullet b)) (newY level (Entity.bullet b))
      b.width b.height (Entity.wall w) = true) :
    ∃ b', (tickPass level clock)[i]? = some (Entity.bullet b') ∧ b'.active = false ∧
      ((∀ (k : Nat) (x : Entity), k < i → (tickPass level clock)[k]? = some x →
          x.Active = true) →
        (Level.tick level clock).entities = (tickPass level clock).eraseIdx i) := by
  obtain ⟨b', h1, h2⟩ := tickPass_bullet_wall level clock hi hj hid ho
  exact ⟨b', h1, h2, fun hpre =>
    RemoveInactive_eq_eraseIdx (tickPass level clock) i h1 (by simpa using h2) hpre⟩

/-- C4 (amended) at `wallShotLevel`: the bullet is inactive after the pass and is the
entity that the tick removes. -/
theorem bullet_wall_deactivates_witness :
    (∃ b', (tickPass wallShotLevel clock0)[2]? = some (Entity.bullet b') ∧ b'.active = false) ∧
      (Level.tick wallShotLevel clock0).entities = (tickPass wallShotLevel clock0).eraseIdx 2 := by
  obtain ⟨b', h1, h2, h3⟩ := bullet_wall_deactivates wallShotLevel clock0 2 0 wallShot
    { x := 600, y := 100, width := 2, height := 400 } rfl rfl (by decide)
    (by norm_num [overlaps, newX, newY, clampAxis, wallShotLevel, wallShot])
  refine ⟨⟨b', h1, h2⟩, h3 ?_⟩
  intro k x hk hx
  have hpass : tickPass wallShotLevel clock0 =
      [Entity.wall { x := 600, y := 100, width := 2, height := 400 },
       Entity.character { avatarA with x := 102, velocityX := 9 / 5 },
       Entity.bullet { wallShot with active := false, velocityX := 999 / 250 }] := by
    norm_num +decide [tickPass, tickUpTo, tickEntity,
      tickChecks, boundaryCheck, newX, newY, hitWall, wallShotLevel, wallShot, avatarA,
      newCharacter, clock0, collisionChecks, Entity.HandleCollision, clampAxis, hitsAxis,
      overlaps, Wall.HandleCollision, Character.HandleCollision, Bullet.HandleCollision,
      Ref.deref, Ref.update, updateAt]
  rw [hpass] at hx
  have hk' : k = 0 ∨ k = 1 := by omega
  rcases hk' with rfl | rfl
  · simp at hx; subst hx; rfl
  · simp at hx; subst hx; rfl

/-- C5: for every entity of the container, blocked or not, the velocity after the tick
is the velocity before the tick multiplied componentwise by the friction of the entity;
so its magnitude does not grow when the friction lies in `[0, 1)` and the velocity is
unchanged when the friction is 1.  An entity that is active after the pass is still in
the container after `Level.tick`. -/
theorem tick_scales_velocity_by_friction (level : Level) (clock : Clock) (j : Nat)
    (e : Entity) (hj : level.entities[j]? = some e) :
    ∃ e', (tickPass level clock)[j]? = some e' ∧
      e'.VelocityX = e.VelocityX * e.Friction ∧ e'.VelocityY = e.VelocityY * e.Friction ∧
      (0 ≤ e.Friction → e.Friction < 1 →
        Real.sqrt ((e'.VelocityX : ℝ) ^ 2 + (e'.VelocityY : ℝ) ^ 2) ≤
          Real.sqrt ((e.VelocityX : ℝ) ^ 2 + (e.VelocityY : ℝ) ^ 2)) ∧
      (e.Friction = 1 → e'.VelocityX = e.VelocityX ∧ e'.VelocityY = e.VelocityY) ∧
      (e'.Active = true → e' ∈ (Level.tick level clock).entities) := by
  obtain ⟨e', h1, -, -, -, -, -, hvx, hvy, -⟩ := tickPass_at level clock hj
  refine ⟨e', h1, hvx, hvy, ?_, ?_, fun ha => mem_tick_of_tickPass level clock h1 ha⟩
  · intro h0 hlt
    apply Real.sqrt_le_sqrt
    rw [hvx, hvy]
    push_cast
    have hf0 : (0 : ℝ) ≤ (e.Friction : ℝ) := by exact_mod_cast h0
    have hf1 : (e.Friction : ℝ) ≤ 1 := by exact_mod_cast hlt.le
    have hff : (e.Friction : ℝ) ^ 2 ≤ 1 := by nlinarith
    nlinarith [sq_nonneg (e.VelocityX : ℝ), sq_nonneg (e.VelocityY : ℝ),
      mul_nonneg (sq_nonneg (e.VelocityX : ℝ)) (sub_nonneg.mpr hff),
      mul_nonneg (sq_nonneg (e.VelocityY : ℝ)) (sub_nonneg.mpr hff)]
  · intro h1
    rw [hvx, hvy, h1, mul_one, mul_one]
    exact ⟨rfl, rfl⟩

/-- C5 at the avatar "a" of `arena`, whose move is blocked by avatar "b". -/
theorem tick_scales_velocity_by_friction_witness :
    ∃ e', (tickPass arena clock0)[1]? = some e' ∧
      e'.VelocityX = (Entity.character avatarA).VelocityX * (Entity.character avatarA).Friction ∧
      e'.VelocityY = (Entity.character avatarA).VelocityY * (Entity.character avatarA).Friction ∧
      (0 ≤ (Entity.character avatarA).Friction → (Entity.character avatarA).Friction < 1 →
        Real.sqrt ((e'.VelocityX : ℝ) ^ 2 + (e'.VelocityY : ℝ) ^ 2) ≤
          Real.sqrt (((Entity.character avatarA).VelocityX : ℝ) ^ 2 +
            ((Entity.character avatarA).VelocityY : ℝ) ^ 2)) ∧
      ((Entity.character avatarA).Friction = 1 →
        e'.VelocityX = (Entity.character avatarA).VelocityX ∧
          e'.VelocityY = (Entity.character avatarA).VelocityY) ∧
      (e'.Active = true → e' ∈ (Level.tick arena clock0).entities) :=
  tick_scales_velocity_by_friction arena clock0 1 (Entity.character avatarA) rfl

/-- C6: `RemoveInactive` removes at most one entity.  Either no entity is inactive and
the list is returned unchanged, or the list is `pre ++ e :: post` with `e` the first
inactive entity and the result is `pre ++ post`. -/
theorem RemoveInactive_removes_first_inactive (es : List Entity) :
    ((∀ x ∈ es, x.Active = true) ∧ EntityList.RemoveInactive es = es) ∨
      ∃ pre e post, es = pre ++ e :: post ∧ (∀ x ∈ pre, x.Active = true) ∧
        e.Active = false ∧ EntityList.RemoveInactive es = pre ++ post := by
  rcases exists_first_inactive es with h | ⟨pre, e, post, h1, h2, h3⟩
  · exact Or.inl ⟨h, RemoveInactive_of_all_active h⟩
  · exact Or.inr ⟨pre, e, post, h1, h2, h3, h1 ▸ RemoveInactive_append h2 h3⟩

theorem spawn7_eq :
    Op.apply mainLevel (Op.spawn "7" "A" [(1 / 2, 1 / 2)]) =
      some { mainLevel with entities := mainLevel.entities ++ [Entity.character avatar7] } := by
  norm_num +decide [Op.apply, EntityList.SpawnEntity, spawnIntersects,
      boxesIntersect, EntityList.Append, mainLevel, newCharacter, avatar7]

theorem spawn8_eq :
    Op.apply { mainLevel with entities := mainLevel.entities ++ [Entity.character avatar7] }
        (Op.spawn "8" "B" [(1 / 4, 1 / 2)]) =
      some { mainLevel with
        entities := mainLevel.entities ++ [Entity.character avatar7, Entity.character avatar8] } := by
  norm_num +decide [Op.apply, EntityList.SpawnEntity, spawnIntersects,
      boxesIntersect, EntityList.Append, mainLevel, newCharacter, avatar7, avatar8]

theorem shortGame_eq :
    run mainLevel shortGame =
      some { mainLevel with
        tickTime := 1
        entities := mainLevel.entities ++ [Entity.character avatar7, Entity.character avatar8,
          Entity.bullet { bullet7 with x := 400, velocityX := 999 / 250 }] } := by
  simp only [shortGame, run, spawn7_eq, spawn8_eq]
  norm_num +decide [Op.apply, characterShoot, Level.tick, EntityList.RemoveInactive,
      tickPass, tickUpTo, tickEntity, tickChecks, boundaryCheck, newX, newY, hitWall,
      EntityList.Append, mainLevel, newCharacter, avatar7, avatar8, bullet7, clock0,
      collisionChecks, Entity.HandleCollision, clampAxis, hitsAxis, overlaps,
      Wall.HandleCollision, Character.HandleCollision, Bullet.HandleCollision,
      Ref.deref, Ref.update, updateAt]

/-- C9, as stated, fails: in `ghostLevel` the avatar "g" is inactive when the tick begins,
yet the pass advances its position by its velocity and applies friction to it, and the
move of avatar "a" is blocked by the overlap with "g". -/
theorem inactive_entity_takes_part_counterexample :
    tickPass ghostLevel clock0 =
      [Entity.character { avatarA with velocityX := 9 / 5 },
       Entity.character
         { avatarB with id := "g", active := false, y := 103, velocityY := 27 / 10 }] := by
  norm_num +decide [tickPass, tickUpTo, tickEntity,
      tickChecks, boundaryCheck, newX, newY, hitWall, ghostLevel, avatarA, avatarB,
      newCharacter, clock0, collisionChecks, Entity.HandleCollision, clampAxis, hitsAxis,
      overlaps, Character.HandleCollision, Ref.deref, updateAt]

/-- C9 (amended): the processing pass of `Level.tick` never reads the `active` flag.  Up
to the `active` flags, it computes on any level what it computes on the same level with
every entity set active: an entity that is inactive when the tick begins is integrated,
has its `HandleCollision` invoked and is an overlapping `other` like an active one. -/
theorem tick_pass_ignores_active (level : Level) (clock : Clock) :
    (tickPass level clock).map Entity.activated =
      (tickPass { level with entities := level.entities.map Entity.activated } clock).map
        Entity.activated := by
  refine tickPass_activated level
    { level with entities := level.entities.map Entity.activated } clock rfl rfl ?_
  simp only [List.map_map]
  congr 1
  funext e
  simp only [Function.comp, Entity.activated]
  cases e <;> rfl

/-- C10, as stated, fails: in `twoClosedLevel` two avatars are inactive when the tick
begins, and one of them is still in the container when `Level.tick` has returned. -/
theorem tick_leaves_inactive_counterexample :
    ∃ e ∈ (Level.tick twoClosedLevel clock0).entities, e.Active = false := by
  refine ⟨Entity.character { avatarB with active := false }, ?_, rfl⟩
  norm_num +decide [Level.tick, EntityList.RemoveInactive, tickPass, tickUpTo, tickEntity,
      tickChecks, boundaryCheck, newX, newY, hitWall, twoClosedLevel, avatarA, avatarB,
      newCharacter, clock0, collisionChecks, Entity.HandleCollision, clampAxis, hitsAxis,
      overlaps, Character.HandleCollision, Ref.deref, updateAt]

/-- C10 (amended): `Level.tick` purges one inactive entity: the container after the tick
holds one inactive entity fewer than the processing pass left (none fewer when it left
none), and the pass leaves at least as many inactive entities as the tick began with.
So the container is free of inactive entities after the tick when the pass left at most
one. -/
theorem tick_purges_one_inactive (level : Level) (clock : Clock) :
    (Level.tick level clock).entities.countP (fun e => !e.Active) =
        (tickPass level clock).countP (fun e => !e.Active) - 1 ∧
      level.entities.countP (fun e => !e.Active) ≤
        (tickPass level clock).countP (fun e => !e.Active) ∧
      ((tickPass level clock).countP (fun e => !e.Active) ≤ 1 →
        ∀ e ∈ (Level.tick level clock).entities, e.Active = true) := by
  have h1 : (Level.tick level clock).entities.countP (fun e => !e.Active) =
      (tickPass level clock).countP (fun e => !e.Active) - 1 :=
    countP_RemoveInactive (tickPass level clock)
  refine ⟨h1, ?_, fun hle e he => ?_⟩
  · exact countP_le_of_pointwise _ (fun e e' hr he => by
      have := hr.2.1 (by simpa using he)
      simpa using this) (tickPass_stable activeRel_stable level clock)
  · have h0 : (Level.tick level clock).entities.countP (fun e => !e.Active) = 0 := by
      rw [h1]; omega
    rw [List.countP_eq_zero] at h0
    simpa using h0 e he

/-- C11: a wall is immutable and always active.  `SetPosition`, `SetVelocity` and
`SetActive` leave it as it is and `Active` is true.  `Level.tick` leaves every wall of the
container as it is: the wall is stored at its index after the pass, it is in the
container after the tick, and the walls of the container are the same in the same order.
The turn of the wall as the moving entity changes no entity, and its `HandleCollision`
never blocks. -/
theorem wall_is_immutable (level : Level) (clock : Clock) (j : Nat) (w : Wall)
    (hj : level.entities[j]? = some (Entity.wall w)) :
    (∀ x y, (Entity.wall w).SetPosition x y = Entity.wall w) ∧
      (∀ vx vy, (Entity.wall w).SetVelocity vx vy = Entity.wall w) ∧
      (∀ v, (Entity.wall w).SetActive v = Entity.wall w) ∧
      (Entity.wall w).Active = true ∧
      (tickPass level clock)[j]? = some (Entity.wall w) ∧
      Entity.wall w ∈ (Level.tick level clock).entities ∧
      walls (Level.tick level clock).entities = walls level.entities ∧
      tickUpTo level clock (j + 1) = tickUpTo level clock j ∧
      (∀ other, (w.HandleCollision other).Blocked = false) ∧
      (∀ (es : List Entity) (i : Nat) (r : Ref) (now : Int), es[i]? = some (Entity.wall w) →
        (Entity.HandleCollision es i r now).1 = es) := by
  have hp := getElem?_tickUpTo_wall level clock level.entities.length hj
  refine ⟨fun _ _ => rfl, fun _ _ => rfl, fun _ => rfl, rfl, hp,
    mem_tick_of_tickPass level clock hp rfl, walls_tick level clock, ?_, fun _ => rfl, ?_⟩
  · exact tickEntity_wall level clock _ j (getElem?_tickUpTo_wall level clock j hj)
  · intro es i r now hi
    exact handleCollision_nonbullet es i r now hi (by simp)

/-- C11 at the wall of `arena`. -/
theorem wall_is_immutable_witness :
    (tickPass arena clock0)[0]? =
        some (Entity.wall { x := 600, y := 100, width := 2, height := 400 }) ∧
      Entity.wall { x := 600, y := 100, width := 2, height := 400 } ∈
        (Level.tick arena clock0).entities ∧
      walls (Level.tick arena clock0).entities = walls arena.entities ∧
      tickUpTo arena clock0 (0 + 1) = tickUpTo arena clock0 0 :=
  have h := wall_is_immutable arena clock0 0 { x := 600, y := 100, width := 2, height := 400 } rfl
  ⟨h.2.2.2.2.1, h.2.2.2.2.2.1, h.2.2.2.2.2.2.1, h.2.2.2.2.2.2.2.1⟩

/-- C12, as stated, fails: in the level of `main` after avatar "7" has joined and fired
once, the snapshot built for avatar "7" has `you = true` on the entry of the avatar and
on the entry of its bullet, which has the id of the avatar. -/
theorem you_flag_on_bullet_counterexample :
    run mainLevel joinAndShoot = some afterJoinAndShoot ∧
      (afterJoinAndShoot.toJSON (Entity.character avatar7) 0).Entities.map
          (fun s => (s.Type', s.Id, s.You)) =
        [("wall", "wall", false), ("wall", "wall", false), ("wall", "wall", false),
         ("character", "7", true), ("bullet", "7", true)] := by
  refine ⟨joinAndShoot_eq, ?_⟩
  simp +decide [Level.toJSON, afterJoinAndShoot, entitySlim, mainLevel, EntityList.Append,
    avatar7, bullet7, newCharacter, EntityType.String]

/-- C12 (amended): the entity list built by `toJSON` has one entry for each entity of the
container, in container order, and the `you` flag of an entry is true exactly when the id
of its entity is the id of the receiving user.  So it is true on the entry of the user's
avatar and on the entries of the bullets that it fired, and false on the entry of every
entity with another id. -/
theorem you_flag_iff_same_id (level : Level) (user : Entity) (now : Int) (k : Nat)
    (e : Entity) (hk : level.entities[k]? = some e) :
    (level.toJSON user now).Entities.length = level.entities.length ∧
      ∃ s, (level.toJSON user now).Entities[k]? = some s ∧ s.Id = e.Id ∧
        s.Type' = (Entity.Type e).String ∧ (s.You = true ↔ e.Id = user.Id) := by
  refine ⟨by simp [Level.toJSON], entitySlim user e, ?_, ?_⟩
  · simp [Level.toJSON, List.getElem?_map, hk]
  · obtain ⟨h1, h2, h3⟩ := entitySlim_fields user e
    exact ⟨h1, h2, by rw [h3]; simp⟩

/-- C12 (amended) at the bullet of avatar "7" in the snapshot built for avatar "7". -/
theorem you_flag_iff_same_id_witness :
    (afterJoinAndShoot.toJSON (Entity.character avatar7) 0).Entities.length =
        afterJoinAndShoot.entities.length ∧
      ∃ s, (afterJoinAndShoot.toJSON (Entity.character avatar7) 0).Entities[4]? = some s ∧
        s.Id = (Entity.bullet bullet7).Id ∧
        s.Type' = (Entity.Type (Entity.bullet bullet7)).String ∧
        (s.You = true ↔ (Entity.bullet bullet7).Id = (Entity.character avatar7).Id) :=
  you_flag_iff_same_id afterJoinAndShoot (Entity.character avatar7) 0 4 (Entity.bullet bullet7)
    rfl

/-- C13: `Bullet.HandleCollision` writes scores only when the other entity is a character
with another id.  For the bullet `b` stored at index `i` and a character `c` with the id
of the bullet stored at index `j`: the call for `c` returns `Blocked = false` and leaves
the bullet active and every entity as it is; any call whose `entity` is not a character
with another id leaves every score and every `lastHit`; the collision checks of the bullet
skip the entity at `j`, whether it overlaps or not; and when the bullet does not hit the
boundary and every other entity has its id or is not overlapped, its collision checks
change nothing at all. -/
theorem bullet_ignores_own_shooter (level : Level) (clock : Clock) (es : List Entity)
    (i j : Nat) (b : Bullet) (c : Character)
    (hi : es[i]? = some (Entity.bullet b)) (hj : es[j]? = some (Entity.character c))
    (hid : c.id = b.id) :
    (∀ now, Entity.HandleCollision es i (Ref.index j) now = (es, { Blocked := false })) ∧
      (∀ (r : Ref) (entity : Entity) (now : Int),
        ¬ (Entity.Type entity = EntityType.CharacterType ∧ entity.Id ≠ b.id) →
        (b.HandleCollision i es r entity now).1.map record = es.map record) ∧
      (∀ (nx ny : ℚ) (w h : Int) (bl : Bool),
        collisionChecks clock i b.id nx ny w h (j + 1) (es, bl) =
          collisionChecks clock i b.id nx ny w h j (es, bl)) ∧
      (hitWall level (Entity.bullet b) = false →
        (∀ (k : Nat) (o : Entity), es[k]? = some o → k ≠ j →
          b.id = o.Id ∨ overlaps (newX level (Entity.bullet b)) (newY level (Entity.bullet b))
            b.width b.height o = false) →
        tickChecks level clock es i (Entity.bullet b) = (es, false)) := by
  refine ⟨fun now => ?_, fun r entity now h => bulletHandleCollision_record b i es r entity now h,
    fun nx ny w h bl => ?_, fun hin hskip => ?_⟩
  · rw [handleCollision_bullet es i (Ref.index j) now hi (by simpa [Ref.deref] using hj)]
    exact bulletHandleCollision_same_id b i es (Ref.index j) c now hid
  · exact collisionChecks_succ_same_id clock i b.id nx ny w h j (es, bl) hj (by simpa using hid)
  · apply tickChecks_no_call level clock es i (Entity.bullet b) hin
    intro k o ho
    by_cases hkj : k = j
    · left
      rw [hkj, hj] at ho
      cases ho
      simpa using hid.symm
    · exact hskip k o ho hkj

/-- C13 at `ownShotLevel`: the bullet overlaps the avatar that fired it, and its collision
checks leave the level as it is. -/
theorem bullet_ignores_own_shooter_witness :
    overlaps (newX ownShotLevel (Entity.bullet ownShot)) (newY ownShotLevel (Entity.bullet ownShot))
        ownShot.width ownShot.height (Entity.character avatarA) = true ∧
      (∀ now, Entity.HandleCollision ownShotLevel.entities 1 (Ref.index 0) now =
        (ownShotLevel.entities, { Blocked := false })) ∧
      tickChecks ownShotLevel clock0 ownShotLevel.entities 1 (Entity.bullet ownShot) =
        (ownShotLevel.entities, false) := by
  have h := bullet_ignores_own_shooter ownShotLevel clock0 ownShotLevel.entities 1 0 ownShot
    avatarA rfl rfl rfl
  refine ⟨?_, h.1, h.2.2.2 ?_ ?_⟩
  · norm_num [overlaps, newX, newY, clampAxis, ownShotLevel, ownShot, avatarA, newCharacter]
  · norm_num [hitWall, hitsAxis, ownShotLevel, ownShot]
  · intro k o ho hk
    match k with
    | 0 => exact absurd rfl hk
    | 1 =>
      simp [ownShotLevel] at ho
      subst ho
      left; rfl
    | k + 2 => simp [ownShotLevel] at ho

/-- C14: the `Blocked` result of `HandleCollision` is the entry of the table of collision
resolution for the types of the moving entity and of the other entity: a moving character
is blocked exactly by a wall or a character, a moving bullet exactly by a wall; and
`HandleCollision` of a character changes no entity. -/
theorem handleCollision_blocked_table (es : List Entity) (i : Nat) (r : Ref) (now : Int)
    (mover other : Entity) (hi : es[i]? = some mover) (hr : r.deref es = some other) :
    (Entity.HandleCollision es i r now).2.Blocked =
        blockedTable (Entity.Type mover) (Entity.Type other) ∧
      (Entity.Type mover = EntityType.CharacterType →
        ((Entity.HandleCollision es i r now).2.Blocked = true ↔
          (Entity.Type other = EntityType.WallType ∨
            Entity.Type other = EntityType.CharacterType)) ∧
        (Entity.HandleCollision es i r now).1 = es) ∧
      (Entity.Type mover = EntityType.BulletType →
        ((Entity.HandleCollision es i r now).2.Blocked = true ↔
          Entity.Type other = EntityType.WallType)) := by
  have key : (Entity.HandleCollision es i r now).2.Blocked =
      blockedTable (Entity.Type mover) (Entity.Type other) := by
    unfold Entity.HandleCollision
    rw [hi, hr]
    cases mover with
    | wall w => rfl
    | character c =>
      cases other <;> simp [Character.HandleCollision, blockedTable]
    | bullet b =>
      cases other with
      | wall w => simp [Bullet.HandleCollision, blockedTable]
      | character c =>
        by_cases hid : c.id = b.id <;> simp [Bullet.HandleCollision, blockedTable, hid]
      | bullet b' => simp [Bullet.HandleCollision, blockedTable]
  refine ⟨key, fun hm => ⟨?_, ?_⟩, fun hm => ?_⟩
  · rw [key, hm]
    cases hto : Entity.Type other <;> simp [blockedTable]
  · cases mover with
    | wall w => simp at hm
    | bullet b => simp at hm
    | character c => exact (HandleCollision_character es i r now hi).1
  · rw [key, hm]
    cases hto : Entity.Type other <;> simp [blockedTable]

/-- C14 at avatar "a" of `arena` against the wall, and at the bullet against avatar "b". -/
theorem handleCollision_blocked_table_witness :
    (Entity.HandleCollision arena.entities 1 (Ref.index 0) 0).2.Blocked = true ∧
      (Entity.HandleCollision arena.entities 3 (Ref.index 2) 0).2.Blocked = false :=
  ⟨(handleCollision_blocked_table arena.entities 1 (Ref.index 0) 0 (Entity.character avatarA)
      (Entity.wall { x := 600, y := 100, width := 2, height := 400 }) rfl rfl).1,
   (handleCollision_blocked_table arena.entities 3 (Ref.index 2) 0 (Entity.bullet bulletA)
      (Entity.character avatarB) rfl rfl).1⟩

/-- C16: a double hit in one tick.  `Bullet.HandleCollision` does not read the `active`
flag of the bullet, so a call made after the bullet has been deactivated does what it
does for an active bullet: two calls in a row for two characters with ids other than the
id of the bullet take 1 from the score of each and add 2 to the score of the character
with the id of the bullet.  In `doubleHitLevel` the proposed position of the bullet of
avatar "a" overlaps the boxes of the avatars "b" and "c": the tick takes 1 from the score
of each of them, adds 2 to the score of "a" and removes the bullet. -/
theorem double_hit_in_one_tick :
    (∀ (b : Bullet) (i : Nat) (es : List Entity) (r : Ref) (entity : Entity) (now : Int),
        (b.SetActive false).HandleCollision i es r entity now =
          b.HandleCollision i es r entity now) ∧
      (∀ (es : List Entity) (i ja jb jc : Nat) (b : Bullet) (cA cB cC : Character)
          (now1 now2 : Int),
        es[i]? = some (Entity.bullet b) → es[ja]? = some (Entity.character cA) →
        es[jb]? = some (Entity.character cB) → es[jc]? = some (Entity.character cC) →
        cA.id = b.id → cB.id ≠ b.id → cC.id ≠ b.id → jb ≠ jc →
        (Entity.HandleCollision (Entity.HandleCollision es i (Ref.index jb) now1).1 i
          (Ref.index jc) now2).1[jb]? =
            some (Entity.character { cB with score := cB.score + -1, lastHit := (now1 : ℚ) }) ∧
        (Entity.HandleCollision (Entity.HandleCollision es i (Ref.index jb) now1).1 i
          (Ref.index jc) now2).1[jc]? =
            some (Entity.character { cC with score := cC.score + -1, lastHit := (now2 : ℚ) }) ∧
        (Entity.HandleCollision (Entity.HandleCollision es i (Ref.index jb) now1).1 i
          (Ref.index jc) now2).1[ja]? =
            some (Entity.character { cA with score := cA.score + 1 + 1 }) ∧
        (Entity.HandleCollision (Entity.HandleCollision es i (Ref.index jb) now1).1 i
          (Ref.index jc) now2).1[i]? = some (Entity.bullet { b with active := false })) ∧
      overlaps (newX doubleHitLevel (Entity.bullet { bulletA with x := 302, y := 312 }))
        (newY doubleHitLevel (Entity.bullet { bulletA with x := 302, y := 312 })) 8 8
        (Entity.character { avatarB with x := 300, y := 300 }) = true ∧
      overlaps (newX doubleHitLevel (Entity.bullet { bulletA with x := 302, y := 312 }))
        (newY doubleHitLevel (Entity.bullet { bulletA with x := 302, y := 312 })) 8 8
        (Entity.character avatarC) = true ∧
      tickPass doubleHitLevel clock0 =
        [Entity.character { avatarA with x := 102, velocityX := 9 / 5, score := 2 },
         Entity.character { avatarB with x := 300, y := 300, score := -1, lastHit := 1000 },
         Entity.character { avatarC with score := -1, lastHit := 1000 },
         Entity.bullet
           { bulletA with x := 306, y := 312, active := false, velocityX := 999 / 250 }] ∧
      (Level.tick doubleHitLevel clock0).entities =
        [Entity.character { avatarA with x := 102, velocityX := 9 / 5, score := 2 },
         Entity.character { avatarB with x := 300, y := 300, score := -1, lastHit := 1000 },
         Entity.character { avatarC with score := -1, lastHit := 1000 }] := by
  have hpass : tickPass doubleHitLevel clock0 =
        [Entity.character { avatarA with x := 102, velocityX := 9 / 5, score := 2 },
         Entity.character { avatarB with x := 300, y := 300, score := -1, lastHit := 1000 },
         Entity.character { avatarC with score := -1, lastHit := 1000 },
         Entity.bullet
           { bulletA with x := 306, y := 312, active := false, velocityX := 999 / 250 }] := by
    norm_num +decide [tickPass, tickUpTo, tickEntity, tickChecks, boundaryCheck, newX, newY,
      hitWall, doubleHitLevel, avatarA, avatarB, avatarC, bulletA, newCharacter, clock0,
      collisionChecks, Entity.HandleCollision, clampAxis, hitsAxis, overlaps,
      Character.HandleCollision, Bullet.HandleCollision, Ref.deref, Ref.update, updateAt]
  refine ⟨fun b i es r entity now => rfl, ?_, ?_, ?_, hpass, ?_⟩
  · intro es i ja jb jc b cA cB cC now1 now2 hi hA hB hC hAid hBid hCid hbc
    exact (handleCollision_two_hits es i ja jb jc b cA cB cC now1 now2 hi hA hB hC hAid hBid
      hCid hbc).2.2
  · norm_num [overlaps, newX, newY, clampAxis, doubleHitLevel, bulletA, avatarB, newCharacter]
  · norm_num [overlaps, newX, newY, clampAxis, doubleHitLevel, bulletA, avatarC, newCharacter]
  · show EntityList.RemoveInactive (tickPass doubleHitLevel clock0) = _
    rw [hpass]
    simp [EntityList.RemoveInactive, avatarA, avatarB, avatarC, newCharacter, bulletA]

/-- C17: repeated calls of `RemoveInactive`, with no other change of the list in between,
remove one inactive entity per call and never an active one: after `j` calls the list
holds `k - j` inactive entities, where `k` is their number at the start, and the same
active entities in the same order; after `k` calls it is the original list filtered to
its active entities. -/
theorem RemoveInactive_catches_up (es : List Entity) (j : Nat) :
    (EntityList.RemoveInactive^[j] es).countP (fun e => !e.Active) =
        es.countP (fun e => !e.Active) - j ∧
      (EntityList.RemoveInactive^[j] es).filter (fun e => e.Active) =
        es.filter (fun e => e.Active) ∧
      EntityList.RemoveInactive^[es.countP (fun e => !e.Active)] es =
        es.filter (fun e => e.Active) := by
  refine ⟨countP_iterate_RemoveInactive es j, filter_iterate_RemoveInactive es j, ?_⟩
  have h0 := countP_iterate_RemoveInactive es (es.countP (fun e => !e.Active))
  rw [Nat.sub_self] at h0
  exact (filter_active_of_countP_eq_zero h0).symm.trans (filter_iterate_RemoveInactive es _)

/-- C19: a position clamped at the boundary is never committed.  An entity of any kind
whose proposed position (position plus velocity) crosses a side of the world has after
the tick the position it had before: a character is blocked, a bullet is blocked and
inactive, a wall ignores `SetPosition`. -/
theorem clamped_position_not_committed (level : Level) (clock : Clock) (j : Nat) (e : Entity)
    (hj : level.entities[j]? = some e)
    (hc : e.X + e.VelocityX < 0 ∨ (level.width : ℚ) < e.X + e.VelocityX + (e.Width : ℚ) ∨
      e.Y + e.VelocityY < 0 ∨ (level.height : ℚ) < e.Y + e.VelocityY + (e.Height : ℚ)) :
    ∃ e', (tickPass level clock)[j]? = some e' ∧ e'.X = e.X ∧ e'.Y = e.Y ∧
      (Entity.Type e ≠ EntityType.WallType →
        (tickChecks level clock (tickUpTo level clock j) j e).2 = true) ∧
      (Entity.Type e = EntityType.BulletType → e'.Active = false) := by
  have hw := hitWall_of_crossing hc
  obtain ⟨e', h1, -, -, -, -, -, -, -, hpos⟩ := tickPass_at level clock hj
  refine ⟨e', h1, ?_, ?_, ?_, ?_⟩
  · rcases hpos with h | h
    · exact h.1
    · rw [hw] at h; exact absurd h.2.1 (by simp)
  · rcases hpos with h | h
    · exact h.2
    · rw [hw] at h; exact absurd h.2.1 (by simp)
  · intro ht
    obtain ⟨e1, h2, hm⟩ := tickUpTo_before level clock hj j (le_refl j)
    rw [← tickChecks_congr level clock _ j hm]
    exact tickChecks_blocked_of_hitWall level clock _ j e1 h2
      (by rw [hitWall_congr level hm]; exact hw)
      (by rw [((motion_eq_iff e e1).mp hm).1]; exact ht)
  · intro ht
    cases e with
    | wall w => simp at ht
    | character c => simp at ht
    | bullet b =>
      obtain ⟨b', h2, hb'⟩ := tickPass_bullet_boundary level clock hj hw
      rw [h1] at h2
      cases h2
      simpa using hb'

/-- C19 at the bullet of `edgeShotLevel`, which would leave the world on the right. -/
theorem clamped_position_not_committed_witness :
    ∃ e', (tickPass edgeShotLevel clock0)[2]? = some e' ∧
      e'.X = (Entity.bullet { bulletA with x := 790 }).X ∧
      e'.Y = (Entity.bullet { bulletA with x := 790 }).Y ∧
      (Entity.Type (Entity.bullet { bulletA with x := 790 }) ≠ EntityType.WallType →
        (tickChecks edgeShotLevel clock0 (tickUpTo edgeShotLevel clock0 2) 2
          (Entity.bullet { bulletA with x := 790 })).2 = true) ∧
      (Entity.Type (Entity.bullet { bulletA with x := 790 }) = EntityType.BulletType →
        e'.Active = false) :=
  clamped_position_not_committed edgeShotLevel clock0 2 (Entity.bullet { bulletA with x := 790 })
    rfl (by norm_num [edgeShotLevel, bulletA])

end DmMultiplayer
